import Mathlib

/-!
Verification of the template-growing spreadsheet materialization engine of
the pdf-to-excel repository (src/main.py and src/pdf-to-excel-processor.py).

The Python code mutates an openpyxl worksheet in place.  We embed the
worksheet as a `Sheet` record (cell values, cell styles, row heights, the
list of merged ranges, and the tracked maximal row of existing cells) and
embed every Excel-layer function of the two scripts as a deterministic
state transformer `Step := Sheet → Sheet × Option PyErr`, where the second
component records a raised-and-not-yet-caught Python exception.  A `try
... except` block becomes `tryCatchS`, which keeps the partial mutations
performed before the raise (as CPython does) and swallows the error.

Semantics of the openpyxl primitives used by the code (openpyxl 3.x):
* assigning `cell.value` on a merged cell that is not the top-left of its
  range raises (MergedCell values are read-only); style assignments on any
  cell never raise;
* `ws.cell(row=r, column=c, value=v)` only assigns when `v is not None`;
* `ws.merge_cells` adds the range if it is not already present (no overlap
  check, no exception) and blanks the values of every non-top-left cell of
  the range;
* `ws.unmerge_cells` raises `ValueError`/`KeyError` when the exact range is
  not currently merged, otherwise removes it;
* `ws.insert_rows` / `ws.delete_rows` move cell contents and styles but do
  not update merged ranges or row heights (documented openpyxl limitation);
  inserting at an index past the maximal existing row moves nothing;
* `ws.max_row` is the maximal row containing an existing (possibly merely
  styled or merge-member) cell.
-/

/-- Raised Python exception, by class name. -/
inductive PyErr where
  | typeError
  | attributeError
  | valueError
  deriving Repr, DecidableEq

/-- A JSON field value that is present: either a string or JSON `null`
(Python `None`). -/
inductive PVal where
  | str (s : String)
  | null
  deriving Repr, DecidableEq

/-- Python `d.get(key, '')` on a field embedded as `Option PVal`
(`none` = key absent).  `none` result stands for Python `None`. -/
def pyGetStr : Option PVal → Option String
  | none => some ("")
  | some PVal.null => none
  | some (PVal.str s) => some s

/-- Python truthiness of the result of `d.get(key, '')`:
`None` and `''` are falsy. -/
def pyTruthy : Option String → Bool
  | none => false
  | some s => !(s = "")

/-- One record of the `Items` array, with the seven item keys.  Each field
is `none` when the key is absent and `some PVal.null` when it is JSON
`null`. -/
structure PItem where
  itemName : Option PVal := none
  sachetSize : Option PVal := none
  fillingVolume : Option PVal := none
  productsHeating : Option PVal := none
  embossingData : Option PVal := none
  requiredBulkQuantity : Option PVal := none
  qty : Option PVal := none
  deriving Repr, DecidableEq

/-- The `Items` key's value when present: JSON `null` or a list. -/
inductive ItemsVal where
  | null
  | list (xs : List PItem)
  deriving Repr, DecidableEq

/-- The extracted order data handed to `map_data_to_excel`. -/
structure OrderData where
  clientName : Option PVal := none
  orderNumber : Option PVal := none
  foil : Option PVal := none
  returnOfBulk : Option PVal := none
  microAnalysis : Option PVal := none
  specificReqs : Option PVal := none
  items : Option ItemsVal := none
  deriving Repr, DecidableEq

/-- Python `data.get('Items', [])`: `none` result models the value `None`
(on which `len` raises `TypeError`), `some xs` a genuine list. -/
def pyGetItems : Option ItemsVal → Option (List PItem)
  | none => some []
  | some ItemsVal.null => none
  | some (ItemsVal.list xs) => some xs

/-- Python `s.split('\n')` on the character list of `s`: split at every
newline, keeping empty fragments. -/
def splitNl : List Char → List (List Char)
  | [] => [[]]
  | c :: rest =>
    if c = '\n' then [] :: splitNl rest
    else
      match splitNl rest with
      | [] => [[c]]
      | g :: gs => (c :: g) :: gs

/-- Python `'\n'.join(parts)` on character lists. -/
def joinNl : List (List Char) → List Char
  | [] => []
  | [g] => g
  | g :: gs => g ++ '\n' :: joinNl gs

/-- Python `s.split('\n')` for `String`. -/
def py_split_nl (s : String) : List String :=
  (splitNl s.data).map String.mk

/-- Python `'\n'.join(l)` for `String`. -/
def py_join_nl (l : List String) : String :=
  String.mk (joinNl (l.map String.data))

/-- Font attributes the code manipulates (`Font(name=..., size=...,
bold=...)`; plain `Font()` is the default). -/
structure XFont where
  name : Option String := none
  size : Option Nat := none
  bold : Bool := false
  deriving Repr, DecidableEq

/-- Border of one cell: the side styles (`none` = no side), as set by
`Border(left=Side(style=...), ...)`. -/
structure XBorder where
  left : Option String := none
  right : Option String := none
  top : Option String := none
  bottom : Option String := none
  deriving Repr, DecidableEq

/-- Alignment attributes used by the code. -/
structure XAlignment where
  horizontal : Option String := none
  vertical : Option String := none
  wrapText : Bool := false
  deriving Repr, DecidableEq

/-- Fill: the solid start colour when one is set (`PatternFill()` is the
empty default). -/
structure XFill where
  color : Option String := none
  deriving Repr, DecidableEq

/-- The style attributes of one cell, mirrored from the six attributes the
code copies and assigns. -/
structure CellStyle where
  font : XFont := {}
  border : XBorder := {}
  fill : XFill := {}
  alignment : XAlignment := {}
  numberFormat : String := "General"
  protection : Option Bool := some true
  deriving Repr, DecidableEq

/-- A rectangular merged-cell range (1-based rows and columns). -/
structure CRange where
  minRow : Nat
  minCol : Nat
  maxRow : Nat
  maxCol : Nat
  deriving Repr, DecidableEq

/-- Does the range cover cell `(r, c)`? -/
def CRange.covers (cr : CRange) (r c : Nat) : Bool :=
  decide (cr.minRow ≤ r) && decide (r ≤ cr.maxRow) &&
  decide (cr.minCol ≤ c) && decide (c ≤ cr.maxCol)

/-- Does the range's row span include row `r`?  This is the test
`merged_range.min_row <= row <= merged_range.max_row`. -/
def CRange.touchesRow (cr : CRange) (r : Nat) : Bool :=
  decide (cr.minRow ≤ r) && decide (r ≤ cr.maxRow)

/-- The worksheet state. -/
structure Sheet where
  val : Nat → Nat → Option String
  style : Nat → Nat → CellStyle
  height : Nat → Option Nat
  merges : List CRange
  maxRow : Nat

/-- Is `(r, c)` a merged cell other than the top-left of its range
(openpyxl `MergedCell`, whose value is read-only)? -/
def Sheet.isMergedMember (s : Sheet) (r c : Nat) : Bool :=
  s.merges.any fun cr =>
    cr.covers r c && !(decide (r = cr.minRow) && decide (c = cr.minCol))

/-- Record that cell `(r, _)` now exists (openpyxl creates cells on
access, growing `max_row`). -/
def Sheet.touchRow (s : Sheet) (r : Nat) : Sheet :=
  { s with maxRow := max s.maxRow r }

/-- Direct `cell.value = v` assignment: raises `AttributeError` when the
cell is a merged non-top-left cell, otherwise stores `v` (which may be
`None`, clearing the cell). -/
def Sheet.assignValue (s : Sheet) (r c : Nat) (v : Option String) :
    Sheet × Option PyErr :=
  if s.isMergedMember r c then (s.touchRow r, some PyErr.attributeError)
  else
    ({ s with
        val := fun r' c' => if r' = r && c' = c then v else s.val r' c',
        maxRow := max s.maxRow r }, none)

/-- The value-assigning part of `ws.cell(row=r, column=c, value=v)`:
openpyxl only assigns when `v is not None`, but the cell is created (and
`max_row` grows) either way. -/
def Sheet.cellWrite (s : Sheet) (r c : Nat) (v : Option String) :
    Sheet × Option PyErr :=
  match v with
  | none => (s.touchRow r, none)
  | some str => s.assignValue r c (some str)

/-- Update one cell's style with `f` (style assignment never raises, even
on merged cells). -/
def Sheet.modifyStyle (s : Sheet) (r c : Nat) (f : CellStyle → CellStyle) :
    Sheet :=
  { s with
    style := fun r' c' =>
      if r' = r && c' = c then f (s.style r' c') else s.style r' c',
    maxRow := max s.maxRow r }

/-- Set one row's height (`ws.row_dimensions[r].height = h`). -/
def Sheet.setHeight (s : Sheet) (r : Nat) (h : Option Nat) : Sheet :=
  { s with height := fun r' => if r' = r then h else s.height r' }

/-- Blank every non-top-left cell of `cr` (what `merge_cells` does to the
cells it turns into `MergedCell`s). -/
def Sheet.blankMembers (s : Sheet) (cr : CRange) : Sheet :=
  { s with
    val := fun r c =>
      if cr.covers r c && !(decide (r = cr.minRow) && decide (c = cr.minCol))
      then none else s.val r c }

/-- `ws.merge_cells`: add the range unless already present, then blank the
non-top-left cells of the range; never raises. -/
def Sheet.mergeCells (s : Sheet) (cr : CRange) : Sheet :=
  let s1 := if cr ∈ s.merges then s else { s with merges := s.merges ++ [cr] }
  { s1.blankMembers cr with maxRow := max s1.maxRow cr.maxRow }

/-- `ws.unmerge_cells`: raises when the exact range is not merged,
otherwise removes it (values are untouched). -/
def Sheet.unmergeCells (s : Sheet) (cr : CRange) : Sheet × Option PyErr :=
  if cr ∈ s.merges then
    ({ s with merges := s.merges.erase cr }, none)
  else (s, some PyErr.valueError)

/-- `ws.insert_rows(idx)` (single row): cells at rows `≥ idx` move down by
one; merged ranges and row heights are not updated; inserting past the
last existing row moves nothing. -/
def Sheet.insertRow (s : Sheet) (idx : Nat) : Sheet :=
  if s.maxRow < idx then s
  else
    { s with
      val := fun r c =>
        if r < idx then s.val r c
        else if r = idx then none
        else s.val (r - 1) c,
      style := fun r c =>
        if r < idx then s.style r c
        else if r = idx then {}
        else s.style (r - 1) c,
      maxRow := s.maxRow + 1 }

/-- `ws.delete_rows(idx, amt)`: rows `idx .. idx+amt-1` disappear, higher
rows move up; merged ranges and row heights are not updated. -/
def Sheet.deleteRows (s : Sheet) (idx amt : Nat) : Sheet :=
  if s.maxRow < idx then s
  else
    { s with
      val := fun r c => if r < idx then s.val r c else s.val (r + amt) c,
      style := fun r c => if r < idx then s.style r c else s.style (r + amt) c,
      maxRow := if s.maxRow < idx + amt then idx - 1 else s.maxRow - amt }

/-- A mutating Python statement sequence over one worksheet: final state
plus the exception escaping it, if any. -/
def Step : Type := Sheet → Sheet × Option PyErr

/-- The no-op statement. -/
def skipStep : Step := fun s => (s, none)

/-- Lift an exception-free mutation. -/
@[reducible] def liftStep (f : Sheet → Sheet) : Step := fun s => (f s, none)

/-- Lift a fallible primitive. -/
@[reducible] def primStep (f : Sheet → Sheet × Option PyErr) : Step := f

/-- Statement sequencing: a raised exception skips the rest. -/
def seqStep (a b : Step) : Step := fun s =>
  match a s with
  | (s', none) => b s'
  | (s', some e) => (s', some e)

/-- A `try ... except Exception: pass` block: the partial mutations stay,
the exception is swallowed. -/
def tryCatchS (a : Step) : Step := fun s => ((a s).1, none)

/-- Raise an exception with no state change. -/
def raiseStep (e : PyErr) : Step := fun s => (s, some e)

/-- Run the statements `f x` for each `x` of a list, in order. -/
def forEachStep {α : Type} (f : α → Step) : List α → Step
  | [] => skipStep
  | x :: xs => seqStep (f x) (forEachStep f xs)

/-- Python `range(a, b)` as a list. -/
def pyRange (a b : Nat) : List Nat := (List.range (b - a)).map (a + ·)

/-- Python `f"{row-11}."`, the row-number label of `set_product_data`
(Python subtraction, hence over `Int`). -/
def row_label (row : Nat) : String := toString ((row : Int) - 11) ++ "."

/-- The merged range `I{row}:L{row}` of the dispatch header. -/
def expedicia_range (row : Nat) : CRange := ⟨row, 9, row, 12⟩

/-- The fixed requirements box `I4:L9`. -/
def reqs_box : CRange := ⟨4, 9, 9, 12⟩

/-- The dispatch/shipment caption. -/
def expedicia_caption : String := "Expedícia objednávky"

/-- Thin border on all four sides. -/
def thin_border : XBorder :=
  { left := some ("thin"), right := some ("thin"),
    top := some ("thin"), bottom := some ("thin") }

/-- Medium border on all four sides. -/
def medium_border : XBorder :=
  { left := some ("medium"), right := some ("medium"),
    top := some ("medium"), bottom := some ("medium") }

/-- Thin border on the left side only. -/
def left_thin_border : XBorder := { left := some ("thin") }

/-- Thin border on left, right and bottom (the palette-row style). -/
def lrb_thin_border : XBorder :=
  { left := some ("thin"), right := some ("thin"), bottom := some ("thin") }

/-- `safely_unmerge_row_cells(ws, row)` (identical in both scripts up to
logging): snapshot the merged ranges touching `row`, unmerge each,
swallowing per-range errors, with a catch-all around the whole body. -/
def safely_unmerge_row_cells (row : Nat) : Step :=
  tryCatchS (fun s =>
    let todo := s.merges.filter fun cr => cr.touchesRow row
    forEachStep
      (fun cr => tryCatchS (primStep fun s' => s'.unmergeCells cr)) todo s)

/-- `copy_row_format(ws, source_row, target_row)` (identical in both
scripts): copy the row height, unmerge the target row, copy the six style
attributes of each of columns 1–12 whose source cell is styled
(per-column errors skipped), then force the red fill on column 12. -/
def copy_style_cell (source_row target_row col : Nat) : Step :=
  tryCatchS (liftStep fun s =>
    let s1 := (s.touchRow source_row).touchRow target_row
    if s1.style source_row col ≠ {} then
      s1.modifyStyle target_row col fun _ => s1.style source_row col
    else s1)

def copy_row_format (source_row target_row : Nat) : Step :=
  tryCatchS (
    seqStep (liftStep fun s => s.setHeight target_row (s.height source_row))
    (seqStep (safely_unmerge_row_cells target_row)
    (seqStep
      (forEachStep (copy_style_cell source_row target_row) (pyRange 1 13))
      (liftStep fun s => s.modifyStyle target_row 12 fun st =>
        { st with fill := { color := some ("FF0000") } }))))

/-- `prepare_product_rows(ws, num_items)` (identical in both scripts):
for more than two items, insert one row per extra item at `14 + i`, copy
the model row 13's format onto it and label it `f"{3+i}."`. -/
def prepare_one_row (i : Nat) : Step :=
  tryCatchS (
    seqStep (liftStep fun s => s.insertRow (14 + i))
    (seqStep (copy_row_format 13 (14 + i))
      (primStep fun s =>
        s.cellWrite (14 + i) 1 (some (toString (3 + i) ++ ".")))))

def prepare_product_rows (num_items : Nat) : Step :=
  if num_items ≤ 2 then skipStep
  else forEachStep prepare_one_row (List.range (num_items - 2))

/-- `set_product_data(ws, row, product)` (identical in both scripts):
unmerge the row, then write the row label, the seven item fields into
their fixed columns and the `/` separator, with a catch-all around the
body.  `ws.cell(..., value=None)` writes nothing. -/
def set_product_data (row : Nat) (product : PItem) : Step :=
  tryCatchS (
    seqStep (safely_unmerge_row_cells row)
    (seqStep (primStep fun s => s.cellWrite row 1 (some (row_label row)))
    (seqStep (primStep fun s => s.cellWrite row 2 (pyGetStr product.itemName))
    (seqStep (primStep fun s => s.cellWrite row 3 (pyGetStr product.embossingData))
    (seqStep (primStep fun s => s.cellWrite row 5 (pyGetStr product.productsHeating))
    (seqStep (primStep fun s => s.cellWrite row 6 (pyGetStr product.sachetSize))
    (seqStep (primStep fun s => s.cellWrite row 7 (pyGetStr product.fillingVolume))
    (seqStep (primStep fun s => s.cellWrite row 8 (pyGetStr product.qty))
    (seqStep (primStep fun s => s.cellWrite row 9 (pyGetStr product.requiredBulkQuantity))
      (primStep fun s => s.cellWrite row 10 (some ("/"))))))))))))

/-- The five fixed header-field assignments `ws['C3'] .. ws['C7']`
(identical in both scripts). -/
def header_fields_steps (data : OrderData) : Step :=
  seqStep (primStep fun s => s.assignValue 3 3 (pyGetStr data.clientName))
  (seqStep (primStep fun s => s.assignValue 4 3 (pyGetStr data.orderNumber))
  (seqStep (primStep fun s => s.assignValue 5 3 (pyGetStr data.foil))
  (seqStep (primStep fun s => s.assignValue 6 3 (pyGetStr data.returnOfBulk))
    (primStep fun s => s.assignValue 7 3 (pyGetStr data.microAnalysis)))))

/-- The clause list built from `Specific order requirements`: split a
truthy string on newlines, otherwise a single empty clause. -/
def reqs_clauses (data : OrderData) : List String :=
  match pyGetStr data.specificReqs with
  | some s => if !(s = "") then py_split_nl s else [("")]
  | none => [("")]

/-- The requirements-box steps shared by both scripts: merge `I4:L9`,
write the rejoined clauses into `I4` with left/top wrapped alignment, set
height 20 on rows 4–9. -/
def reqs_steps_common (data : OrderData) : Step :=
  seqStep (liftStep fun s => s.mergeCells reqs_box)
  (seqStep
    (primStep fun s =>
      s.assignValue 4 9 (some (py_join_nl (reqs_clauses data))))
  (seqStep (liftStep fun s => s.modifyStyle 4 9 fun st =>
      { st with alignment :=
          { horizontal := some ("left"), vertical := some ("top"),
            wrapText := true } })
    (forEachStep (fun r => liftStep fun s => s.setHeight r (some 20))
      (pyRange 4 10))))

/-- The `main.py` variant of the requirements step additionally unmerges
`I4:L9` first when that exact range is currently merged. -/
def reqs_steps_main (data : OrderData) : Step :=
  seqStep (fun s =>
    if reqs_box ∈ s.merges then
      tryCatchS (primStep fun s' => s'.unmergeCells reqs_box) s
    else (s, none))
  (reqs_steps_common data)

/-- The style reset `_recreate_expedicia_section` applies to each of the
header cells before re-merging (value `None`, default font/fill/border/
alignment, `General` number format, `protection = None`). -/
def recreate_clear_cell (row col : Nat) : Step :=
  seqStep (primStep fun s => s.assignValue row col none)
    (liftStep fun s => s.modifyStyle row col fun _ =>
      { font := {}, fill := {}, border := {}, alignment := {},
        numberFormat := "General", protection := none })

/-- `_recreate_expedicia_section(ws, new_start_row)` (main.py): unmerge
the exact header range if present, clear columns I–L of the row, merge
`I{row}:L{row}`, write the caption with centred bold thin-bordered style,
and set the row height to 20.  Not wrapped in its own `try`. -/
def recreate_expedicia_section (new_start_row : Nat) : Step :=
  seqStep (fun s =>
    if expedicia_range new_start_row ∈ s.merges then
      tryCatchS
        (primStep fun s' => s'.unmergeCells (expedicia_range new_start_row)) s
    else (s, none))
  (seqStep
    (forEachStep (fun col => recreate_clear_cell new_start_row col)
      (pyRange 9 13))
  (seqStep (liftStep fun s => s.mergeCells (expedicia_range new_start_row))
  (seqStep
    (primStep fun s =>
      s.assignValue new_start_row 9 (some expedicia_caption))
  (seqStep (liftStep fun s => s.modifyStyle new_start_row 9 fun st =>
      { st with alignment :=
          { horizontal := some ("center"), vertical := some ("center") } })
  (seqStep (liftStep fun s => s.modifyStyle new_start_row 9 fun st =>
      { st with font := { bold := true } })
  (seqStep (liftStep fun s => s.modifyStyle new_start_row 9 fun st =>
      { st with border := thin_border })
    (liftStep fun s => s.setHeight new_start_row (some 20))))))))

/-- `last_product_row` of `main.py`: `11 + len(items)`, with no floor. -/
def last_product_row (n : Nat) : Nat := 11 + n

/-- Write every item in input order into rows `12, 13, ...` (the
`for idx, product in enumerate(items, start=1): row = 11 + idx` loop of
both scripts, generalised over the first target row). -/
def write_products_from (row0 : Nat) : List PItem → Step
  | [] => skipStep
  | p :: ps => seqStep (set_product_data row0 p) (write_products_from (row0 + 1) ps)

/-- `map_data_to_excel(wb, data)` of `main.py`: header fields,
requirements box, row provisioning, item writing, and the relocated
dispatch header at `last_product_row + 2`, all inside one catch-all that
returns the sheet as-is on any error. -/
def map_data_to_excel_main (data : OrderData) : Step :=
  tryCatchS (
    seqStep (header_fields_steps data)
    (seqStep (reqs_steps_main data)
    (fun s =>
      match pyGetItems data.items with
      | none => raiseStep PyErr.typeError s
      | some items =>
        seqStep (prepare_product_rows items.length)
        (seqStep (write_products_from 12 items)
          (recreate_expedicia_section (last_product_row items.length + 2))) s)))

/-- `last_item_row` of `pdf-to-excel-processor.py`:
`11 + len(items) if items else 12` (floor 12 for an empty list). -/
def last_item_row_proc (items : List PItem) : Nat :=
  if items.isEmpty then 12 else 11 + items.length

/-- The stale-row cleanup of the processor's `map_data_to_excel` (the
block `if current_max_row > last_item_row: ...`): unmerge every row from
`last_item_row + 1` to the current extent, then delete those rows. -/
def clean_stale_rows (last_item_row : Nat) : Step := fun s =>
  let current_max := s.maxRow
  if last_item_row < current_max then
    seqStep
      (forEachStep (fun r => safely_unmerge_row_cells r)
        (pyRange (last_item_row + 1) (current_max + 1)))
      (if 0 < current_max - last_item_row then
        tryCatchS (liftStep fun s' =>
          s'.deleteRows (last_item_row + 1) (current_max - last_item_row))
      else skipStep) s
  else (s, none)

/-- The guarded cell blanking of `add_additional_rows`: create the cell,
and unless it is a merged member, write `""` (and for the middle columns
also the left/center alignment). -/
def guarded_blank (r c : Nat) (withAlign : Bool) : Sheet → Sheet := fun s =>
  let s1 := s.touchRow r
  if s1.isMergedMember r c then s1
  else
    let s2 := (s1.assignValue r c (some (""))).1
    if withAlign then
      s2.modifyStyle r c fun st =>
        { st with alignment :=
            { horizontal := some ("left"), vertical := some ("center") } }
    else s2

/-- One iteration of `add_additional_rows`: unmerge the row, insert it if
past the extent, set height 25, then blank columns A, L and B–K with the
merged-cell guard (inner errors skipped per row). -/
def add_one_additional_row (current_row : Nat) : Step :=
  seqStep (safely_unmerge_row_cells current_row)
  (seqStep
    (liftStep fun s =>
      if s.maxRow < current_row then s.insertRow current_row else s)
  (seqStep (liftStep fun s => s.setHeight current_row (some 25))
    (tryCatchS (liftStep fun s =>
      let s1 := guarded_blank current_row 1 false s
      let s2 := guarded_blank current_row 12 false s1
      (pyRange 2 12).foldl (fun acc c => guarded_blank current_row c true acc) s2))))

/-- `add_additional_rows(ws, last_item_row)` (processor): prepare the
nine trailing rows `last_item_row + 1 .. last_item_row + 9`. -/
def add_additional_rows (last_item_row : Nat) : Step :=
  tryCatchS
    (forEachStep (fun i => add_one_additional_row (last_item_row + 1 + i))
      (List.range 9))

/-- `format_expedition_row(ws, last_item_row)` (processor): merge
`I:L` of row `last_item_row + 2`, write the caption in bold 20pt
centred Calibri, and put a medium border on the four cells. -/
def format_expedition_row (last_item_row : Nat) : Step :=
  tryCatchS (
    seqStep
      (liftStep fun s => s.mergeCells (expedicia_range (last_item_row + 2)))
    (seqStep
      (primStep fun s =>
        s.assignValue (last_item_row + 2) 9 (some expedicia_caption))
    (seqStep (liftStep fun s => s.modifyStyle (last_item_row + 2) 9 fun st =>
        { st with font :=
            { name := some ("Calibri"), size := some 20, bold := true } })
    (seqStep (liftStep fun s => s.modifyStyle (last_item_row + 2) 9 fun st =>
        { st with alignment :=
            { horizontal := some ("center"), vertical := some ("center") } })
      (forEachStep (fun col => liftStep fun s =>
          s.modifyStyle (last_item_row + 2) col fun st =>
            { st with border := medium_border }) (pyRange 9 13))))))

/-- `format_palette_info_row(ws, last_item_row)` (processor): the
`Typ palty` / `Rozmer` / `Váha` labels at row `last_item_row + 3`, with a
`J:K` merge for `Rozmer`. -/
def format_palette_info_row (last_item_row : Nat) : Step :=
  tryCatchS (
    seqStep
      (primStep fun s =>
        s.assignValue (last_item_row + 3) 9 (some ("Typ palty")))
    (seqStep (liftStep fun s => s.modifyStyle (last_item_row + 3) 9 fun st =>
        { st with border := lrb_thin_border,
                  alignment :=
                    { horizontal := some ("left"), vertical := some ("center") },
                  font := { name := some ("Calibri"), size := some 16 } })
    (seqStep
      (liftStep fun s =>
        s.mergeCells ⟨last_item_row + 3, 10, last_item_row + 3, 11⟩)
    (seqStep
      (primStep fun s =>
        s.assignValue (last_item_row + 3) 10 (some ("Rozmer")))
    (seqStep (liftStep fun s => s.modifyStyle (last_item_row + 3) 10 fun st =>
        { st with alignment :=
            { horizontal := some ("left"), vertical := some ("center") },
                  font := { name := some ("Calibri"), size := some 16 } })
    (seqStep (liftStep fun s => s.modifyStyle (last_item_row + 3) 10 fun st =>
        { st with border := lrb_thin_border })
    (seqStep (liftStep fun s => s.modifyStyle (last_item_row + 3) 11 fun st =>
        { st with border := lrb_thin_border })
    (seqStep
      (primStep fun s =>
        s.assignValue (last_item_row + 3) 12 (some ("Váha")))
      (liftStep fun s => s.modifyStyle (last_item_row + 3) 12 fun st =>
        { st with border := lrb_thin_border,
                  alignment :=
                    { horizontal := some ("left"), vertical := some ("center") },
                  font := { name := some ("Calibri"), size := some 16 } })))))))))

/-- `format_final_rows(ws, last_item_row)` (processor): left borders on
column I of rows `+4 .. +7`, one `J:K` merge spanning those four rows,
and full thin borders on the merged box. -/
def format_final_rows (last_item_row : Nat) : Step :=
  tryCatchS (
    seqStep
      (forEachStep (fun r => liftStep fun s =>
          s.modifyStyle r 9 fun st => { st with border := left_thin_border })
        (pyRange (last_item_row + 4) (last_item_row + 8)))
    (seqStep
      (liftStep fun s =>
        s.mergeCells ⟨last_item_row + 4, 10, last_item_row + 7, 11⟩)
      (forEachStep (fun r =>
          forEachStep (fun c => liftStep fun s =>
              s.modifyStyle r c fun st => { st with border := thin_border })
            (pyRange 10 12))
        (pyRange (last_item_row + 4) (last_item_row + 8)))))

/-- `format_footer_rows(ws, last_item_row)` (processor): left borders on
columns I–L of row `+8`, full borders on columns A–L of row `+9`. -/
def format_footer_rows (last_item_row : Nat) : Step :=
  tryCatchS (
    seqStep
      (forEachStep (fun c => liftStep fun s =>
          s.modifyStyle (last_item_row + 8) c fun st =>
            { st with border := left_thin_border })
        (pyRange 9 13))
      (forEachStep (fun c => liftStep fun s =>
          s.modifyStyle (last_item_row + 9) c fun st =>
            { st with border := thin_border })
        (pyRange 1 13)))

/-- `map_data_to_excel(wb, data)` of `pdf-to-excel-processor.py`: header
fields, requirements box (merged without a preceding unmerge), row
provisioning, item writing, stale-row cleanup, the nine fresh trailing
rows and the four trailing-block formatters, all inside one catch-all
that returns the sheet as-is on any error. -/
def map_data_to_excel_proc (data : OrderData) : Step :=
  tryCatchS (
    seqStep (header_fields_steps data)
    (seqStep (reqs_steps_common data)
    (fun s =>
      match pyGetItems data.items with
      | none => raiseStep PyErr.typeError s
      | some items =>
        let last := last_item_row_proc items
        seqStep (prepare_product_rows items.length)
        (seqStep (write_products_from 12 items)
        (seqStep (clean_stale_rows last)
        (seqStep (add_additional_rows last)
        (seqStep (format_expedition_row last)
        (seqStep (format_palette_info_row last)
        (seqStep (format_final_rows last)
          (format_footer_rows last))))))) s)))

/-- The first row items are written to (row 12; the label formula
`f"{row-11}."` gives `1.` exactly there). -/
def first_item_row : Nat := 12

/-- The style the template's two pre-existing item rows carry. -/
def template_item_style : CellStyle :=
  { font := { name := some ("Calibri"), size := some 11 },
    border := thin_border }

/-- Modelled from the spec: the spreadsheet template file
(`files/empty file for extraction excel file.xlsx`) is not in the source
tree; per the template contract (§6) it has fixed single header cells,
the requirements box `I4:L9` pre-merged, exactly two pre-styled item rows
(rows 12 and 13, row 13 being the model row) and no pre-existing trailing
block, so its extent ends at row 13. -/
def templateSheet : Sheet :=
  { val := fun _ _ => none,
    style := fun r _ => if r = 12 || r = 13 then template_item_style else {},
    height := fun _ => none,
    merges := [reqs_box],
    maxRow := 13 }


/-- The merged requirements box value the code computes. -/
def reqs_text (data : OrderData) : String := py_join_nl (reqs_clauses data)

/-- Does `cr`'s row span meet `{row0, ..., row0 + n - 1}`? -/
def CRange.touchesRowRange (cr : CRange) (row0 n : Nat) : Bool :=
  decide (0 < n) && decide (cr.minRow ≤ cr.maxRow) &&
  decide (row0 ≤ cr.maxRow) && decide (cr.minRow < row0 + n)

/-- Well-formed worksheet: every merged range is coherent and lies within
the tracked extent.  Every state openpyxl builds satisfies this. -/
def SheetWF (s : Sheet) : Prop :=
  ∀ cr ∈ s.merges, cr.minRow ≤ cr.maxRow ∧ cr.maxRow ≤ s.maxRow

/-- One pass of the guarded unmerge loop body on the merge list. -/
def eraseIfMem (acc : List CRange) (cr : CRange) : List CRange :=
  if cr ∈ acc then acc.erase cr else acc

theorem eraseIfMem_eq_erase (acc : List CRange) (cr : CRange) :
    eraseIfMem acc cr = acc.erase cr := by
  unfold eraseIfMem
  by_cases h : cr ∈ acc
  · rw [if_pos h]
  · rw [if_neg h, List.erase_of_not_mem h]

theorem seqStep_assoc (a b c : Step) :
    seqStep (seqStep a b) c = seqStep a (seqStep b c) := by
  funext s
  simp only [seqStep]
  rcases a s with ⟨s1, e⟩
  cases e
  · rcases b s1 with ⟨s2, e2⟩
    cases e2 <;> rfl
  · rfl

theorem tryCatchS_err (a : Step) (s : Sheet) : (tryCatchS a s).2 = none := rfl

theorem skip_seqStep (b : Step) : seqStep skipStep b = b := rfl

theorem seqStep_ok (a b : Step) (s s1 : Sheet) (h : a s = (s1, none)) :
    seqStep a b s = b s1 := by
  simp only [seqStep, h]

theorem seqStep_raise (a b : Step) (s s1 : Sheet) (e : PyErr)
    (h : a s = (s1, some e)) : seqStep a b s = (s1, some e) := by
  simp only [seqStep, h]

theorem primStep_eq (f : Sheet → Sheet × Option PyErr) (s s1 : Sheet)
    (e : Option PyErr) (h : f s = (s1, e)) : primStep f s = (s1, e) := h

theorem liftStep_eq (f : Sheet → Sheet) (s : Sheet) :
    liftStep f s = (f s, none) := rfl

theorem if_bool_true {α : Sort _} (a b : α) : (if true = true then a else b) = a := rfl

theorem if_bool_false {α : Sort _} (a b : α) : (if false = true then a else b) = b := rfl

/-- Erasing, in order, every element of `l.filter p` from `l` leaves
`l.filter (fun x => !(p x))`, even when `l` has duplicates, because
`List.erase` removes first occurrences in step with the filtered order. -/
theorem foldl_erase_filter {α : Type} [DecidableEq α] (p : α → Bool) :
    ∀ l : List α,
      (l.filter p).foldl (fun acc x => acc.erase x) l =
        l.filter (fun x => !(p x)) := by
  have aux : ∀ (todo : List α) (x : α) (acc : List α),
      (∀ y ∈ todo, p y = true) → p x = false →
      todo.foldl (fun acc y => acc.erase y) (x :: acc) =
        x :: todo.foldl (fun acc y => acc.erase y) acc := by
    intro todo
    induction todo with
    | nil => intro x acc _ _; rfl
    | cons y ys ih =>
      intro x acc hall hx
      have hy : p y = true := hall y (List.mem_cons_self y ys)
      have hxy : x ≠ y := by
        intro h; rw [h, hy] at hx; cases hx
      simp only [List.foldl_cons, List.erase_cons]
      rw [if_neg (by simpa using hxy)]
      exact ih x (acc.erase y) (fun z hz => hall z (List.mem_cons_of_mem y hz)) hx
  intro l
  induction l with
  | nil => rfl
  | cons x xs ih =>
    by_cases hx : p x = true
    · simp only [List.filter_cons, hx, if_pos, List.foldl_cons,
        List.erase_cons_head]
      simpa [hx] using ih
    · have hx' : p x = false := by simpa using hx
      simp only [List.filter_cons, hx', Bool.false_eq_true, if_false]
      rw [aux (xs.filter p) x xs (fun z hz => List.of_mem_filter hz) hx']
      rw [ih]
      simp [hx']

/-- The inner loop of `safely_unmerge_row_cells` only rewrites the merge
list, via `eraseIfMem`, and raises nothing. -/
theorem unmerge_loop_eq :
    ∀ (todo : List CRange) (t : Sheet),
      forEachStep (fun cr => tryCatchS (primStep fun s' => s'.unmergeCells cr))
          todo t =
        ({ t with merges := todo.foldl eraseIfMem t.merges }, none) := by
  intro todo
  induction todo with
  | nil =>
    intro t
    simp only [forEachStep, skipStep, List.foldl_nil]
  | cons cr crs ih =>
    intro t
    simp only [forEachStep, List.foldl_cons]
    by_cases h : cr ∈ t.merges
    · rw [seqStep_ok _ _ _ { t with merges := t.merges.erase cr }
        (by simp [tryCatchS, primStep, Sheet.unmergeCells, h])]
      rw [ih]
      simp [eraseIfMem, h]
    · rw [seqStep_ok _ _ _ t
        (by simp [tryCatchS, primStep, Sheet.unmergeCells, h])]
      rw [ih]
      have : eraseIfMem t.merges cr = t.merges := by
        simp [eraseIfMem, h]
      rw [this]

/-- `safely_unmerge_row_cells` removes exactly the merges touching the
row, changes nothing else, and never raises. -/
theorem safely_unmerge_row_cells_eq (row : Nat) (s : Sheet) :
    safely_unmerge_row_cells row s =
      ({ s with merges := s.merges.filter fun cr => !(cr.touchesRow row) },
        none) := by
  unfold safely_unmerge_row_cells
  simp only [tryCatchS]
  rw [unmerge_loop_eq]
  have : (s.merges.filter fun cr => cr.touchesRow row).foldl eraseIfMem
      s.merges = s.merges.filter fun cr => !(cr.touchesRow row) := by
    have he : ∀ (todo acc : List CRange),
        todo.foldl eraseIfMem acc = todo.foldl (fun a x => a.erase x) acc := by
      intro todo
      induction todo with
      | nil => intro acc; rfl
      | cons y ys ih =>
        intro acc
        simp only [List.foldl_cons, eraseIfMem_eq_erase, ih]
    rw [he, foldl_erase_filter]
  rw [this]

theorem covers_touchesRow {cr : CRange} {r c : Nat}
    (h : cr.covers r c = true) : cr.touchesRow r = true := by
  simp only [CRange.covers, Bool.and_eq_true, decide_eq_true_eq] at h
  simp only [CRange.touchesRow, Bool.and_eq_true, decide_eq_true_eq]
  exact ⟨h.1.1.1, h.1.1.2⟩

/-- After filtering out every merge touching `row`, no cell of `row` is a
merged member. -/
theorem isMergedMember_filtered (s : Sheet) (row c : Nat)
    (h : ∀ cr ∈ s.merges, cr.touchesRow row = false) :
    s.isMergedMember row c = false := by
  simp only [Sheet.isMergedMember, List.any_eq_false]
  intro cr hm
  rcases hcov : cr.covers row c with _ | _
  · simp
  · have := covers_touchesRow hcov
    rw [h cr hm] at this
    cases this

theorem mem_filter_not_touches {m : List CRange} {row : Nat} {cr : CRange}
    (h : cr ∈ m.filter fun cr => !(cr.touchesRow row)) :
    cr.touchesRow row = false := by
  have := List.of_mem_filter h
  simpa using this

/-- `writeOr v old`: the cell value after `ws.cell(..., value=v)` given
the previous value `old` (`None` writes nothing). -/
def writeOr (v old : Option String) : Option String :=
  match v with
  | none => old
  | some t => some t

theorem cellWrite_eq_of_not_member (s : Sheet) (row c : Nat) (v : Option String)
    (h : s.isMergedMember row c = false) :
    s.cellWrite row c v =
      ({ s with
          val := fun r' c' =>
            if r' = row && c' = c then writeOr v (s.val r' c') else s.val r' c',
          maxRow := max s.maxRow row }, none) := by
  cases v with
  | none =>
    simp only [Sheet.cellWrite, Sheet.touchRow, writeOr]
    congr 1
    congr 1
    funext r' c'
    by_cases hb : (r' = row && c' = c) = true
    · rw [if_pos hb]
    · rw [if_neg hb]
  | some t =>
    simp only [Sheet.cellWrite, Sheet.assignValue, h, Bool.false_eq_true,
      if_false, writeOr]

theorem primStep_cellWrite_eq (row c : Nat) (v : Option String) (s : Sheet)
    (h : s.isMergedMember row c = false) :
    primStep (fun t => t.cellWrite row c v) s =
      ({ s with
          val := fun r' c' =>
            if r' = row && c' = c then writeOr v (s.val r' c') else s.val r' c',
          maxRow := max s.maxRow row }, none) :=
  cellWrite_eq_of_not_member s row c v h

/-- The row value profile `set_product_data` leaves on its target row. -/
def set_product_val (p : PItem) (row : Nat) (old : Nat → Option String)
    (c : Nat) : Option String :=
  if c = 1 then some (row_label row)
  else if c = 2 then writeOr (pyGetStr p.itemName) (old 2)
  else if c = 3 then writeOr (pyGetStr p.embossingData) (old 3)
  else if c = 5 then writeOr (pyGetStr p.productsHeating) (old 5)
  else if c = 6 then writeOr (pyGetStr p.sachetSize) (old 6)
  else if c = 7 then writeOr (pyGetStr p.fillingVolume) (old 7)
  else if c = 8 then writeOr (pyGetStr p.qty) (old 8)
  else if c = 9 then writeOr (pyGetStr p.requiredBulkQuantity) (old 9)
  else if c = 10 then some ("/")
  else old c

set_option maxHeartbeats 3000000 in
/-- Full characterization of `set_product_data`: it dissolves the merges
touching the row, rewrites the row's columns 1–3 and 5–10 according to
the item (skipping `None` fields), grows the extent to the row, never
raises, and changes nothing else. -/
theorem set_product_data_eq (row : Nat) (p : PItem) (s : Sheet) :
    set_product_data row p s =
      ({ s with
          merges := s.merges.filter fun cr => !(cr.touchesRow row),
          val := fun r c =>
            if r = row then set_product_val p row (s.val row) c else s.val r c,
          maxRow := max s.maxRow row }, none) := by
  have hmem : ∀ (v : Nat → Nat → Option String) (h : Nat → Option Nat)
      (mr : Nat) (c : Nat),
      (Sheet.mk v (fun r c => s.style r c) h
        (s.merges.filter fun cr => !(cr.touchesRow row)) mr).isMergedMember
          row c = false := by
    intro v h mr c
    exact isMergedMember_filtered _ row c fun cr hm => mem_filter_not_touches hm
  unfold set_product_data
  simp only [tryCatchS]
  rw [seqStep_ok _ _ _ _ (safely_unmerge_row_cells_eq row s)]
  rw [seqStep_ok _ _ _ _ (cellWrite_eq_of_not_member _ row 1 _
    (isMergedMember_filtered _ row 1 fun cr hm => mem_filter_not_touches hm))]
  rw [seqStep_ok _ _ _ _ (cellWrite_eq_of_not_member _ row 2 _
    (isMergedMember_filtered _ row 2 fun cr hm => mem_filter_not_touches hm))]
  rw [seqStep_ok _ _ _ _ (cellWrite_eq_of_not_member _ row 3 _
    (isMergedMember_filtered _ row 3 fun cr hm => mem_filter_not_touches hm))]
  rw [seqStep_ok _ _ _ _ (cellWrite_eq_of_not_member _ row 5 _
    (isMergedMember_filtered _ row 5 fun cr hm => mem_filter_not_touches hm))]
  rw [seqStep_ok _ _ _ _ (cellWrite_eq_of_not_member _ row 6 _
    (isMergedMember_filtered _ row 6 fun cr hm => mem_filter_not_touches hm))]
  rw [seqStep_ok _ _ _ _ (cellWrite_eq_of_not_member _ row 7 _
    (isMergedMember_filtered _ row 7 fun cr hm => mem_filter_not_touches hm))]
  rw [seqStep_ok _ _ _ _ (cellWrite_eq_of_not_member _ row 8 _
    (isMergedMember_filtered _ row 8 fun cr hm => mem_filter_not_touches hm))]
  rw [seqStep_ok _ _ _ _ (cellWrite_eq_of_not_member _ row 9 _
    (isMergedMember_filtered _ row 9 fun cr hm => mem_filter_not_touches hm))]
  rw [primStep_cellWrite_eq row 10 _ _
    (isMergedMember_filtered _ row 10 fun cr hm => mem_filter_not_touches hm)]
  clear hmem
  rw [Prod.mk.injEq]
  refine ⟨?_, rfl⟩
  rw [Sheet.mk.injEq]
  refine ⟨?_, rfl, rfl, rfl, ?_⟩
  · funext r c
    by_cases hr : r = row
    · subst hr
      by_cases h1 : c = 1
      · subst h1; simp [set_product_val, writeOr]
      · by_cases h2 : c = 2
        · subst h2; simp [set_product_val]
        · by_cases h3 : c = 3
          · subst h3; simp [set_product_val]
          · by_cases h5 : c = 5
            · subst h5; simp [set_product_val]
            · by_cases h6 : c = 6
              · subst h6; simp [set_product_val]
              · by_cases h7 : c = 7
                · subst h7; simp [set_product_val]
                · by_cases h8 : c = 8
                  · subst h8; simp [set_product_val]
                  · by_cases h9 : c = 9
                    · subst h9; simp [set_product_val]
                    · by_cases h10 : c = 10
                      · subst h10; simp [set_product_val, writeOr]
                      · simp [set_product_val, h1, h2, h3, h5, h6, h7, h8, h9,
                          h10]
    · simp [hr]
  · simp only [Nat.max_assoc, Nat.max_self]

theorem touchesRowRange_zero (cr : CRange) (row0 : Nat) :
    cr.touchesRowRange row0 0 = false := by
  simp [CRange.touchesRowRange]

theorem touchesRowRange_succ (cr : CRange) (row0 n : Nat) :
    cr.touchesRowRange row0 (n + 1) =
      (cr.touchesRow row0 || cr.touchesRowRange (row0 + 1) n) := by
  rw [Bool.eq_iff_iff]
  simp only [CRange.touchesRowRange, CRange.touchesRow, Bool.and_eq_true,
    Bool.or_eq_true, decide_eq_true_eq]
  omega

/-- Characterization of the product-writing loop: it never raises,
dissolves exactly the merges touching the written row interval, writes
the labels, leaves all rows outside the interval as well as all styles
and heights unchanged, and grows the extent to the last written row. -/
theorem write_products_from_spec (xs : List PItem) : ∀ (row0 : Nat) (s : Sheet),
    (write_products_from row0 xs s).2 = none ∧
    ((write_products_from row0 xs s).1).merges =
      s.merges.filter (fun cr => !(cr.touchesRowRange row0 xs.length)) ∧
    ((write_products_from row0 xs s).1).style = s.style ∧
    ((write_products_from row0 xs s).1).height = s.height ∧
    ((write_products_from row0 xs s).1).maxRow =
      (if xs.length = 0 then s.maxRow else max s.maxRow (row0 + xs.length - 1)) ∧
    (∀ r c, r < row0 ∨ row0 + xs.length ≤ r →
      ((write_products_from row0 xs s).1).val r c = s.val r c) ∧
    (∀ i, i < xs.length →
      ((write_products_from row0 xs s).1).val (row0 + i) 1 =
        some (row_label (row0 + i))) := by
  induction xs with
  | nil =>
    intro row0 s
    refine ⟨rfl, ?_, rfl, rfl, rfl, fun r c _ => rfl,
      fun i hi => by simp at hi⟩
    simp only [List.length_nil]
    have h : (fun cr : CRange => !(cr.touchesRowRange row0 0)) = fun _ => true := by
      funext cr
      rw [touchesRowRange_zero]
      rfl
    rw [h, List.filter_true]
    rfl
  | cons p ps ih =>
    intro row0 s
    have hstep :
        write_products_from row0 (p :: ps) s =
          write_products_from (row0 + 1) ps
            ({ s with
                merges := s.merges.filter fun cr => !(cr.touchesRow row0),
                val := fun r c =>
                  if r = row0 then set_product_val p row0 (s.val row0) c
                  else s.val r c,
                maxRow := max s.maxRow row0 }) := by
      show seqStep (set_product_data row0 p) (write_products_from (row0 + 1) ps) s = _
      rw [seqStep_ok _ _ _ _ (set_product_data_eq row0 p s)]
    rcases ih (row0 + 1)
        ({ s with
            merges := s.merges.filter fun cr => !(cr.touchesRow row0),
            val := fun r c =>
              if r = row0 then set_product_val p row0 (s.val row0) c
              else s.val r c,
            maxRow := max s.maxRow row0 }) with
      ⟨herr, hmer, hsty, hhei, hmax, hframe, hlab⟩
    refine ⟨?_, ?_, ?_, ?_, ?_, ?_, ?_⟩
    · rw [hstep]; exact herr
    · rw [hstep, hmer]
      simp only [List.filter_filter, List.length_cons]
      refine List.filter_congr ?_
      intro cr _
      rw [touchesRowRange_succ]
      simp only [Bool.not_or]
      rw [Bool.and_comm]
    · rw [hstep, hsty]
    · rw [hstep, hhei]
    · rw [hstep, hmax]
      simp only [List.length_cons]
      by_cases hn : ps.length = 0
      · simp [hn]
      · rw [if_neg hn, if_neg (by omega)]
        have h1 : row0 + 1 + ps.length - 1 = row0 + ps.length := by omega
        have h2 : row0 + (ps.length + 1) - 1 = row0 + ps.length := by omega
        rw [h1, h2]
        have : row0 ≤ row0 + ps.length := by omega
        omega
    · intro r c hrc
      rw [hstep, hframe r c (by simp only [List.length_cons] at hrc; omega)]
      have hne : ¬(r = row0) := by
        simp only [List.length_cons] at hrc; omega
      simp [hne]
    · intro i hi
      rw [hstep]
      rcases Nat.eq_zero_or_pos i with hz | hpos
      · subst hz
        rw [hframe (row0 + 0) 1 (by omega)]
        simp [set_product_val]
      · have hi' : i - 1 < ps.length := by
          simp only [List.length_cons] at hi; omega
        have := hlab (i - 1) hi'
        have harith : row0 + 1 + (i - 1) = row0 + i := by omega
        rw [harith] at this
        exact this

theorem copy_style_loop_spec (srcR tgtR : Nat) :
    ∀ (l : List Nat) (s : Sheet),
    (forEachStep (copy_style_cell srcR tgtR) l s).2 = none ∧
    ((forEachStep (copy_style_cell srcR tgtR) l s).1).merges = s.merges ∧
    ((forEachStep (copy_style_cell srcR tgtR) l s).1).val = s.val ∧
    ((forEachStep (copy_style_cell srcR tgtR) l s).1).height = s.height ∧
    (∀ r c, r ≠ tgtR →
      ((forEachStep (copy_style_cell srcR tgtR) l s).1).style r c = s.style r c) ∧
    ((forEachStep (copy_style_cell srcR tgtR) l s).1).maxRow =
      (if l.isEmpty then s.maxRow else max (max s.maxRow srcR) tgtR) := by
  intro l
  induction l with
  | nil =>
    intro s
    exact ⟨rfl, rfl, rfl, rfl, fun r c _ => rfl, rfl⟩
  | cons col cols ih =>
    intro s
    have hbody : ∀ t : Sheet, ∃ t',
        copy_style_cell srcR tgtR col t = (t', none) ∧
        t'.merges = t.merges ∧ t'.val = t.val ∧ t'.height = t.height ∧
        (∀ r c, r ≠ tgtR → t'.style r c = t.style r c) ∧
        t'.maxRow = max (max t.maxRow srcR) tgtR := by
      intro t
      by_cases h : ((t.touchRow srcR).touchRow tgtR).style srcR col ≠ {}
      · refine ⟨((t.touchRow srcR).touchRow tgtR).modifyStyle tgtR col
            (fun _ => ((t.touchRow srcR).touchRow tgtR).style srcR col),
            ?_, rfl, rfl, rfl, ?_, ?_⟩
        · unfold copy_style_cell
          simp only [tryCatchS, liftStep]
          rw [if_pos h]
        · intro r c hr
          simp only [Sheet.modifyStyle, Sheet.touchRow]
          rw [if_neg]
          simp only [Bool.and_eq_true, decide_eq_true_eq, not_and]
          intro hc; exact absurd hc hr
        · simp only [Sheet.modifyStyle, Sheet.touchRow]
          omega
      · refine ⟨(t.touchRow srcR).touchRow tgtR, ?_, rfl, rfl, rfl,
          fun r c _ => rfl, ?_⟩
        · unfold copy_style_cell
          simp only [tryCatchS, liftStep]
          rw [if_neg h]
        · simp only [Sheet.touchRow]
    rcases hbody s with ⟨t', hrun, hm, hv, hh, hs, hmax⟩
    have hstep : forEachStep (copy_style_cell srcR tgtR) (col :: cols) s =
        forEachStep (copy_style_cell srcR tgtR) cols t' := by
      show seqStep _ _ _ = _
      rw [seqStep_ok _ _ _ _ hrun]
    rcases ih t' with ⟨ierr, imer, ival, ihei, isty, imax⟩
    refine ⟨?_, ?_, ?_, ?_, ?_, ?_⟩
    · rw [hstep]; exact ierr
    · rw [hstep, imer, hm]
    · rw [hstep, ival, hv]
    · rw [hstep, ihei, hh]
    · intro r c hr
      rw [hstep, isty r c hr, hs r c hr]
    · rw [hstep, imax, hmax]
      simp only [List.isEmpty_cons, Bool.false_eq_true, if_false]
      split <;> omega

set_option maxHeartbeats 2000000 in
/-- Characterization of `copy_row_format`: copies the height, dissolves
merges touching the target row, rewrites only the target row's styles,
leaves all values unchanged, grows the extent over source and target and
never raises. -/
theorem copy_row_format_spec (srcR tgtR : Nat) (s : Sheet) :
    (copy_row_format srcR tgtR s).2 = none ∧
    ((copy_row_format srcR tgtR s).1).merges =
      s.merges.filter (fun cr => !(cr.touchesRow tgtR)) ∧
    ((copy_row_format srcR tgtR s).1).val = s.val ∧
    (∀ r, r ≠ tgtR → ((copy_row_format srcR tgtR s).1).height r = s.height r) ∧
    (∀ r c, r ≠ tgtR → ((copy_row_format srcR tgtR s).1).style r c = s.style r c) ∧
    ((copy_row_format srcR tgtR s).1).maxRow = max (max s.maxRow srcR) tgtR := by
  have h1 : (liftStep fun s : Sheet => s.setHeight tgtR (s.height srcR)) s =
      (s.setHeight tgtR (s.height srcR), none) := rfl
  set s1 := s.setHeight tgtR (s.height srcR) with hs1
  have h2 := safely_unmerge_row_cells_eq tgtR s1
  set s2 : Sheet :=
    { s1 with merges := s1.merges.filter fun cr => !(cr.touchesRow tgtR) }
    with hs2
  rcases copy_style_loop_spec srcR tgtR (pyRange 1 13) s2 with
    ⟨lerr, lmer, lval, lhei, lsty, lmax⟩
  have hpair : forEachStep (copy_style_cell srcR tgtR) (pyRange 1 13) s2 =
      ((forEachStep (copy_style_cell srcR tgtR) (pyRange 1 13) s2).1, none) := by
    rw [← lerr]
  have hstep : copy_row_format srcR tgtR s =
      (((forEachStep (copy_style_cell srcR tgtR) (pyRange 1 13) s2).1).modifyStyle
          tgtR 12 (fun st =>
          { st with fill := { color := some ("FF0000") } }), none) := by
    unfold copy_row_format
    simp only [tryCatchS]
    rw [seqStep_ok _ _ _ _ h1, seqStep_ok _ _ _ _ h2, seqStep_ok _ _ _ _ hpair]
  rw [hstep]
  refine ⟨rfl, ?_, ?_, ?_, ?_, ?_⟩
  · simp only [Sheet.modifyStyle]
    rw [lmer]
    rfl
  · simp only [Sheet.modifyStyle]
    rw [lval]
    rfl
  · intro r hr
    simp only [Sheet.modifyStyle]
    rw [lhei]
    simp only [hs2, hs1, Sheet.setHeight]
    rw [if_neg hr]
  · intro r c hr
    simp only [Sheet.modifyStyle]
    rw [if_neg (by
      simp only [Bool.and_eq_true, decide_eq_true_eq, not_and]
      intro hc; exact absurd hc hr)]
    exact lsty r c hr
  · simp only [Sheet.modifyStyle]
    rw [lmax]
    have hne : (pyRange 1 13).isEmpty = false := by decide
    rw [hne]
    simp only [Bool.false_eq_true, if_false, hs2, hs1, Sheet.setHeight]
    omega

theorem insertRow_frames (s : Sheet) (idx : Nat) :
    (s.insertRow idx).merges = s.merges ∧
    (s.insertRow idx).height = s.height ∧
    (∀ r c, r < idx → (s.insertRow idx).val r c = s.val r c) ∧
    (∀ r c, r < idx → (s.insertRow idx).style r c = s.style r c) ∧
    s.maxRow ≤ (s.insertRow idx).maxRow := by
  unfold Sheet.insertRow
  by_cases h : s.maxRow < idx
  · rw [if_pos h]
    exact ⟨rfl, rfl, fun _ _ _ => rfl, fun _ _ _ => rfl, Nat.le_refl _⟩
  · rw [if_neg h]
    refine ⟨rfl, rfl, ?_, ?_, Nat.le_succ _⟩
    · intro r c hr
      simp only [if_pos hr]
    · intro r c hr
      simp only [if_pos hr]

theorem cellWrite_frames (s : Sheet) (row c : Nat) (v : Option String) :
    ((s.cellWrite row c v).1).merges = s.merges ∧
    ((s.cellWrite row c v).1).style = s.style ∧
    ((s.cellWrite row c v).1).height = s.height ∧
    (∀ r' c', r' ≠ row ∨ c' ≠ c →
      ((s.cellWrite row c v).1).val r' c' = s.val r' c') ∧
    s.maxRow ≤ ((s.cellWrite row c v).1).maxRow := by
  cases v with
  | none =>
    exact ⟨rfl, rfl, rfl, fun _ _ _ => rfl, Nat.le_max_left _ _⟩
  | some t =>
    simp only [Sheet.cellWrite, Sheet.assignValue]
    by_cases hm : s.isMergedMember row c = true
    · rw [if_pos hm]
      exact ⟨rfl, rfl, rfl, fun _ _ _ => rfl, Nat.le_max_left _ _⟩
    · rw [if_neg hm]
      refine ⟨rfl, rfl, rfl, ?_, Nat.le_max_left _ _⟩
      intro r' c' h
      simp only []
      rw [if_neg (by
        simp only [Bool.and_eq_true, decide_eq_true_eq]
        tauto)]

theorem touchesRowRange_snoc (cr : CRange) (row0 n : Nat) :
    cr.touchesRowRange row0 (n + 1) =
      (cr.touchesRowRange row0 n || cr.touchesRow (row0 + n)) := by
  rw [Bool.eq_iff_iff]
  simp only [CRange.touchesRowRange, CRange.touchesRow, Bool.and_eq_true,
    Bool.or_eq_true, decide_eq_true_eq]
  omega

/-- General characterization of one provisioning iteration: the merges
touching row `14 + i` dissolve, rows below 14 keep their values, styles
and heights, the extent never shrinks, and nothing is raised. -/
theorem prepare_one_row_spec (i : Nat) (s : Sheet) :
    (prepare_one_row i s).2 = none ∧
    ((prepare_one_row i s).1).merges =
      s.merges.filter (fun cr => !(cr.touchesRow (14 + i))) ∧
    (∀ r c, r < 14 → ((prepare_one_row i s).1).val r c = s.val r c) ∧
    (∀ r c, r < 14 → ((prepare_one_row i s).1).style r c = s.style r c) ∧
    (∀ r, r < 14 → ((prepare_one_row i s).1).height r = s.height r) ∧
    s.maxRow ≤ ((prepare_one_row i s).1).maxRow := by
  rcases insertRow_frames s (14 + i) with ⟨im, ih, iv, ist, imax⟩
  have h1 : (liftStep fun t : Sheet => t.insertRow (14 + i)) s =
      (s.insertRow (14 + i), none) := rfl
  rcases copy_row_format_spec 13 (14 + i) (s.insertRow (14 + i)) with
    ⟨cerr, cmer, cval, chei, csty, cmax⟩
  have cpair : copy_row_format 13 (14 + i) (s.insertRow (14 + i)) =
      ((copy_row_format 13 (14 + i) (s.insertRow (14 + i))).1, none) := by
    rw [← cerr]
  set s2 := (copy_row_format 13 (14 + i) (s.insertRow (14 + i))).1 with hs2
  have hbody : prepare_one_row i s =
      ((s2.cellWrite (14 + i) 1 (some (toString (3 + i) ++ "."))).1, none) := by
    unfold prepare_one_row
    simp only [tryCatchS]
    rw [seqStep_ok _ _ _ _ h1, seqStep_ok _ _ _ _ cpair]
  rcases cellWrite_frames s2 (14 + i) 1 (some (toString (3 + i) ++ ".")) with
    ⟨wmer, wsty, whei, wval, wmax⟩
  rw [hbody]
  refine ⟨rfl, ?_, ?_, ?_, ?_, ?_⟩
  · simp only []
    rw [wmer, hs2, cmer, im]
  · intro r c hr
    simp only []
    rw [wval r c (Or.inl (by omega)), hs2, cval, iv r c (by omega)]
  · intro r c hr
    simp only []
    rw [wsty, hs2, csty r c (by omega), ist r c (by omega)]
  · intro r hr
    simp only []
    rw [whei, hs2, chei r (by omega), ih]
  · simp only []
    omega

theorem forEachStep_append {α : Type} (f : α → Step) (l1 l2 : List α) :
    forEachStep f (l1 ++ l2) = seqStep (forEachStep f l1) (forEachStep f l2) := by
  induction l1 with
  | nil =>
    funext s
    simp only [List.nil_append, forEachStep, seqStep, skipStep]
  | cons x xs ih =>
    simp only [List.cons_append, forEachStep, List.append_eq, ih, seqStep_assoc]

/-- General characterization of the provisioning loop `range k`: nothing
raised, merges touching rows `14 .. 13 + k` dissolved, rows below 14
untouched, extent never shrinks. -/
theorem prepare_loop_general (k : Nat) : ∀ (s : Sheet),
    (forEachStep prepare_one_row (List.range k) s).2 = none ∧
    ((forEachStep prepare_one_row (List.range k) s).1).merges =
      s.merges.filter (fun cr => !(cr.touchesRowRange 14 k)) ∧
    (∀ r c, r < 14 →
      ((forEachStep prepare_one_row (List.range k) s).1).val r c = s.val r c) ∧
    (∀ r c, r < 14 →
      ((forEachStep prepare_one_row (List.range k) s).1).style r c = s.style r c) ∧
    (∀ r, r < 14 →
      ((forEachStep prepare_one_row (List.range k) s).1).height r = s.height r) ∧
    s.maxRow ≤ ((forEachStep prepare_one_row (List.range k) s).1).maxRow := by
  induction k with
  | zero =>
    intro s
    refine ⟨rfl, ?_, fun _ _ _ => rfl, fun _ _ _ => rfl, fun _ _ => rfl,
      Nat.le_refl _⟩
    simp only [List.range_zero, forEachStep, skipStep]
    have h : (fun cr : CRange => !(cr.touchesRowRange 14 0)) = fun _ => true := by
      funext cr
      rw [touchesRowRange_zero]
      rfl
    rw [h, List.filter_true]
  | succ k ih =>
    intro s
    rcases ih s with ⟨ierr, imer, ival, isty, ihei, imax⟩
    have hpair : forEachStep prepare_one_row (List.range k) s =
        ((forEachStep prepare_one_row (List.range k) s).1, none) := by
      rw [← ierr]
    set t := (forEachStep prepare_one_row (List.range k) s).1 with ht
    rcases prepare_one_row_spec k t with ⟨berr, bmer, bval, bsty, bhei, bmax⟩
    have bpair : prepare_one_row k t = ((prepare_one_row k t).1, none) := by
      rw [← berr]
    have hstep : forEachStep prepare_one_row (List.range (k + 1)) s =
        ((prepare_one_row k t).1, none) := by
      rw [List.range_succ, forEachStep_append]
      rw [seqStep_ok _ _ _ _ hpair]
      show seqStep _ _ _ = _
      rw [seqStep_ok _ _ _ _ bpair]
      simp only [forEachStep, skipStep]
    rw [hstep]
    refine ⟨rfl, ?_, ?_, ?_, ?_, ?_⟩
    · simp only []
      rw [bmer, ht, imer, List.filter_filter]
      refine List.filter_congr ?_
      intro cr _
      rw [touchesRowRange_snoc]
      simp only [Bool.not_or]
      rw [Bool.and_comm]
    · intro r c hr
      simp only []
      rw [bval r c hr, ht, ival r c hr]
    · intro r c hr
      simp only []
      rw [bsty r c hr, ht, isty r c hr]
    · intro r hr
      simp only []
      rw [bhei r hr, ht, ihei r hr]
    · simp only []
      omega

theorem reqs_box_not_touches_high (r : Nat) (hr : 14 ≤ r) :
    reqs_box.touchesRow r = false := by
  simp only [reqs_box, CRange.touchesRow]
  simp only [Bool.and_eq_false_iff, decide_eq_false_iff_not]
  omega

set_option maxHeartbeats 2000000 in
/-- Template-context characterization of one provisioning iteration:
starting from the merge list `[I4:L9]` and extent `13 + i`, the row
insertion moves nothing, the label `f"{3+i}."` lands in column 1 of row
`14 + i`, and the extent becomes `14 + i`. -/
theorem prepare_one_row_template (i : Nat) (s : Sheet)
    (hmer : s.merges = [reqs_box]) (hmax : s.maxRow = 13 + i) :
    ((prepare_one_row i s).1).merges = [reqs_box] ∧
    ((prepare_one_row i s).1).maxRow = 14 + i ∧
    (∀ r c, ¬(r = 14 + i ∧ c = 1) → ((prepare_one_row i s).1).val r c = s.val r c) ∧
    ((prepare_one_row i s).1).val (14 + i) 1 = some (toString (3 + i) ++ ".") := by
  have hins : s.insertRow (14 + i) = s := by
    unfold Sheet.insertRow
    rw [if_pos (by omega)]
  rcases copy_row_format_spec 13 (14 + i) (s.insertRow (14 + i)) with
    ⟨cerr, cmer, cval, chei, csty, cmax⟩
  have cpair : copy_row_format 13 (14 + i) (s.insertRow (14 + i)) =
      ((copy_row_format 13 (14 + i) (s.insertRow (14 + i))).1, none) := by
    rw [← cerr]
  have h1 : (liftStep fun t : Sheet => t.insertRow (14 + i)) s =
      (s.insertRow (14 + i), none) := rfl
  set s2 := (copy_row_format 13 (14 + i) (s.insertRow (14 + i))).1 with hs2
  have hbody : prepare_one_row i s =
      ((s2.cellWrite (14 + i) 1 (some (toString (3 + i) ++ "."))).1, none) := by
    unfold prepare_one_row
    simp only [tryCatchS]
    rw [seqStep_ok _ _ _ _ h1, seqStep_ok _ _ _ _ cpair]
  have hmer2 : s2.merges = [reqs_box] := by
    rw [hs2, cmer, hins, hmer]
    simp only [List.filter_cons, List.filter_nil,
      reqs_box_not_touches_high (14 + i) (by omega), Bool.not_false, if_pos]
  have hmemb : s2.isMergedMember (14 + i) 1 = false := by
    simp only [Sheet.isMergedMember, hmer2, List.any_cons, List.any_nil,
      Bool.or_false]
    simp only [reqs_box, CRange.covers]
    simp only [Bool.and_eq_false_iff, decide_eq_false_iff_not]
    left; left; right; omega
  have hwrite := cellWrite_eq_of_not_member s2 (14 + i) 1
    (some (toString (3 + i) ++ ".")) hmemb
  rw [hbody]
  refine ⟨?_, ?_, ?_, ?_⟩
  · simp only []
    rw [hwrite]
    simp only []
    exact hmer2
  · simp only []
    rw [hwrite]
    simp only []
    rw [hs2, cmax, hins, hmax]
    omega
  · intro r c hrc
    simp only []
    rw [hwrite]
    simp only []
    have hcond : (decide (r = 14 + i) && decide (c = 1)) = false := by
      simp only [Bool.and_eq_false_iff, decide_eq_false_iff_not]
      exact not_and_or.mp hrc
    rw [hcond, if_bool_false, hs2, cval, hins]
  · simp only []
    rw [hwrite]
    simp only []
    rw [show (decide True && decide True) = true from rfl, if_bool_true]
    rfl

set_option maxHeartbeats 2000000 in
/-- Template-context characterization of the whole provisioning loop:
merges stay `[I4:L9]`, the extent grows to `13 + k`, only column-1 cells
of rows `14 .. 13 + k` change, and they receive the sequential labels. -/
theorem prepare_loop_template (k : Nat) : ∀ (s : Sheet),
    s.merges = [reqs_box] → s.maxRow = 13 →
    ((forEachStep prepare_one_row (List.range k) s).1).merges = [reqs_box] ∧
    ((forEachStep prepare_one_row (List.range k) s).1).maxRow = 13 + k ∧
    (∀ r c, ¬(14 ≤ r ∧ r < 14 + k ∧ c = 1) →
      ((forEachStep prepare_one_row (List.range k) s).1).val r c = s.val r c) ∧
    (∀ j, j < k →
      ((forEachStep prepare_one_row (List.range k) s).1).val (14 + j) 1 =
        some (toString (3 + j) ++ ".")) := by
  induction k with
  | zero =>
    intro s hmer hmax
    exact ⟨hmer, by simpa using hmax, fun _ _ _ => rfl, fun j hj => by omega⟩
  | succ k ih =>
    intro s hmer hmax
    rcases ih s hmer hmax with ⟨imer, imax, ival, ilab⟩
    rcases prepare_loop_general k s with ⟨gerr, _, _, _, _, _⟩
    have hpair : forEachStep prepare_one_row (List.range k) s =
        ((forEachStep prepare_one_row (List.range k) s).1, none) := by
      rw [← gerr]
    set t := (forEachStep prepare_one_row (List.range k) s).1 with ht
    rcases prepare_one_row_spec k t with ⟨berr, _, _, _, _, _⟩
    have bpair : prepare_one_row k t = ((prepare_one_row k t).1, none) := by
      rw [← berr]
    have hstep : forEachStep prepare_one_row (List.range (k + 1)) s =
        ((prepare_one_row k t).1, none) := by
      rw [List.range_succ, forEachStep_append]
      rw [seqStep_ok _ _ _ _ hpair]
      show seqStep _ _ _ = _
      rw [seqStep_ok _ _ _ _ bpair]
      simp only [forEachStep, skipStep]
    rcases prepare_one_row_template k t imer imax with ⟨tmer, tmax, tval, tlab⟩
    rw [hstep]
    refine ⟨?_, ?_, ?_, ?_⟩
    · simp only []
      exact tmer
    · simp only []
      rw [tmax]
      omega
    · intro r c hrc
      simp only []
      rw [tval r c (by omega), ht, ival r c (by omega)]
    · intro j hj
      simp only []
      rcases Nat.lt_or_ge j k with hlt | hge
      · rw [tval (14 + j) 1 (by omega), ht, ilab j hlt]
      · have hjk : j = k := by omega
        subst hjk
        exact tlab

/-- Wrapper characterization of `prepare_product_rows` for any state. -/
theorem prepare_product_rows_spec (n : Nat) (s : Sheet) :
    (prepare_product_rows n s).2 = none ∧
    ((prepare_product_rows n s).1).merges =
      s.merges.filter (fun cr => !(cr.touchesRowRange 14 (n - 2))) ∧
    (∀ r c, r < 14 → ((prepare_product_rows n s).1).val r c = s.val r c) ∧
    (∀ r c, r < 14 → ((prepare_product_rows n s).1).style r c = s.style r c) ∧
    s.maxRow ≤ ((prepare_product_rows n s).1).maxRow := by
  unfold prepare_product_rows
  by_cases hn : n ≤ 2
  · rw [if_pos hn]
    have h2 : n - 2 = 0 := by omega
    rw [h2]
    refine ⟨rfl, ?_, fun _ _ _ => rfl, fun _ _ _ => rfl, Nat.le_refl _⟩
    have h : (fun cr : CRange => !(cr.touchesRowRange 14 0)) = fun _ => true := by
      funext cr
      rw [touchesRowRange_zero]
      rfl
    rw [h, List.filter_true]
    rfl
  · rw [if_neg hn]
    rcases prepare_loop_general (n - 2) s with ⟨gerr, gmer, gval, gsty, _, gmax⟩
    exact ⟨gerr, gmer, gval, gsty, gmax⟩

/-- Wrapper characterization of `prepare_product_rows` from the
template-shaped state. -/
theorem prepare_product_rows_template (n : Nat) (s : Sheet)
    (hmer : s.merges = [reqs_box]) (hmax : s.maxRow = 13) :
    ((prepare_product_rows n s).1).merges = [reqs_box] ∧
    ((prepare_product_rows n s).1).maxRow = max 13 (11 + n) ∧
    (∀ r c, ¬(14 ≤ r ∧ r < 12 + n ∧ c = 1) →
      ((prepare_product_rows n s).1).val r c = s.val r c) ∧
    (∀ j, j < n - 2 →
      ((prepare_product_rows n s).1).val (14 + j) 1 =
        some (toString (3 + j) ++ ".")) := by
  unfold prepare_product_rows
  by_cases hn : n ≤ 2
  · rw [if_pos hn]
    exact ⟨hmer, by rw [show max 13 (11 + n) = 13 by omega]; exact hmax,
      fun _ _ _ => rfl, fun j hj => by omega⟩
  · rw [if_neg hn]
    rcases prepare_loop_template (n - 2) s hmer hmax with ⟨tmer, tmax, tval, tlab⟩
    refine ⟨tmer, ?_, ?_, tlab⟩
    · rw [tmax]
      omega
    · intro r c hrc
      exact tval r c (by omega)

theorem assignValue_eq_of_not_member (s : Sheet) (row c : Nat)
    (v : Option String) (h : s.isMergedMember row c = false) :
    s.assignValue row c v =
      ({ s with
          val := fun r' c' =>
            if r' = row && c' = c then v else s.val r' c',
          maxRow := max s.maxRow row }, none) := by
  simp only [Sheet.assignValue, h, Bool.false_eq_true, if_false]

theorem not_member_lowCol (s : Sheet) (r c : Nat) (hc : c < 9)
    (h : ∀ cr ∈ s.merges, 9 ≤ cr.minCol) : s.isMergedMember r c = false := by
  simp only [Sheet.isMergedMember, List.any_eq_false]
  intro cr hm
  have h9 := h cr hm
  have hcov : cr.covers r c = false := by
    simp only [CRange.covers]
    simp only [Bool.and_eq_false_iff, decide_eq_false_iff_not]
    left; right; omega
  rw [hcov]
  simp

theorem isMergedMember_false_of (s : Sheet) (r c : Nat)
    (h : ∀ cr ∈ s.merges, cr.covers r c = false ∨ (cr.minRow = r ∧ cr.minCol = c)) :
    s.isMergedMember r c = false := by
  simp only [Sheet.isMergedMember, List.any_eq_false]
  intro cr hm
  rcases h cr hm with h1 | h2
  · rw [h1]
    simp
  · rw [h2.1, h2.2]
    simp

theorem mergeCells_spec (s : Sheet) (cr : CRange) :
    (s.mergeCells cr).merges =
      (if cr ∈ s.merges then s.merges else s.merges ++ [cr]) ∧
    (∀ r c, cr.covers r c = false → (s.mergeCells cr).val r c = s.val r c) ∧
    ((s.mergeCells cr).val cr.minRow cr.minCol = s.val cr.minRow cr.minCol) ∧
    (s.mergeCells cr).style = s.style ∧
    (s.mergeCells cr).height = s.height ∧
    (s.mergeCells cr).maxRow = max s.maxRow cr.maxRow := by
  have hrep : s.mergeCells cr =
      { val := fun r c =>
          if (cr.covers r c &&
              !(decide (r = cr.minRow) && decide (c = cr.minCol))) = true
          then none else s.val r c,
        style := s.style, height := s.height,
        merges := if cr ∈ s.merges then s.merges else s.merges ++ [cr],
        maxRow := max s.maxRow cr.maxRow } := by
    by_cases h : cr ∈ s.merges
    · simp only [Sheet.mergeCells, Sheet.blankMembers, if_pos h]
    · simp only [Sheet.mergeCells, Sheet.blankMembers, if_neg h]
  rw [hrep]
  refine ⟨rfl, ?_, ?_, rfl, rfl, rfl⟩
  · intro r c hc
    simp only [hc, Bool.false_and, Bool.false_eq_true, if_false]
  · simp

theorem height_loop_frames (l : List Nat) : ∀ (s : Sheet),
    (forEachStep (fun r => liftStep fun s => s.setHeight r (some 20)) l s).2 =
      none ∧
    ((forEachStep (fun r => liftStep fun s => s.setHeight r (some 20)) l s).1).val
      = s.val ∧
    ((forEachStep (fun r => liftStep fun s => s.setHeight r (some 20)) l s).1).style
      = s.style ∧
    ((forEachStep (fun r => liftStep fun s => s.setHeight r (some 20)) l s).1).merges
      = s.merges ∧
    ((forEachStep (fun r => liftStep fun s => s.setHeight r (some 20)) l s).1).maxRow
      = s.maxRow := by
  induction l with
  | nil => intro s; exact ⟨rfl, rfl, rfl, rfl, rfl⟩
  | cons x xs ih =>
    intro s
    have hstep :
        forEachStep (fun r => liftStep fun s => s.setHeight r (some 20)) (x :: xs) s =
        forEachStep (fun r => liftStep fun s => s.setHeight r (some 20)) xs
          (s.setHeight x (some 20)) := by
      show seqStep _ _ _ = _
      rw [seqStep_ok _ _ _ _ (liftStep_eq _ _)]
    rcases ih (s.setHeight x (some 20)) with ⟨e, v, st, m, mx⟩
    rw [hstep]
    exact ⟨e, by rw [v]; rfl, by rw [st]; rfl, by rw [m]; rfl, by rw [mx]; rfl⟩

/-- The wrapped left/top alignment the requirements box receives. -/
def wrap_alignment : XAlignment :=
  { horizontal := some ("left"), vertical := some ("top"), wrapText := true }

/-- Characterization of the shared requirements-box steps: the box is
merged (if not already), the joined text lands in `I4` with the wrapped
alignment, cells outside the box and other styles are untouched, the
extent grows to row 9, and nothing is raised, provided no foreign merge
covers `I4`. -/
theorem reqs_steps_common_spec (d : OrderData) (s : Sheet)
    (hcov : ∀ cr ∈ s.merges, cr ≠ reqs_box → cr.covers 4 9 = false) :
    (reqs_steps_common d s).2 = none ∧
    ((reqs_steps_common d s).1).merges =
      (if reqs_box ∈ s.merges then s.merges else s.merges ++ [reqs_box]) ∧
    ((reqs_steps_common d s).1).val 4 9 = some (reqs_text d) ∧
    (∀ r c, reqs_box.covers r c = false →
      ((reqs_steps_common d s).1).val r c = s.val r c) ∧
    ((reqs_steps_common d s).1).style 4 9 =
      { s.style 4 9 with alignment := wrap_alignment } ∧
    (∀ r c, ¬(r = 4 ∧ c = 9) →
      ((reqs_steps_common d s).1).style r c = s.style r c) ∧
    ((reqs_steps_common d s).1).maxRow = max s.maxRow 9 := by
  rcases mergeCells_spec s reqs_box with ⟨m1, v1, vtl, st1, hh1, mx1⟩
  have hm : (s.mergeCells reqs_box).isMergedMember 4 9 = false := by
    refine isMergedMember_false_of _ _ _ ?_
    intro cr hcr
    rw [m1] at hcr
    have hcase : cr ∈ s.merges ∨ cr = reqs_box := by
      by_cases hmem : reqs_box ∈ s.merges
      · rw [if_pos hmem] at hcr
        exact Or.inl hcr
      · rw [if_neg hmem] at hcr
        rcases List.mem_append.mp hcr with h1 | h1
        · exact Or.inl h1
        · exact Or.inr (by simpa using h1)
    rcases hcase with h1 | h1
    · by_cases he : cr = reqs_box
      · right
        rw [he]
        exact ⟨rfl, rfl⟩
      · left
        exact hcov cr h1 he
    · right
      rw [h1]
      exact ⟨rfl, rfl⟩
  have hassign := assignValue_eq_of_not_member (s.mergeCells reqs_box) 4 9
    (some (reqs_text d)) hm
  have hstep : reqs_steps_common d s =
      forEachStep (fun r => liftStep fun s => s.setHeight r (some 20))
        (pyRange 4 10)
        ((({ s.mergeCells reqs_box with
            val := fun r' c' =>
              if r' = 4 && c' = 9 then some (reqs_text d)
              else (s.mergeCells reqs_box).val r' c',
            maxRow := max (s.mergeCells reqs_box).maxRow 4 }).modifyStyle 4 9
          fun st => { st with alignment := wrap_alignment })) := by
    unfold reqs_steps_common
    rw [seqStep_ok _ _ _ _ (liftStep_eq _ _)]
    rw [seqStep_ok _ _ _ _ (by
      show Sheet.assignValue _ 4 9 _ = _
      exact hassign)]
    rw [seqStep_ok _ _ _ _ (liftStep_eq _ _)]
    rfl
  rcases height_loop_frames (pyRange 4 10)
      ((({ s.mergeCells reqs_box with
          val := fun r' c' =>
            if r' = 4 && c' = 9 then some (reqs_text d)
            else (s.mergeCells reqs_box).val r' c',
          maxRow := max (s.mergeCells reqs_box).maxRow 4 }).modifyStyle 4 9
        fun st => { st with alignment := wrap_alignment })) with
    ⟨herr, hval, hsty, hmer, hmax⟩
  rw [hstep]
  refine ⟨herr, ?_, ?_, ?_, ?_, ?_, ?_⟩
  · rw [hmer]
    simp only [Sheet.modifyStyle]
    exact m1
  · rw [hval]
    simp only [Sheet.modifyStyle]
    rw [show (decide True && decide True) = true from rfl, if_bool_true]
  · intro r c hc
    rw [hval]
    simp only [Sheet.modifyStyle]
    have hne : (decide (r = 4) && decide (c = 9)) = false := by
      simp only [Bool.and_eq_false_iff, decide_eq_false_iff_not]
      by_cases h4 : r = 4
      · right
        intro h9
        rw [h4, h9] at hc
        rw [show reqs_box.covers 4 9 = true from rfl] at hc
        cases hc
      · left; exact h4
    rw [hne, if_bool_false]
    exact v1 r c hc
  · rw [hsty]
    simp only [Sheet.modifyStyle]
    rw [show (decide True && decide True) = true from rfl, if_bool_true]
    rw [st1]
  · intro r c hrc
    rw [hsty]
    simp only [Sheet.modifyStyle]
    have hne : (decide (r = 4) && decide (c = 9)) = false := by
      simp only [Bool.and_eq_false_iff, decide_eq_false_iff_not]
      exact not_and_or.mp hrc
    rw [hne, if_bool_false]
    rw [st1]
  · rw [hmax]
    simp only [Sheet.modifyStyle]
    rw [mx1]
    simp only [reqs_box]
    omega

/-- Characterization of the `main.py` requirements steps: same as the
common steps, but the box is unmerged first, so the merge list becomes
`erase reqs_box ++ [reqs_box]`. -/
theorem reqs_steps_main_spec (d : OrderData) (s : Sheet)
    (hnodup : s.merges.Nodup)
    (hcov : ∀ cr ∈ s.merges, cr ≠ reqs_box → cr.covers 4 9 = false) :
    (reqs_steps_main d s).2 = none ∧
    ((reqs_steps_main d s).1).merges = s.merges.erase reqs_box ++ [reqs_box] ∧
    ((reqs_steps_main d s).1).val 4 9 = some (reqs_text d) ∧
    (∀ r c, reqs_box.covers r c = false →
      ((reqs_steps_main d s).1).val r c = s.val r c) ∧
    ((reqs_steps_main d s).1).style 4 9 =
      { s.style 4 9 with alignment := wrap_alignment } ∧
    (∀ r c, ¬(r = 4 ∧ c = 9) →
      ((reqs_steps_main d s).1).style r c = s.style r c) ∧
    ((reqs_steps_main d s).1).maxRow = max s.maxRow 9 := by
  by_cases hmem : reqs_box ∈ s.merges
  · have hun : Sheet.unmergeCells s reqs_box =
        ({ s with merges := s.merges.erase reqs_box }, none) := by
      simp only [Sheet.unmergeCells, if_pos hmem]
    have hfirst : (fun s : Sheet =>
        if reqs_box ∈ s.merges then
          tryCatchS (primStep fun s' => s'.unmergeCells reqs_box) s
        else (s, none)) s =
        ({ s with merges := s.merges.erase reqs_box }, none) := by
      simp only []
      rw [if_pos hmem]
      show ((Sheet.unmergeCells s reqs_box).1, none) = _
      rw [hun]
    have hstep : reqs_steps_main d s =
        reqs_steps_common d ({ s with merges := s.merges.erase reqs_box }) := by
      unfold reqs_steps_main
      rw [seqStep_ok _ _ _ _ hfirst]
    rcases reqs_steps_common_spec d ({ s with merges := s.merges.erase reqs_box })
        (by
          intro cr hcr hne
          exact hcov cr (List.mem_of_mem_erase hcr) hne) with
      ⟨e, m, v49, vfr, st49, stfr, mx⟩
    rw [hstep]
    refine ⟨e, ?_, v49, vfr, st49, stfr, mx⟩
    rw [m]
    rw [if_neg (by
      simp only []
      exact hnodup.not_mem_erase)]
  · have hfirst : (fun s : Sheet =>
        if reqs_box ∈ s.merges then
          tryCatchS (primStep fun s' => s'.unmergeCells reqs_box) s
        else (s, none)) s = (s, none) := by
      simp only []
      rw [if_neg hmem]
    have hstep : reqs_steps_main d s = reqs_steps_common d s := by
      unfold reqs_steps_main
      rw [seqStep_ok _ _ _ _ hfirst]
    rcases reqs_steps_common_spec d s hcov with ⟨e, m, v49, vfr, st49, stfr, mx⟩
    rw [hstep]
    refine ⟨e, ?_, v49, vfr, st49, stfr, mx⟩
    rw [m, if_neg hmem, List.erase_of_not_mem hmem]

/-- Characterization of the five fixed header-field writes: only the
cells `C3 .. C7` change, merges and styles are untouched, nothing is
raised, provided every merge lies in columns I and beyond. -/
theorem header_fields_spec (d : OrderData) (s : Sheet)
    (hcols : ∀ cr ∈ s.merges, 9 ≤ cr.minCol) :
    (header_fields_steps d s).2 = none ∧
    ((header_fields_steps d s).1).merges = s.merges ∧
    ((header_fields_steps d s).1).style = s.style ∧
    (∀ r c, ¬(c = 3) → ((header_fields_steps d s).1).val r c = s.val r c) ∧
    (∀ r c, r < 3 ∨ 7 < r → ((header_fields_steps d s).1).val r c = s.val r c) ∧
    ((header_fields_steps d s).1).maxRow = max s.maxRow 7 := by
  have hm : ∀ (v : Nat → Nat → Option String) (h : Nat → Option Nat)
      (st : Nat → Nat → CellStyle) (mr : Nat) (r : Nat),
      (Sheet.mk v st h s.merges mr).isMergedMember r 3 = false := by
    intro v h st mr r
    exact not_member_lowCol _ r 3 (by omega) (fun cr hm => hcols cr hm)
  unfold header_fields_steps
  rw [seqStep_ok _ _ _ _ (assignValue_eq_of_not_member _ 3 3 _
    (not_member_lowCol _ 3 3 (by omega) (fun cr hmm => hcols cr hmm)))]
  rw [seqStep_ok _ _ _ _ (assignValue_eq_of_not_member _ 4 3 _ (hm _ _ _ _ 4))]
  rw [seqStep_ok _ _ _ _ (assignValue_eq_of_not_member _ 5 3 _ (hm _ _ _ _ 5))]
  rw [seqStep_ok _ _ _ _ (assignValue_eq_of_not_member _ 6 3 _ (hm _ _ _ _ 6))]
  rw [primStep_eq _ _ _ _ (assignValue_eq_of_not_member _ 7 3 _ (hm _ _ _ _ 7))]
  refine ⟨rfl, rfl, rfl, ?_, ?_, ?_⟩
  · intro r c hc
    simp only []
    have hne : ∀ k : Nat, (decide (r = k) && decide (c = 3)) = false := by
      intro k
      simp only [Bool.and_eq_false_iff, decide_eq_false_iff_not]
      right; exact hc
    rw [hne 7, if_bool_false, hne 6, if_bool_false, hne 5, if_bool_false,
      hne 4, if_bool_false, hne 3, if_bool_false]
  · intro r c hr
    simp only []
    have hne : ∀ k : Nat, 3 ≤ k → k ≤ 7 →
        (decide (r = k) && decide (c = 3)) = false := by
      intro k h1 h2
      simp only [Bool.and_eq_false_iff, decide_eq_false_iff_not]
      left; omega
    rw [hne 7 (by omega) (by omega), if_bool_false,
      hne 6 (by omega) (by omega), if_bool_false,
      hne 5 (by omega) (by omega), if_bool_false,
      hne 4 (by omega) (by omega), if_bool_false,
      hne 3 (by omega) (by omega), if_bool_false]
  · simp only []
    omega

theorem setHeight_style (s : Sheet) (r : Nat) (h : Option Nat) :
    (s.setHeight r h).style = s.style := rfl

theorem setHeight_val (s : Sheet) (r : Nat) (h : Option Nat) :
    (s.setHeight r h).val = s.val := rfl

theorem setHeight_merges (s : Sheet) (r : Nat) (h : Option Nat) :
    (s.setHeight r h).merges = s.merges := rfl

theorem setHeight_maxRow (s : Sheet) (r : Nat) (h : Option Nat) :
    (s.setHeight r h).maxRow = s.maxRow := rfl

theorem modifyStyle_val (s : Sheet) (r c : Nat) (f : CellStyle → CellStyle) :
    (s.modifyStyle r c f).val = s.val := rfl

theorem modifyStyle_merges (s : Sheet) (r c : Nat) (f : CellStyle → CellStyle) :
    (s.modifyStyle r c f).merges = s.merges := rfl

theorem modifyStyle_maxRow (s : Sheet) (r c : Nat) (f : CellStyle → CellStyle) :
    (s.modifyStyle r c f).maxRow = max s.maxRow r := rfl

theorem modifyStyle_at (s : Sheet) (r c : Nat) (f : CellStyle → CellStyle) :
    (s.modifyStyle r c f).style r c = f (s.style r c) := by
  simp [Sheet.modifyStyle]

theorem modifyStyle_other (s : Sheet) (r c r' c' : Nat)
    (f : CellStyle → CellStyle) (h : ¬(r' = r ∧ c' = c)) :
    (s.modifyStyle r c f).style r' c' = s.style r' c' := by
  simp only [Sheet.modifyStyle]
  have hcf : (decide (r' = r) && decide (c' = c)) = false := by
    simp only [Bool.and_eq_false_iff, decide_eq_false_iff_not]
    exact not_and_or.mp h
  rw [hcf, if_bool_false]

/-- The style `_recreate_expedicia_section` leaves on the caption cell:
cleared defaults, then centred alignment, bold font and thin border. -/
def expedicia_style_main : CellStyle :=
  { font := { bold := true }, border := thin_border, fill := {},
    alignment := { horizontal := some ("center"), vertical := some ("center") },
    numberFormat := "General", protection := none }

set_option maxHeartbeats 2000000 in
/-- Characterization of `_recreate_expedicia_section` at a row nothing
else merges into: the exact header range is re-merged at the end of the
merge list, the caption lands in column I with the centred bold bordered
style, rows other than the target keep their values and styles, the
extent grows to the target row, and nothing is raised. -/
theorem recreate_expedicia_spec (row : Nat) (s : Sheet)
    (hnodup : s.merges.Nodup)
    (hrow : ∀ cr ∈ s.merges, cr ≠ expedicia_range row →
      cr.touchesRow row = false) :
    (recreate_expedicia_section row s).2 = none ∧
    ((recreate_expedicia_section row s).1).merges =
      s.merges.erase (expedicia_range row) ++ [expedicia_range row] ∧
    ((recreate_expedicia_section row s).1).val row 9 = some expedicia_caption ∧
    (∀ r c, r ≠ row → ((recreate_expedicia_section row s).1).val r c = s.val r c) ∧
    ((recreate_expedicia_section row s).1).style row 9 = expedicia_style_main ∧
    (∀ r c, r ≠ row →
      ((recreate_expedicia_section row s).1).style r c = s.style r c) ∧
    ((recreate_expedicia_section row s).1).maxRow = max s.maxRow row := by
  have hsub : ∀ cr ∈ s.merges.erase (expedicia_range row), cr ∈ s.merges :=
    fun cr hcr => List.mem_of_mem_erase hcr
  have hnotE : expedicia_range row ∉ s.merges.erase (expedicia_range row) :=
    hnodup.not_mem_erase
  have hmemE : ∀ (v : Nat → Nat → Option String) (st : Nat → Nat → CellStyle)
      (h : Nat → Option Nat) (mr : Nat) (c : Nat),
      (Sheet.mk v st h (s.merges.erase (expedicia_range row)) mr).isMergedMember
        row c = false := by
    intro v st h mr c
    simp only [Sheet.isMergedMember, List.any_eq_false]
    intro cr hcr
    rcases hcov : cr.covers row c with _ | _
    · simp
    · have ht := covers_touchesRow hcov
      have hne : cr ≠ expedicia_range row := by
        intro he
        rw [he] at hcr
        exact hnotE hcr
      rw [hrow cr (hsub cr hcr) hne] at ht
      cases ht
  have hfirst : (fun s : Sheet =>
      if expedicia_range row ∈ s.merges then
        tryCatchS (primStep fun s' => s'.unmergeCells (expedicia_range row)) s
      else (s, none)) s =
      ({ s with merges := s.merges.erase (expedicia_range row) }, none) := by
    simp only []
    by_cases hmem : expedicia_range row ∈ s.merges
    · rw [if_pos hmem]
      show ((Sheet.unmergeCells s (expedicia_range row)).1, none) = _
      simp only [Sheet.unmergeCells, if_pos hmem]
    · rw [if_neg hmem, List.erase_of_not_mem hmem]
  unfold recreate_expedicia_section
  rw [seqStep_ok _ _ _ _ hfirst]
  have hclear : ∀ (t : Sheet) (c : Nat),
      t.merges = s.merges.erase (expedicia_range row) →
      recreate_clear_cell row c t =
        ({ t with
            val := fun r' c' =>
              if r' = row && c' = c then none else t.val r' c',
            style := fun r' c' =>
              if r' = row && c' = c then
                { font := {}, fill := {}, border := {}, alignment := {},
                  numberFormat := "General", protection := none }
              else t.style r' c',
            maxRow := max t.maxRow row }, none) := by
    intro t c hmer
    have hmemb : t.isMergedMember row c = false := by
      have : t.isMergedMember row c =
          (Sheet.mk t.val t.style t.height
            (s.merges.erase (expedicia_range row)) t.maxRow).isMergedMember
            row c := by
        simp only [Sheet.isMergedMember, hmer]
      rw [this, hmemE]
    unfold recreate_clear_cell
    rw [seqStep_ok _ _ _ _ (assignValue_eq_of_not_member t row c none hmemb)]
    rw [liftStep_eq]
    simp only [Sheet.modifyStyle]
    rw [Prod.mk.injEq]
    refine ⟨?_, rfl⟩
    rw [Sheet.mk.injEq]
    refine ⟨rfl, ?_, rfl, rfl, by omega⟩
    funext r' c'
    rcases hb : (decide (r' = row) && decide (c' = c)) with _ | _
    · simp only [hb, if_bool_false]
    · simp only [hb, if_bool_true]
  have e9 := hclear ({ s with merges := s.merges.erase (expedicia_range row) })
    9 rfl
  rw [show pyRange 9 13 = [9, 10, 11, 12] from rfl]
  rw [show forEachStep (fun col => recreate_clear_cell row col) [9, 10, 11, 12] =
      seqStep (recreate_clear_cell row 9)
      (seqStep (recreate_clear_cell row 10)
      (seqStep (recreate_clear_cell row 11)
      (seqStep (recreate_clear_cell row 12) skipStep))) from rfl]
  simp only [seqStep_assoc, skip_seqStep]
  rw [seqStep_ok _ _ _ _ e9]
  rw [seqStep_ok _ _ _ _ (hclear _ 10 rfl)]
  rw [seqStep_ok _ _ _ _ (hclear _ 11 rfl)]
  rw [seqStep_ok _ _ _ _ (hclear _ 12 rfl)]
  have hanyE : ∀ (c : Nat) (m : List CRange),
      m = s.merges.erase (expedicia_range row) →
      (m.any fun cr =>
        cr.covers row c &&
          !(decide (row = cr.minRow) && decide (c = cr.minCol))) = false := by
    intro c m hmeq
    subst hmeq
    rw [List.any_eq_false]
    intro cr hcr
    rcases hcov : cr.covers row c with _ | _
    · simp
    · have ht := covers_touchesRow hcov
      have hne : cr ≠ expedicia_range row := by
        intro he
        rw [he] at hcr
        exact hnotE hcr
      rw [hrow cr (hsub cr hcr) hne] at ht
      cases ht
  have hmrgmer : ∀ t : Sheet,
      t.merges = s.merges.erase (expedicia_range row) →
      (t.mergeCells (expedicia_range row)).merges =
        s.merges.erase (expedicia_range row) ++ [expedicia_range row] := by
    intro t hteq
    rcases mergeCells_spec t (expedicia_range row) with ⟨m, _, _, _, _, _⟩
    rw [m, hteq, if_neg hnotE]
  have hmembF : ∀ t : Sheet,
      t.merges = s.merges.erase (expedicia_range row) →
      (t.mergeCells (expedicia_range row)).isMergedMember row 9 = false := by
    intro t hteq
    simp only [Sheet.isMergedMember, hmrgmer t hteq, List.any_append]
    rw [hanyE 9 _ rfl]
    simp only [List.any_cons, List.any_nil, Bool.false_or, Bool.or_false]
    simp [expedicia_range, CRange.covers]
  have htail : ∀ t : Sheet,
      t.merges = s.merges.erase (expedicia_range row) →
      ∀ (R : Step),
      R = seqStep (liftStep fun s => s.mergeCells (expedicia_range row))
        (seqStep
          (primStep fun s => s.assignValue row 9 (some expedicia_caption))
          (seqStep (liftStep fun s => s.modifyStyle row 9 fun st =>
            { st with alignment :=
                { horizontal := some ("center"), vertical := some ("center") } })
          (seqStep (liftStep fun s => s.modifyStyle row 9 fun st =>
            { st with font := { bold := true } })
          (seqStep (liftStep fun s => s.modifyStyle row 9 fun st =>
            { st with border := thin_border })
            (liftStep fun s => s.setHeight row (some 20)))))) →
      (R t).2 = none ∧
      ((R t).1).merges =
        s.merges.erase (expedicia_range row) ++ [expedicia_range row] ∧
      ((R t).1).val row 9 = some expedicia_caption ∧
      (∀ r c, r ≠ row → ((R t).1).val r c = t.val r c) ∧
      ((R t).1).style row 9 =
        { t.style row 9 with
            alignment :=
              { horizontal := some ("center"), vertical := some ("center") },
            font := { bold := true },
            border := thin_border } ∧
      (∀ r c, ¬(r = row ∧ c = 9) → ((R t).1).style r c = t.style r c) ∧
      ((R t).1).maxRow = max t.maxRow row := by
    intro t hteq R hR
    subst hR
    rcases mergeCells_spec t (expedicia_range row) with ⟨_, vfr, _, stF, _, mxF⟩
    have ha := assignValue_eq_of_not_member (t.mergeCells (expedicia_range row))
      row 9 (some expedicia_caption) (hmembF t hteq)
    have hapair : (t.mergeCells (expedicia_range row)).assignValue row 9
        (some expedicia_caption) =
        (((t.mergeCells (expedicia_range row)).assignValue row 9
          (some expedicia_caption)).1, none) := by
      rw [ha]
    have hchain : seqStep (liftStep fun s => s.mergeCells (expedicia_range row))
        (seqStep
          (primStep fun s => s.assignValue row 9 (some expedicia_caption))
          (seqStep (liftStep fun s => s.modifyStyle row 9 fun st =>
            { st with alignment :=
                { horizontal := some ("center"), vertical := some ("center") } })
          (seqStep (liftStep fun s => s.modifyStyle row 9 fun st =>
            { st with font := { bold := true } })
          (seqStep (liftStep fun s => s.modifyStyle row 9 fun st =>
            { st with border := thin_border })
            (liftStep fun s => s.setHeight row (some 20)))))) t =
        ((((((t.mergeCells (expedicia_range row)).assignValue row 9
            (some expedicia_caption)).1.modifyStyle row 9 fun st =>
          { st with alignment :=
              { horizontal := some ("center"), vertical := some ("center") } }).modifyStyle
            row 9 fun st => { st with font := { bold := true } }).modifyStyle
            row 9 fun st => { st with border := thin_border }).setHeight row
            (some 20), none) := by
      rw [seqStep_ok _ _ _ _ (liftStep_eq _ _)]
      rw [seqStep_ok _ _ _ _ hapair]
      rw [seqStep_ok _ _ _ _ (liftStep_eq _ _)]
      rw [seqStep_ok _ _ _ _ (liftStep_eq _ _)]
      rw [seqStep_ok _ _ _ _ (liftStep_eq _ _)]
    rw [hchain]
    refine ⟨rfl, ?_, ?_, ?_, ?_, ?_, ?_⟩
    · simp only [setHeight_merges, modifyStyle_merges]
      rw [ha]
      simp only []
      exact hmrgmer t hteq
    · simp only [setHeight_val, modifyStyle_val]
      rw [ha]
      simp only []
      split
      · rfl
      · rename_i hcond
        exact absurd (by simp) hcond
    · intro r c hr
      simp only [setHeight_val, modifyStyle_val]
      rw [ha]
      simp only []
      have hcov : (expedicia_range row).covers r c = false := by
        simp only [expedicia_range, CRange.covers, Bool.and_eq_false_iff,
          decide_eq_false_iff_not]
        rcases Nat.lt_or_ge r row with h1 | h1
        · left; left; left; omega
        · left; left; right; omega
      split
      · rename_i hcond
        simp only [Bool.and_eq_true, decide_eq_true_eq] at hcond
        exact absurd hcond.1 hr
      · exact vfr r c hcov
    · rw [setHeight_style, modifyStyle_at, modifyStyle_at, modifyStyle_at]
      have hsty : (((t.mergeCells (expedicia_range row)).assignValue row 9
          (some expedicia_caption)).1).style = t.style := by
        rw [ha]
        simp only []
        rw [stF]
      rw [hsty]
    · intro r c hrc
      rw [setHeight_style, modifyStyle_other _ _ _ _ _ _ hrc,
        modifyStyle_other _ _ _ _ _ _ hrc, modifyStyle_other _ _ _ _ _ _ hrc]
      have hsty : (((t.mergeCells (expedicia_range row)).assignValue row 9
          (some expedicia_caption)).1).style = t.style := by
        rw [ha]
        simp only []
        rw [stF]
      rw [hsty]
    · simp only [setHeight_maxRow, modifyStyle_maxRow]
      have hmx : (((t.mergeCells (expedicia_range row)).assignValue row 9
          (some expedicia_caption)).1).maxRow = max t.maxRow row := by
        rw [ha]
        simp only []
        rw [mxF]
        simp only [expedicia_range]
        omega
      rw [hmx]
      omega
  refine ⟨(htail _ rfl _ rfl).1, (htail _ rfl _ rfl).2.1,
    (htail _ rfl _ rfl).2.2.1, ?_, ?_, ?_, ?_⟩
  · intro r c hr
    refine Eq.trans ((htail _ rfl _ rfl).2.2.2.1 r c hr) ?_
    have hrf : (decide (r = row)) = false := by
      simp only [decide_eq_false_iff_not]
      exact hr
    simp only [hrf, Bool.false_and, if_bool_false]
  · refine Eq.trans (htail _ rfl _ rfl).2.2.2.2.1 ?_
    simp only [show (decide True && decide True) = true from rfl, if_bool_true]
    rfl
  · intro r c hr
    refine Eq.trans ((htail _ rfl _ rfl).2.2.2.2.2.1 r c
      (by intro hh; exact hr hh.1)) ?_
    have hrf : (decide (r = row)) = false := by
      simp only [decide_eq_false_iff_not]
      exact hr
    simp only [hrf, Bool.false_and, if_bool_false]
  · refine Eq.trans (htail _ rfl _ rfl).2.2.2.2.2.2 ?_
    simp only []
    omega

theorem pyRange_snoc (a n : Nat) :
    pyRange a (a + n + 1) = pyRange a (a + n) ++ [a + n] := by
  unfold pyRange
  rw [show a + n + 1 - a = n + 1 from by omega, show a + n - a = n from by omega,
    List.range_succ, List.map_append]
  rfl

theorem pyRange_self (a : Nat) : pyRange a a = [] := by
  unfold pyRange
  rw [Nat.sub_self]
  rfl

theorem mem_pyRange (lo hi x : Nat) : x ∈ pyRange lo hi ↔ lo ≤ x ∧ x < hi := by
  unfold pyRange
  simp only [List.mem_map, List.mem_range]
  constructor
  · rintro ⟨k, hk, rfl⟩
    omega
  · intro ⟨h1, h2⟩
    exact ⟨x - lo, by omega, by omega⟩

/-- The unmerge sweep over the contiguous row interval
`a .. a + n - 1` removes exactly the merges meeting the interval and
changes nothing else. -/
theorem unmerge_range_loop_spec (a : Nat) : ∀ (n : Nat) (s : Sheet),
    forEachStep (fun r => safely_unmerge_row_cells r) (pyRange a (a + n)) s =
      ({ s with merges :=
          s.merges.filter fun cr => !(cr.touchesRowRange a n) }, none) := by
  intro n
  induction n with
  | zero =>
    intro s
    rw [Nat.add_zero, pyRange_self]
    show (s, none) = _
    have hf : (s.merges.filter fun cr => !(cr.touchesRowRange a 0)) = s.merges := by
      refine List.filter_eq_self.mpr ?_
      intro cr _
      rw [touchesRowRange_zero]
      rfl
    rw [hf]
  | succ n ih =>
    intro s
    have he : a + (n + 1) = a + n + 1 := by omega
    rw [he, pyRange_snoc, forEachStep_append, seqStep_ok _ _ _ _ (ih s)]
    show seqStep _ _ _ = _
    rw [seqStep_ok _ _ _ _ (safely_unmerge_row_cells_eq (a + n) _)]
    show (_, (none : Option PyErr)) = _
    simp only [List.filter_filter]
    have hf : ∀ l : List CRange,
        (l.filter fun cr =>
          !(cr.touchesRow (a + n)) && !(cr.touchesRowRange a n)) =
        l.filter fun cr => !(cr.touchesRowRange a (n + 1)) := by
      intro l
      refine List.filter_congr ?_
      intro cr _
      rw [touchesRowRange_snoc]
      simp only [Bool.not_or]
      rw [Bool.and_comm]
    rw [hf]

/-- Characterization of the processor's stale-row cleanup: every merge
extending past `last` is dissolved, the extent is clamped to `last`, and
rows up to `last` keep their values and styles. -/
theorem clean_stale_rows_spec (last : Nat) (t : Sheet)
    (hco : ∀ cr ∈ t.merges, cr.minRow ≤ cr.maxRow ∧ cr.maxRow ≤ t.maxRow) :
    (clean_stale_rows last t).2 = none ∧
    ((clean_stale_rows last t).1).merges =
      t.merges.filter (fun cr => decide (cr.maxRow ≤ last)) ∧
    ((clean_stale_rows last t).1).maxRow = min t.maxRow last ∧
    (∀ r c, r ≤ last → ((clean_stale_rows last t).1).val r c = t.val r c) ∧
    (∀ r c, r ≤ last → ((clean_stale_rows last t).1).style r c = t.style r c) ∧
    ((clean_stale_rows last t).1).height = t.height := by
  unfold clean_stale_rows
  simp only []
  by_cases h : last < t.maxRow
  · rw [if_pos h]
    have hk1 : 0 < t.maxRow - last := by omega
    have hrw : pyRange (last + 1) (t.maxRow + 1) =
        pyRange (last + 1) ((last + 1) + (t.maxRow - last)) := by
      rw [show (last + 1) + (t.maxRow - last) = t.maxRow + 1 from by omega]
    rw [hrw,
      seqStep_ok _ _ _ _ (unmerge_range_loop_spec (last + 1) (t.maxRow - last) t)]
    rw [if_pos hk1]
    set s1 : Sheet :=
      ({ t with merges :=
        t.merges.filter (fun cr =>
          !(cr.touchesRowRange (last + 1) (t.maxRow - last))) }) with hs1
    have hdel : tryCatchS (liftStep fun s' : Sheet =>
        s'.deleteRows (last + 1) (t.maxRow - last)) s1 =
        (s1.deleteRows (last + 1) (t.maxRow - last), none) := rfl
    rw [hdel]
    have hnm : ¬ s1.maxRow < last + 1 := by
      rw [hs1]
      simp only []
      omega
    have hmer :
        (t.merges.filter fun cr =>
          !(cr.touchesRowRange (last + 1) (t.maxRow - last))) =
        t.merges.filter fun cr => decide (cr.maxRow ≤ last) := by
      refine List.filter_congr ?_
      intro cr hm
      rcases hco cr hm with ⟨h1, h2⟩
      rw [Bool.eq_iff_iff]
      simp only [CRange.touchesRowRange, Bool.not_eq_true', Bool.and_eq_false_iff,
        decide_eq_false_iff_not, decide_eq_true_eq]
      omega
    refine ⟨rfl, ?_, ?_, ?_, ?_, ?_⟩
    · simp only [Sheet.deleteRows]
      rw [if_neg hnm]
      simp only [hs1]
      exact hmer
    · simp only [Sheet.deleteRows]
      rw [if_neg hnm]
      simp only [hs1]
      rw [if_pos (by omega)]
      omega
    · intro r c hr
      simp only [Sheet.deleteRows]
      rw [if_neg hnm]
      simp only [hs1]
      rw [if_pos (by omega : r < last + 1)]
    · intro r c hr
      simp only [Sheet.deleteRows]
      rw [if_neg hnm]
      simp only [hs1]
      rw [if_pos (by omega : r < last + 1)]
    · simp only [Sheet.deleteRows]
      rw [if_neg hnm]
  · rw [if_neg h]
    refine ⟨rfl, ?_, by simp only []; omega, fun _ _ _ => rfl, fun _ _ _ => rfl,
      rfl⟩
    refine (List.filter_eq_self.mpr ?_).symm
    intro cr hm
    rcases hco cr hm with ⟨h1, h2⟩
    simp only [decide_eq_true_eq]
    omega

theorem tryCatchS_liftStep (f : Sheet → Sheet) (s : Sheet) :
    tryCatchS (liftStep f) s = (f s, none) := rfl

theorem reqs_box_not_touches (r : Nat) (hr : 10 ≤ r) :
    reqs_box.touchesRow r = false := by
  simp only [reqs_box, CRange.touchesRow]
  simp only [Bool.and_eq_false_iff, decide_eq_false_iff_not]
  omega

theorem reqs_box_not_covers (r c : Nat) (hr : 10 ≤ r) :
    reqs_box.covers r c = false := by
  simp only [reqs_box, CRange.covers]
  simp only [Bool.and_eq_false_iff, decide_eq_false_iff_not]
  left; left; right; omega

/-- One guarded blanking of `add_additional_rows` on a sheet whose only
merge is the requirements box: the cell gets the empty string, everything
else but the extent is unchanged. -/
theorem guarded_blank_spec (r c : Nat) (b : Bool) (s : Sheet)
    (hm : s.merges = [reqs_box]) (hr : 12 ≤ r) :
    (guarded_blank r c b s).merges = s.merges ∧
    (guarded_blank r c b s).maxRow = max s.maxRow r ∧
    (guarded_blank r c b s).val r c = some ("") ∧
    (∀ r' c', ¬(r' = r ∧ c' = c) →
      (guarded_blank r c b s).val r' c' = s.val r' c') ∧
    (guarded_blank r c b s).height = s.height := by
  unfold guarded_blank
  simp only []
  have hmem : (s.touchRow r).isMergedMember r c = false := by
    refine isMergedMember_false_of _ _ _ ?_
    intro cr hcr
    have hcr' : cr ∈ s.merges := hcr
    rw [hm, List.mem_singleton] at hcr'
    subst hcr'
    exact Or.inl (reqs_box_not_covers r c (by omega))
  rw [hmem, if_bool_false]
  rw [assignValue_eq_of_not_member (s.touchRow r) r c (some ("")) hmem]
  simp only []
  cases b with
  | false =>
    rw [if_bool_false]
    refine ⟨rfl, ?_, ?_, ?_, rfl⟩
    · simp only [Sheet.touchRow]
      omega
    · simp only []
      rw [show (decide True && decide True) = true from rfl, if_bool_true]
    · intro r' c' hrc
      have hcond : (decide (r' = r) && decide (c' = c)) = false := by
        simp only [Bool.and_eq_false_iff, decide_eq_false_iff_not]
        exact not_and_or.mp hrc
      simp only []
      rw [hcond, if_bool_false]
      rfl
  | true =>
    rw [if_bool_true]
    refine ⟨?_, ?_, ?_, ?_, ?_⟩
    · rw [modifyStyle_merges]
      rfl
    · rw [modifyStyle_maxRow]
      simp only [Sheet.touchRow]
      omega
    · rw [modifyStyle_val]
      simp only []
      rw [show (decide True && decide True) = true from rfl, if_bool_true]
    · intro r' c' hrc
      rw [modifyStyle_val]
      have hcond : (decide (r' = r) && decide (c' = c)) = false := by
        simp only [Bool.and_eq_false_iff, decide_eq_false_iff_not]
        exact not_and_or.mp hrc
      simp only []
      rw [hcond, if_bool_false]
      rfl
    · rfl

/-- The column-blanking fold of one additional row: every listed column
of row `r` is blanked, other cells keep their values. -/
theorem blank_fold_spec (r : Nat) (hr : 12 ≤ r) : ∀ (cols : List Nat) (s : Sheet),
    s.merges = [reqs_box] → r ≤ s.maxRow →
    ((cols.foldl (fun acc c => guarded_blank r c true acc) s).merges =
      s.merges ∧
    (cols.foldl (fun acc c => guarded_blank r c true acc) s).maxRow =
      s.maxRow ∧
    (∀ r' c', r' ≠ r →
      (cols.foldl (fun acc c => guarded_blank r c true acc) s).val r' c' =
        s.val r' c') ∧
    (∀ c', c' ∉ cols →
      (cols.foldl (fun acc c => guarded_blank r c true acc) s).val r c' =
        s.val r c') ∧
    (∀ c' ∈ cols,
      (cols.foldl (fun acc c => guarded_blank r c true acc) s).val r c' =
        some ("")) ∧
    (cols.foldl (fun acc c => guarded_blank r c true acc) s).height =
      s.height) := by
  intro cols
  induction cols with
  | nil =>
    intro s _ _
    exact ⟨rfl, rfl, fun _ _ _ => rfl, fun _ _ => rfl, fun c hc => by simp at hc,
      rfl⟩
  | cons c0 cs ih =>
    intro s hm hmx
    rcases guarded_blank_spec r c0 true s hm hr with ⟨gm, gmx, gval, gfr, ghei⟩
    have hm1 : (guarded_blank r c0 true s).merges = [reqs_box] := by
      rw [gm, hm]
    have hmx1 : r ≤ (guarded_blank r c0 true s).maxRow := by
      rw [gmx]; omega
    rcases ih (guarded_blank r c0 true s) hm1 hmx1 with
      ⟨im, imx, ifr, inot, iin, ihei⟩
    simp only [List.foldl_cons]
    refine ⟨by rw [im, gm], by rw [imx, gmx]; omega, ?_, ?_, ?_,
      by rw [ihei, ghei]⟩
    · intro r' c' hr'
      rw [ifr r' c' hr', gfr r' c' (by tauto)]
    · intro c' hc'
      simp only [List.mem_cons, not_or] at hc'
      rw [inot c' hc'.2, gfr r c' (by tauto)]
    · intro c' hc'
      simp only [List.mem_cons] at hc'
      by_cases hcs : c' ∈ cs
      · exact iin c' hcs
      · rcases hc' with h0 | h0
        · subst h0
          rw [inot c' hcs, gval]
        · exact absurd h0 hcs

/-- One iteration of the additional-row loop on a fresh trailing row:
the row is created (extent grows to `r`), column 1 is blanked, no merge
appears, and earlier rows keep their values. -/
theorem add_one_additional_row_spec (r : Nat) (s : Sheet)
    (hm : s.merges = [reqs_box]) (hmx : s.maxRow < r) (hr : 13 ≤ r) :
    (add_one_additional_row r s).2 = none ∧
    ((add_one_additional_row r s).1).merges = [reqs_box] ∧
    ((add_one_additional_row r s).1).maxRow = r ∧
    (∀ r' c, r' ≠ r → ((add_one_additional_row r s).1).val r' c = s.val r' c) ∧
    ((add_one_additional_row r s).1).val r 1 = some ("") := by
  have h1 := safely_unmerge_row_cells_eq r s
  have hfil : (s.merges.filter fun cr => !(cr.touchesRow r)) = [reqs_box] := by
    rw [hm]
    simp only [List.filter_cons, List.filter_nil,
      reqs_box_not_touches r (by omega), Bool.not_false, if_pos]
  unfold add_one_additional_row
  rw [seqStep_ok _ _ _ _ h1]
  set s1 : Sheet :=
    ({ s with merges := s.merges.filter fun cr => !(cr.touchesRow r) })
    with hs1
  have hins : (s1.maxRow < r) = True := by
    simp only [hs1]
    simpa using hmx
  have h2 : (liftStep fun t : Sheet =>
      if t.maxRow < r then t.insertRow r else t) s1 = (s1.insertRow r, none) := by
    simp only [liftStep, hins, if_true]
  have hins2 : s1.insertRow r = s1 := by
    unfold Sheet.insertRow
    rw [if_pos (by simp only [hs1]; exact hmx)]
  rw [seqStep_ok _ _ _ _ (by rw [h2, hins2] : (liftStep fun t : Sheet =>
      if t.maxRow < r then t.insertRow r else t) s1 = (s1, none))]
  rw [seqStep_ok _ _ _ _ (liftStep_eq _ s1)]
  set s2 : Sheet := s1.setHeight r (some 25) with hs2
  show (tryCatchS _ s2).2 = none ∧ _
  rw [tryCatchS_liftStep]
  simp only []
  have hm2 : s2.merges = [reqs_box] := by
    rw [hs2, setHeight_merges, hs1]
    exact hfil
  rcases guarded_blank_spec r 1 false s2 hm2 (by omega) with
    ⟨g1m, g1mx, g1val, g1fr, g1hei⟩
  have hm3 : (guarded_blank r 1 false s2).merges = [reqs_box] := by
    rw [g1m, hm2]
  rcases guarded_blank_spec r 12 false (guarded_blank r 1 false s2) hm3
      (by omega) with ⟨g2m, g2mx, g2val, g2fr, g2hei⟩
  have hm4 : (guarded_blank r 12 false (guarded_blank r 1 false s2)).merges =
      [reqs_box] := by
    rw [g2m, hm3]
  have hmx4 : r ≤ (guarded_blank r 12 false (guarded_blank r 1 false s2)).maxRow := by
    rw [g2mx]; omega
  rcases blank_fold_spec r (by omega) (pyRange 2 12)
      (guarded_blank r 12 false (guarded_blank r 1 false s2)) hm4 hmx4 with
    ⟨fm, fmx, ffr, fnot, fin, fhei⟩
  refine ⟨trivial, ?_, ?_, ?_, ?_⟩
  · rw [fm, hm4]
  · rw [fmx, g2mx, g1mx, hs2]
    show max (max s1.maxRow r) r = r
    simp only [hs1]
    omega
  · intro r' c hr'
    rw [ffr r' c hr', g2fr r' c (fun h => hr' h.1), g1fr r' c (fun h => hr' h.1),
      hs2]
    rfl
  · have h1not : (1 : Nat) ∉ pyRange 2 12 := by decide
    rw [fnot 1 h1not, g2fr r 1 (by omega), g1val]

theorem tryCatchS_fst (a : Step) (s : Sheet) :
    (tryCatchS a s).1 = (a s).1 := rfl

theorem tryCatchS_eq (a : Step) (s : Sheet) :
    tryCatchS a s = ((a s).1, none) := rfl

/-- The additional-rows loop: after `k` iterations the extent has grown
by `k` fresh blanked rows, the merge list is still just the requirements
box, and rows up to `last` are untouched. -/
theorem add_rows_loop_spec (last : Nat) (hl : 12 ≤ last) : ∀ (k : Nat) (t : Sheet),
    t.merges = [reqs_box] → t.maxRow = last →
    (forEachStep (fun i => add_one_additional_row (last + 1 + i))
      (List.range k) t).2 = none ∧
    ((forEachStep (fun i => add_one_additional_row (last + 1 + i))
      (List.range k) t).1).merges = [reqs_box] ∧
    ((forEachStep (fun i => add_one_additional_row (last + 1 + i))
      (List.range k) t).1).maxRow = last + k ∧
    (∀ r c, r ≤ last →
      ((forEachStep (fun i => add_one_additional_row (last + 1 + i))
        (List.range k) t).1).val r c = t.val r c) ∧
    (∀ j, 0 < j → j ≤ k →
      ((forEachStep (fun i => add_one_additional_row (last + 1 + i))
        (List.range k) t).1).val (last + j) 1 = some ("")) := by
  intro k
  induction k with
  | zero =>
    intro t hm hmx
    exact ⟨rfl, hm, by simpa using hmx, fun _ _ _ => rfl,
      fun j hj0 hjk => by omega⟩
  | succ k ih =>
    intro t hm hmx
    rcases ih t hm hmx with ⟨ierr, imer, imax, ival, ilab⟩
    have hpair : forEachStep (fun i => add_one_additional_row (last + 1 + i))
        (List.range k) t =
        ((forEachStep (fun i => add_one_additional_row (last + 1 + i))
          (List.range k) t).1, none) := by
      rw [← ierr]
    set u := (forEachStep (fun i => add_one_additional_row (last + 1 + i))
      (List.range k) t).1 with hu
    rcases add_one_additional_row_spec (last + 1 + k) u imer
        (by rw [imax]; omega) (by omega) with ⟨berr, bmer, bmax, bfr, blab⟩
    have bpair : add_one_additional_row (last + 1 + k) u =
        ((add_one_additional_row (last + 1 + k) u).1, none) := by
      rw [← berr]
    have hstep : forEachStep (fun i => add_one_additional_row (last + 1 + i))
        (List.range (k + 1)) t =
        ((add_one_additional_row (last + 1 + k) u).1, none) := by
      rw [List.range_succ, forEachStep_append]
      rw [seqStep_ok _ _ _ _ hpair]
      show seqStep _ _ _ = _
      rw [seqStep_ok _ _ _ _ bpair]
      simp only [forEachStep, skipStep]
    rw [hstep]
    refine ⟨rfl, bmer, ?_, ?_, ?_⟩
    · simp only []
      rw [bmax]
      omega
    · intro r c hr
      simp only []
      rw [bfr r c (by omega), hu, ival r c hr]
    · intro j hj0 hjk
      simp only []
      rcases Nat.lt_or_ge j (k + 1) with hlt | hge
      · rw [bfr (last + j) 1 (by omega), hu]
        exact ilab j hj0 (by omega)
      · have hjk1 : j = k + 1 := by omega
        subst hjk1
        rw [show last + (k + 1) = last + 1 + k from by omega]
        exact blab

set_option maxRecDepth 8192 in
set_option maxHeartbeats 2000000 in
/-- Characterization of `add_additional_rows`: nine fresh rows past
`last`, extent `last + 9`, no new merges, rows up to `last` untouched,
and the first fresh row's label cell blanked to the empty string. -/
theorem add_additional_rows_spec (last : Nat) (t : Sheet)
    (hm : t.merges = [reqs_box]) (hmx : t.maxRow = last) (hl : 12 ≤ last) :
    (add_additional_rows last t).2 = none ∧
    ((add_additional_rows last t).1).merges = [reqs_box] ∧
    ((add_additional_rows last t).1).maxRow = last + 9 ∧
    (∀ r c, r ≤ last →
      ((add_additional_rows last t).1).val r c = t.val r c) ∧
    ((add_additional_rows last t).1).val (last + 1) 1 = some ("") := by
  rcases add_rows_loop_spec last hl 9 t hm hmx with ⟨e, m, mx, fr, lab⟩
  unfold add_additional_rows
  refine ⟨rfl, ?_, ?_, ?_, ?_⟩
  · rw [tryCatchS_fst]
    exact m
  · rw [tryCatchS_fst]
    exact mx
  · intro r c hr
    rw [tryCatchS_fst]
    exact fr r c hr
  · rw [tryCatchS_fst]
    exact lab 1 (by omega) (by omega)

/-- A loop styling several columns of one fixed row `r` changes nothing
but the styles of row `r` (and keeps the extent once row `r` exists). -/
theorem colstyle_loop_spec (r : Nat) (f : Nat → CellStyle → CellStyle) :
    ∀ (cols : List Nat) (s : Sheet), r ≤ s.maxRow →
    (forEachStep (fun c => liftStep fun s => s.modifyStyle r c (f c)) cols s).2 =
      none ∧
    ((forEachStep (fun c => liftStep fun s => s.modifyStyle r c (f c)) cols
      s).1).merges = s.merges ∧
    ((forEachStep (fun c => liftStep fun s => s.modifyStyle r c (f c)) cols
      s).1).val = s.val ∧
    ((forEachStep (fun c => liftStep fun s => s.modifyStyle r c (f c)) cols
      s).1).height = s.height ∧
    ((forEachStep (fun c => liftStep fun s => s.modifyStyle r c (f c)) cols
      s).1).maxRow = s.maxRow ∧
    (∀ r' c', r' ≠ r →
      ((forEachStep (fun c => liftStep fun s => s.modifyStyle r c (f c)) cols
        s).1).style r' c' = s.style r' c') := by
  intro cols
  induction cols with
  | nil =>
    intro s _
    exact ⟨rfl, rfl, rfl, rfl, rfl, fun _ _ _ => rfl⟩
  | cons c0 cs ih =>
    intro s hr
    have hstep :
        forEachStep (fun c => liftStep fun s => s.modifyStyle r c (f c))
          (c0 :: cs) s =
        forEachStep (fun c => liftStep fun s => s.modifyStyle r c (f c)) cs
          (s.modifyStyle r c0 (f c0)) := by
      show seqStep _ _ _ = _
      rw [seqStep_ok _ _ _ _ (liftStep_eq _ _)]
    have hr1 : r ≤ (s.modifyStyle r c0 (f c0)).maxRow := by
      rw [modifyStyle_maxRow]; omega
    rcases ih (s.modifyStyle r c0 (f c0)) hr1 with ⟨e, m, v, h, mx, st⟩
    rw [hstep]
    refine ⟨e, by rw [m, modifyStyle_merges], by rw [v, modifyStyle_val],
      by rw [h]; rfl, by rw [mx, modifyStyle_maxRow]; omega, ?_⟩
    intro r' c' hr'
    rw [st r' c' hr', modifyStyle_other _ _ _ _ _ _ (fun hh => hr' hh.1)]

/-- A loop styling column `col` over several rows, all within the extent,
changes nothing but the styles of those rows. -/
theorem rowstyle_loop_spec (col : Nat) (f : CellStyle → CellStyle) :
    ∀ (rows : List Nat) (s : Sheet), (∀ r ∈ rows, r ≤ s.maxRow) →
    (forEachStep (fun r => liftStep fun s => s.modifyStyle r col f) rows s).2 =
      none ∧
    ((forEachStep (fun r => liftStep fun s => s.modifyStyle r col f) rows
      s).1).merges = s.merges ∧
    ((forEachStep (fun r => liftStep fun s => s.modifyStyle r col f) rows
      s).1).val = s.val ∧
    ((forEachStep (fun r => liftStep fun s => s.modifyStyle r col f) rows
      s).1).height = s.height ∧
    ((forEachStep (fun r => liftStep fun s => s.modifyStyle r col f) rows
      s).1).maxRow = s.maxRow ∧
    (∀ r' c', r' ∉ rows →
      ((forEachStep (fun r => liftStep fun s => s.modifyStyle r col f) rows
        s).1).style r' c' = s.style r' c') := by
  intro rows
  induction rows with
  | nil =>
    intro s _
    exact ⟨rfl, rfl, rfl, rfl, rfl, fun _ _ _ => rfl⟩
  | cons r0 rs ih =>
    intro s hr
    have hstep :
        forEachStep (fun r => liftStep fun s => s.modifyStyle r col f)
          (r0 :: rs) s =
        forEachStep (fun r => liftStep fun s => s.modifyStyle r col f) rs
          (s.modifyStyle r0 col f) := by
      show seqStep _ _ _ = _
      rw [seqStep_ok _ _ _ _ (liftStep_eq _ _)]
    have hr1 : ∀ r ∈ rs, r ≤ (s.modifyStyle r0 col f).maxRow := by
      intro r hmem
      rw [modifyStyle_maxRow]
      have := hr r (List.mem_cons_of_mem _ hmem)
      omega
    rcases ih (s.modifyStyle r0 col f) hr1 with ⟨e, m, v, h, mx, st⟩
    rw [hstep]
    have hr0 : r0 ≤ s.maxRow := hr r0 (List.mem_cons_self _ _)
    refine ⟨e, by rw [m, modifyStyle_merges], by rw [v, modifyStyle_val],
      by rw [h]; rfl, by rw [mx, modifyStyle_maxRow]; omega, ?_⟩
    intro r' c' hr'
    simp only [List.mem_cons, not_or] at hr'
    rw [st r' c' hr'.2, modifyStyle_other _ _ _ _ _ _ (fun hh => hr'.1 hh.1)]

/-- The nested border loop of `format_final_rows`: for rows within the
extent, only their styles change. -/
theorem nested_border_loop_spec (B : XBorder) (cols : List Nat) :
    ∀ (rows : List Nat) (s : Sheet), (∀ r ∈ rows, r ≤ s.maxRow) →
    (forEachStep (fun r =>
      forEachStep (fun c => liftStep fun s =>
        s.modifyStyle r c fun st => { st with border := B }) cols) rows s).2 =
      none ∧
    ((forEachStep (fun r =>
      forEachStep (fun c => liftStep fun s =>
        s.modifyStyle r c fun st => { st with border := B }) cols) rows
      s).1).merges = s.merges ∧
    ((forEachStep (fun r =>
      forEachStep (fun c => liftStep fun s =>
        s.modifyStyle r c fun st => { st with border := B }) cols) rows
      s).1).val = s.val ∧
    ((forEachStep (fun r =>
      forEachStep (fun c => liftStep fun s =>
        s.modifyStyle r c fun st => { st with border := B }) cols) rows
      s).1).height = s.height ∧
    ((forEachStep (fun r =>
      forEachStep (fun c => liftStep fun s =>
        s.modifyStyle r c fun st => { st with border := B }) cols) rows
      s).1).maxRow = s.maxRow ∧
    (∀ r' c', r' ∉ rows →
      ((forEachStep (fun r =>
        forEachStep (fun c => liftStep fun s =>
          s.modifyStyle r c fun st => { st with border := B }) cols) rows
        s).1).style r' c' = s.style r' c') := by
  intro rows
  induction rows with
  | nil =>
    intro s _
    exact ⟨rfl, rfl, rfl, rfl, rfl, fun _ _ _ => rfl⟩
  | cons r0 rs ih =>
    intro s hr
    have hr0 : r0 ≤ s.maxRow := hr r0 (List.mem_cons_self _ _)
    rcases colstyle_loop_spec r0 (fun _ st => { st with border := B }) cols s
        hr0 with ⟨e0, m0, v0, h0, mx0, st0⟩
    have hpair : forEachStep (fun c => liftStep fun s =>
        s.modifyStyle r0 c fun st => { st with border := B }) cols s =
        ((forEachStep (fun c => liftStep fun s =>
          s.modifyStyle r0 c fun st => { st with border := B }) cols s).1,
          none) := by
      rw [← e0]
    have hstep : forEachStep (fun r =>
        forEachStep (fun c => liftStep fun s =>
          s.modifyStyle r c fun st => { st with border := B }) cols)
          (r0 :: rs) s =
        forEachStep (fun r =>
          forEachStep (fun c => liftStep fun s =>
            s.modifyStyle r c fun st => { st with border := B }) cols) rs
          ((forEachStep (fun c => liftStep fun s =>
            s.modifyStyle r0 c fun st => { st with border := B }) cols s).1) := by
      show seqStep _ _ _ = _
      rw [seqStep_ok _ _ _ _ hpair]
    set u := (forEachStep (fun c => liftStep fun s =>
      s.modifyStyle r0 c fun st => { st with border := B }) cols s).1 with hu
    have hrs : ∀ r ∈ rs, r ≤ u.maxRow := by
      intro r hmem
      rw [hu, mx0]
      exact hr r (List.mem_cons_of_mem _ hmem)
    rcases ih u hrs with ⟨e, m, v, h, mx, st⟩
    rw [hstep]
    refine ⟨e, by rw [m, hu, m0], by rw [v, hu, v0], by rw [h, hu, h0],
      by rw [mx, hu, mx0], ?_⟩
    intro r' c' hr'
    simp only [List.mem_cons, not_or] at hr'
    rw [st r' c' hr'.2, hu, st0 r' c' hr'.1]

/-- Content version of the border loop: each styled cell of row `r` gets
exactly its old style with the border replaced. -/
theorem colstyle_border_content (r : Nat) (B : XBorder) :
    ∀ (cols : List Nat) (s : Sheet),
    (∀ c' ∈ cols,
      ((forEachStep (fun c => liftStep fun s =>
        s.modifyStyle r c fun st => { st with border := B }) cols s).1).style
        r c' = { s.style r c' with border := B }) ∧
    (∀ c', c' ∉ cols →
      ((forEachStep (fun c => liftStep fun s =>
        s.modifyStyle r c fun st => { st with border := B }) cols s).1).style
        r c' = s.style r c') := by
  intro cols
  induction cols with
  | nil =>
    intro s
    exact ⟨fun c hc => by simp at hc, fun _ _ => rfl⟩
  | cons c0 cs ih =>
    intro s
    have hstep :
        forEachStep (fun c => liftStep fun s =>
          s.modifyStyle r c fun st => { st with border := B }) (c0 :: cs) s =
        forEachStep (fun c => liftStep fun s =>
          s.modifyStyle r c fun st => { st with border := B }) cs
          (s.modifyStyle r c0 fun st => { st with border := B }) := by
      show seqStep _ _ _ = _
      rw [seqStep_ok _ _ _ _ (liftStep_eq _ _)]
    rcases ih (s.modifyStyle r c0 fun st => { st with border := B }) with
      ⟨iin, iout⟩
    rw [hstep]
    constructor
    · intro c' hc'
      by_cases hcs : c' ∈ cs
      · rw [iin c' hcs]
        by_cases hc0 : c' = c0
        · subst hc0
          rw [modifyStyle_at]
        · rw [modifyStyle_other _ _ _ _ _ _ (fun hh => hc0 hh.2)]
      · rcases List.mem_cons.mp hc' with h0 | h0
        · subst h0
          rw [iout c' hcs, modifyStyle_at]
        · exact absurd h0 hcs
    · intro c' hc'
      simp only [List.mem_cons, not_or] at hc'
      rw [iout c' hc'.2, modifyStyle_other _ _ _ _ _ _ (fun hh => hc'.1 hh.2)]

/-- Characterization of `format_expedition_row`: the dispatch header is
merged at `last + 2` over `I:L` and captioned in bold 20pt centred
Calibri with a medium border; all other rows are untouched. -/
theorem format_expedition_row_spec (last : Nat) (u : Sheet)
    (hm : u.merges = [reqs_box]) (hmx : last + 2 ≤ u.maxRow) (hl : 12 ≤ last) :
    (format_expedition_row last u).2 = none ∧
    ((format_expedition_row last u).1).merges =
      u.merges ++ [expedicia_range (last + 2)] ∧
    ((format_expedition_row last u).1).val (last + 2) 9 =
      some expedicia_caption ∧
    (∀ r c, r ≠ last + 2 →
      ((format_expedition_row last u).1).val r c = u.val r c) ∧
    (((format_expedition_row last u).1).style (last + 2) 9).font =
      { name := some ("Calibri"), size := some 20, bold := true } ∧
    (((format_expedition_row last u).1).style (last + 2) 9).alignment =
      { horizontal := some ("center"), vertical := some ("center") } ∧
    (((format_expedition_row last u).1).style (last + 2) 9).border =
      medium_border ∧
    (∀ r c, r ≠ last + 2 →
      ((format_expedition_row last u).1).style r c = u.style r c) ∧
    ((format_expedition_row last u).1).maxRow = u.maxRow := by
  rcases mergeCells_spec u (expedicia_range (last + 2)) with
    ⟨m1, v1, vtl, st1, h1, mx1⟩
  have hnotmem : expedicia_range (last + 2) ∉ u.merges := by
    rw [hm, List.mem_singleton]
    intro h
    have hh := congrArg CRange.minRow h
    simp only [expedicia_range, reqs_box] at hh
    omega
  rw [if_neg hnotmem] at m1
  have hmem2 : (u.mergeCells (expedicia_range (last + 2))).isMergedMember
      (last + 2) 9 = false := by
    refine isMergedMember_false_of _ _ _ ?_
    intro cr hcr
    rw [m1] at hcr
    rcases List.mem_append.mp hcr with hin | hin
    · rw [hm, List.mem_singleton] at hin
      subst hin
      exact Or.inl (reqs_box_not_covers _ 9 (by omega))
    · rw [List.mem_singleton] at hin
      subst hin
      exact Or.inr ⟨rfl, rfl⟩
  have hassign := assignValue_eq_of_not_member
    (u.mergeCells (expedicia_range (last + 2))) (last + 2) 9
    (some expedicia_caption) hmem2
  set s1 := u.mergeCells (expedicia_range (last + 2)) with hs1
  set s2 : Sheet :=
    ({ s1 with
        val := fun r' c' =>
          if r' = last + 2 && c' = 9 then some expedicia_caption
          else s1.val r' c',
        maxRow := max s1.maxRow (last + 2) }) with hs2
  set s3 := s2.modifyStyle (last + 2) 9 (fun st =>
    { st with font :=
        { name := some ("Calibri"), size := some 20, bold := true } }) with hs3
  set s4 := s3.modifyStyle (last + 2) 9 (fun st =>
    { st with alignment :=
        { horizontal := some ("center"), vertical := some ("center") } })
    with hs4
  have hmx4 : last + 2 ≤ s4.maxRow := by
    rw [hs4, modifyStyle_maxRow]
    omega
  rcases colstyle_loop_spec (last + 2)
      (fun _ st => { st with border := medium_border }) (pyRange 9 13) s4 hmx4
    with ⟨le, lm, lv, lh, lmx, lst⟩
  rcases colstyle_border_content (last + 2) medium_border (pyRange 9 13) s4
    with ⟨lcin, lcout⟩
  have hstep : format_expedition_row last u =
      ((forEachStep (fun c => liftStep fun s =>
        s.modifyStyle (last + 2) c fun st => { st with border := medium_border })
        (pyRange 9 13) s4).1, none) := by
    unfold format_expedition_row
    rw [tryCatchS_eq]
    rw [seqStep_ok _ _ _ _ (liftStep_eq _ u)]
    rw [seqStep_ok _ _ _ _ hassign]
    rw [seqStep_ok _ _ _ _ (liftStep_eq _ s2)]
    rw [seqStep_ok _ _ _ _ (liftStep_eq _ s3)]
  rw [hstep]
  have hs2sty : s2.style = s1.style := by
    rw [hs2]
  have hs2mer : s2.merges = s1.merges := by
    rw [hs2]
  have hs2hei : s2.height = s1.height := by
    rw [hs2]
  refine ⟨rfl, ?_, ?_, ?_, ?_, ?_, ?_, ?_, ?_⟩
  · show ((forEachStep _ _ s4).1).merges = _
    rw [lm, hs4, modifyStyle_merges, hs3, modifyStyle_merges, hs2mer, m1]
  · show ((forEachStep _ _ s4).1).val (last + 2) 9 = _
    rw [lv, hs4, modifyStyle_val, hs3, modifyStyle_val, hs2]
    simp only []
    rw [show (decide True && decide True) = true from rfl, if_bool_true]
  · intro r c hr
    show ((forEachStep _ _ s4).1).val r c = _
    rw [lv, hs4, modifyStyle_val, hs3, modifyStyle_val, hs2]
    simp only []
    rw [show (decide (r = last + 2) && decide (c = 9)) = false from by
      simp only [Bool.and_eq_false_iff, decide_eq_false_iff_not]
      left; exact hr, if_bool_false]
    refine v1 r c ?_
    simp only [expedicia_range, CRange.covers, Bool.and_eq_false_iff,
      decide_eq_false_iff_not]
    rcases Nat.lt_or_ge r (last + 2) with h1 | h1
    · left; left; left; omega
    · left; left; right; omega
  · show (((forEachStep _ _ s4).1).style (last + 2) 9).font = _
    rw [lcin 9 (by decide), hs4, modifyStyle_at, hs3, modifyStyle_at]
  · show (((forEachStep _ _ s4).1).style (last + 2) 9).alignment = _
    rw [lcin 9 (by decide), hs4, modifyStyle_at]
  · show (((forEachStep _ _ s4).1).style (last + 2) 9).border = _
    rw [lcin 9 (by decide)]
  · intro r c hr
    show ((forEachStep _ _ s4).1).style r c = _
    rw [lst r c hr, hs4, modifyStyle_other _ _ _ _ _ _ (fun hh => hr hh.1),
      hs3, modifyStyle_other _ _ _ _ _ _ (fun hh => hr hh.1), hs2sty, st1]
  · show ((forEachStep _ _ s4).1).maxRow = _
    rw [lmx, hs4, modifyStyle_maxRow, hs3, modifyStyle_maxRow, hs2]
    simp only []
    rw [mx1]
    simp only [expedicia_range]
    omega

theorem covers_false_row (cr : CRange) (r c : Nat)
    (h : r < cr.minRow ∨ cr.maxRow < r) : cr.covers r c = false := by
  simp only [CRange.covers, Bool.and_eq_false_iff, decide_eq_false_iff_not]
  rcases h with h | h
  · left; left; left; omega
  · left; left; right; omega

theorem covers_false_col (cr : CRange) (r c : Nat)
    (h : c < cr.minCol ∨ cr.maxCol < c) : cr.covers r c = false := by
  simp only [CRange.covers, Bool.and_eq_false_iff, decide_eq_false_iff_not]
  rcases h with h | h
  · left; right; omega
  · right; omega

/-- Characterization of `format_palette_info_row`: adds the `J:K` merge
of row `last + 3`, touches only that row's cells and styles, never
raises, and keeps the extent. -/
theorem format_palette_info_row_spec (last : Nat) (u : Sheet)
    (hm : u.merges = [reqs_box, expedicia_range (last + 2)])
    (hmx : last + 3 ≤ u.maxRow) (hl : 12 ≤ last) :
    (format_palette_info_row last u).2 = none ∧
    ((format_palette_info_row last u).1).merges =
      u.merges ++ [⟨last + 3, 10, last + 3, 11⟩] ∧
    (∀ r c, r ≠ last + 3 →
      ((format_palette_info_row last u).1).val r c = u.val r c) ∧
    (∀ r c, r ≠ last + 3 →
      ((format_palette_info_row last u).1).style r c = u.style r c) ∧
    ((format_palette_info_row last u).1).maxRow = u.maxRow := by
  have hnc : ∀ cr ∈ u.merges, ∀ c : Nat, cr.covers (last + 3) c = false := by
    intro cr hcr c
    rw [hm] at hcr
    rcases List.mem_cons.mp hcr with h0 | h0
    · subst h0
      exact reqs_box_not_covers _ c (by omega)
    · rw [List.mem_singleton] at h0
      subst h0
      exact covers_false_row _ _ _ (by
        simp only [expedicia_range]
        right
        omega)
  have hmem1 : u.isMergedMember (last + 3) 9 = false := by
    refine isMergedMember_false_of _ _ _ ?_
    intro cr hcr
    exact Or.inl (hnc cr hcr 9)
  have hassign1 := assignValue_eq_of_not_member u (last + 3) 9
    (some ("Typ palty")) hmem1
  set s1 : Sheet :=
    ({ u with
        val := fun r' c' =>
          if r' = last + 3 && c' = 9 then some ("Typ palty")
          else u.val r' c',
        maxRow := max u.maxRow (last + 3) }) with hs1
  set s2 := s1.modifyStyle (last + 3) 9 (fun st =>
    { st with border := lrb_thin_border,
              alignment :=
                { horizontal := some ("left"), vertical := some ("center") },
              font := { name := some ("Calibri"), size := some 16 } }) with hs2
  have hs2m : s2.merges = u.merges := by
    rw [hs2, modifyStyle_merges, hs1]
  rcases mergeCells_spec s2 ⟨last + 3, 10, last + 3, 11⟩ with
    ⟨m3, v3, vtl3, st3, h3, mx3⟩
  have hnotmem : (⟨last + 3, 10, last + 3, 11⟩ : CRange) ∉ s2.merges := by
    rw [hs2m, hm]
    intro hmem
    rcases List.mem_cons.mp hmem with h | h
    · have h4 := congrArg CRange.minRow h
      simp only [reqs_box] at h4
      omega
    · rw [List.mem_singleton] at h
      have h4 := congrArg CRange.minCol h
      simp only [expedicia_range] at h4
      omega
  rw [if_neg hnotmem] at m3
  set s3 := s2.mergeCells ⟨last + 3, 10, last + 3, 11⟩ with hs3
  have hmem2 : s3.isMergedMember (last + 3) 10 = false := by
    refine isMergedMember_false_of _ _ _ ?_
    intro cr hcr
    rw [hs3, m3, hs2m] at hcr
    rcases List.mem_append.mp hcr with h0 | h0
    · exact Or.inl (hnc cr h0 10)
    · rw [List.mem_singleton] at h0
      subst h0
      exact Or.inr ⟨rfl, rfl⟩
  have hassign2 := assignValue_eq_of_not_member s3 (last + 3) 10
    (some ("Rozmer")) hmem2
  set s4 : Sheet :=
    ({ s3 with
        val := fun r' c' =>
          if r' = last + 3 && c' = 10 then some ("Rozmer")
          else s3.val r' c',
        maxRow := max s3.maxRow (last + 3) }) with hs4
  set s5 := s4.modifyStyle (last + 3) 10 (fun st =>
    { st with alignment :=
                { horizontal := some ("left"), vertical := some ("center") },
              font := { name := some ("Calibri"), size := some 16 } }) with hs5
  set s6 := s5.modifyStyle (last + 3) 10 (fun st =>
    { st with border := lrb_thin_border }) with hs6
  set s7 := s6.modifyStyle (last + 3) 11 (fun st =>
    { st with border := lrb_thin_border }) with hs7
  have hs7m : s7.merges = u.merges ++ [⟨last + 3, 10, last + 3, 11⟩] := by
    rw [hs7, modifyStyle_merges, hs6, modifyStyle_merges, hs5,
      modifyStyle_merges, hs4]
    show s3.merges = _
    rw [hs3, m3, hs2m]
  have hmem3 : s7.isMergedMember (last + 3) 12 = false := by
    refine isMergedMember_false_of _ _ _ ?_
    intro cr hcr
    rw [hs7m] at hcr
    rcases List.mem_append.mp hcr with h0 | h0
    · exact Or.inl (hnc cr h0 12)
    · rw [List.mem_singleton] at h0
      subst h0
      refine Or.inl (covers_false_col _ _ _ ?_)
      simp only []
      right
      omega
  have hassign3 := assignValue_eq_of_not_member s7 (last + 3) 12
    (some ("Váha")) hmem3
  set s8 : Sheet :=
    ({ s7 with
        val := fun r' c' =>
          if r' = last + 3 && c' = 12 then some ("Váha")
          else s7.val r' c',
        maxRow := max s7.maxRow (last + 3) }) with hs8
  have hstep : format_palette_info_row last u =
      (s8.modifyStyle (last + 3) 12 (fun st =>
        { st with border := lrb_thin_border,
                  alignment :=
                    { horizontal := some ("left"), vertical := some ("center") },
                  font := { name := some ("Calibri"), size := some 16 } }),
        none) := by
    unfold format_palette_info_row
    rw [tryCatchS_eq]
    rw [seqStep_ok _ _ _ _ hassign1]
    rw [seqStep_ok _ _ _ _ (liftStep_eq _ s1)]
    rw [seqStep_ok _ _ _ _ (liftStep_eq _ s2)]
    rw [seqStep_ok _ _ _ _ hassign2]
    rw [seqStep_ok _ _ _ _ (liftStep_eq _ s4)]
    rw [seqStep_ok _ _ _ _ (liftStep_eq _ s5)]
    rw [seqStep_ok _ _ _ _ (liftStep_eq _ s6)]
    rw [seqStep_ok _ _ _ _ hassign3]
  rw [hstep]
  refine ⟨rfl, ?_, ?_, ?_, ?_⟩
  · show (Sheet.modifyStyle _ _ _ _).merges = _
    rw [modifyStyle_merges, hs8]
    show s7.merges = _
    exact hs7m
  · intro r c hr
    simp only []
    rw [modifyStyle_val, hs8]
    simp only []
    rw [show (decide (r = last + 3) && decide (c = 12)) = false from by
      simp only [Bool.and_eq_false_iff, decide_eq_false_iff_not]
      left; exact hr, if_bool_false]
    rw [hs7, modifyStyle_val, hs6, modifyStyle_val, hs5, modifyStyle_val, hs4]
    simp only []
    rw [show (decide (r = last + 3) && decide (c = 10)) = false from by
      simp only [Bool.and_eq_false_iff, decide_eq_false_iff_not]
      left; exact hr, if_bool_false]
    rw [hs3]
    rw [v3 r c (covers_false_row _ _ _ (by simp only []; omega))]
    rw [hs2, modifyStyle_val, hs1]
    simp only []
    rw [show (decide (r = last + 3) && decide (c = 9)) = false from by
      simp only [Bool.and_eq_false_iff, decide_eq_false_iff_not]
      left; exact hr, if_bool_false]
  · intro r c hr
    simp only []
    rw [modifyStyle_other s8 (last + 3) 12 r c _ (fun hh => hr hh.1), hs8]
    show s7.style r c = _
    rw [hs7, modifyStyle_other s6 (last + 3) 11 r c _ (fun hh => hr hh.1),
      hs6, modifyStyle_other s5 (last + 3) 10 r c _ (fun hh => hr hh.1),
      hs5, modifyStyle_other s4 (last + 3) 10 r c _ (fun hh => hr hh.1),
      hs4]
    show s3.style r c = _
    rw [hs3, st3, hs2,
      modifyStyle_other s1 (last + 3) 9 r c _ (fun hh => hr hh.1), hs1]
  · simp only []
    rw [modifyStyle_maxRow, hs8]
    simp only []
    rw [hs7, modifyStyle_maxRow, hs6, modifyStyle_maxRow, hs5,
      modifyStyle_maxRow, hs4]
    simp only []
    rw [hs3, mx3, hs2, modifyStyle_maxRow, hs1]
    simp only []
    omega

/-- Characterization of `format_final_rows`: adds the four-row `J:K`
merge under the palette row, touches only rows `last+4 .. last+7`, never
raises, and keeps the extent. -/
theorem format_final_rows_spec (last : Nat) (u : Sheet)
    (hm : u.merges =
      [reqs_box, expedicia_range (last + 2), ⟨last + 3, 10, last + 3, 11⟩])
    (hmx : last + 7 ≤ u.maxRow) (hl : 12 ≤ last) :
    (format_final_rows last u).2 = none ∧
    ((format_final_rows last u).1).merges =
      u.merges ++ [⟨last + 4, 10, last + 7, 11⟩] ∧
    (∀ r c, ¬(last + 4 ≤ r ∧ r ≤ last + 7) →
      ((format_final_rows last u).1).val r c = u.val r c) ∧
    (∀ r c, ¬(last + 4 ≤ r ∧ r ≤ last + 7) →
      ((format_final_rows last u).1).style r c = u.style r c) ∧
    ((format_final_rows last u).1).maxRow = u.maxRow := by
  have hrows : ∀ r ∈ pyRange (last + 4) (last + 8), r ≤ u.maxRow := by
    intro r hmem
    rw [mem_pyRange] at hmem
    omega
  rcases rowstyle_loop_spec 9 (fun st => { st with border := left_thin_border })
      (pyRange (last + 4) (last + 8)) u hrows with ⟨e1, m1, v1, h1, mx1, st1⟩
  have hpair1 : forEachStep (fun r => liftStep fun s =>
      s.modifyStyle r 9 fun st => { st with border := left_thin_border })
      (pyRange (last + 4) (last + 8)) u =
      ((forEachStep (fun r => liftStep fun s =>
        s.modifyStyle r 9 fun st => { st with border := left_thin_border })
        (pyRange (last + 4) (last + 8)) u).1, none) := by
    rw [← e1]
  set A := (forEachStep (fun r => liftStep fun s =>
    s.modifyStyle r 9 fun st => { st with border := left_thin_border })
    (pyRange (last + 4) (last + 8)) u).1 with hA
  rcases mergeCells_spec A ⟨last + 4, 10, last + 7, 11⟩ with
    ⟨m2, v2, vtl2, st2, h2, mx2⟩
  have hnotmem : (⟨last + 4, 10, last + 7, 11⟩ : CRange) ∉ A.merges := by
    rw [hA, m1, hm]
    intro hmem
    rcases List.mem_cons.mp hmem with h | h
    · have h4 := congrArg CRange.minRow h
      simp only [reqs_box] at h4
      omega
    · rcases List.mem_cons.mp h with h0 | h0
      · have h4 := congrArg CRange.minCol h0
        simp only [expedicia_range] at h4
        omega
      · rw [List.mem_singleton] at h0
        have h4 := congrArg CRange.minRow h0
        simp only [] at h4
        omega
  rw [if_neg hnotmem] at m2
  set B := A.mergeCells ⟨last + 4, 10, last + 7, 11⟩ with hB
  have hrows2 : ∀ r ∈ pyRange (last + 4) (last + 8), r ≤ B.maxRow := by
    intro r hmem
    rw [mem_pyRange] at hmem
    rw [hB, mx2, hA, mx1]
    simp only []
    omega
  rcases nested_border_loop_spec thin_border (pyRange 10 12)
      (pyRange (last + 4) (last + 8)) B hrows2 with ⟨e3, m3, v3, h3, mx3, st3⟩
  have hstep : format_final_rows last u =
      ((forEachStep (fun r =>
        forEachStep (fun c => liftStep fun s =>
          s.modifyStyle r c fun st => { st with border := thin_border })
          (pyRange 10 12)) (pyRange (last + 4) (last + 8)) B).1, none) := by
    unfold format_final_rows
    rw [tryCatchS_eq]
    rw [seqStep_ok _ _ _ _ hpair1]
    rw [seqStep_ok _ _ _ _ (liftStep_eq _ A)]
  rw [hstep]
  refine ⟨rfl, ?_, ?_, ?_, ?_⟩
  · show (_ : Sheet).merges = _
    rw [m3, hB, m2, hA, m1]
  · intro r c hr
    show (_ : Sheet).val r c = _
    rw [v3, hB]
    rw [v2 r c (covers_false_row _ _ _ (by simp only []; omega))]
    rw [hA, v1]
  · intro r c hr
    show (_ : Sheet).style r c = _
    have hnot : r ∉ pyRange (last + 4) (last + 8) := by
      rw [mem_pyRange]
      omega
    rw [st3 r c hnot, hB, st2, hA, st1 r c hnot]
  · show (_ : Sheet).maxRow = _
    rw [mx3, hB, mx2, hA, mx1]
    simp only []
    omega

/-- Characterization of `format_footer_rows`: pure styling of rows
`last+8` and `last+9`; values, merges and the extent are untouched. -/
theorem format_footer_rows_spec (last : Nat) (u : Sheet)
    (hmx : last + 9 ≤ u.maxRow) :
    (format_footer_rows last u).2 = none ∧
    ((format_footer_rows last u).1).merges = u.merges ∧
    ((format_footer_rows last u).1).val = u.val ∧
    (∀ r c, r ≠ last + 8 → r ≠ last + 9 →
      ((format_footer_rows last u).1).style r c = u.style r c) ∧
    ((format_footer_rows last u).1).maxRow = u.maxRow := by
  rcases colstyle_loop_spec (last + 8)
      (fun _ st => { st with border := left_thin_border }) (pyRange 9 13) u
      (by omega) with ⟨e1, m1, v1, h1, mx1, st1⟩
  have hpair1 : forEachStep (fun c => liftStep fun s =>
      s.modifyStyle (last + 8) c fun st => { st with border := left_thin_border })
      (pyRange 9 13) u =
      ((forEachStep (fun c => liftStep fun s =>
        s.modifyStyle (last + 8) c fun st =>
          { st with border := left_thin_border }) (pyRange 9 13) u).1,
        none) := by
    rw [← e1]
  set A := (forEachStep (fun c => liftStep fun s =>
    s.modifyStyle (last + 8) c fun st => { st with border := left_thin_border })
    (pyRange 9 13) u).1 with hA
  rcases colstyle_loop_spec (last + 9)
      (fun _ st => { st with border := thin_border }) (pyRange 1 13) A
      (by rw [hA, mx1]; omega) with ⟨e2, m2, v2, h2, mx2, st2⟩
  have hstep : format_footer_rows last u =
      ((forEachStep (fun c => liftStep fun s =>
        s.modifyStyle (last + 9) c fun st => { st with border := thin_border })
        (pyRange 1 13) A).1, none) := by
    unfold format_footer_rows
    rw [tryCatchS_eq]
    rw [seqStep_ok _ _ _ _ hpair1]
  rw [hstep]
  refine ⟨rfl, ?_, ?_, ?_, ?_⟩
  · show (_ : Sheet).merges = _
    rw [m2, hA, m1]
  · show (_ : Sheet).val = _
    rw [v2, hA, v1]
  · intro r c hr8 hr9
    show (_ : Sheet).style r c = _
    rw [st2 r c hr9, hA, st1 r c hr8]
  · show (_ : Sheet).maxRow = _
    rw [mx2, hA, mx1]

/-- The merge list the processor's assembler leaves on the sheet for `n`
items: the requirements box plus the three trailing-block merges. -/
def canonical_merges (n : Nat) : List CRange :=
  [reqs_box, expedicia_range (11 + n + 2),
   ⟨11 + n + 3, 10, 11 + n + 3, 11⟩,
   ⟨11 + n + 4, 10, 11 + n + 7, 11⟩]

theorem reqs_box_touchesRowRange_false (a k : Nat) (ha : 10 ≤ a) :
    reqs_box.touchesRowRange a k = false := by
  simp only [CRange.touchesRowRange, reqs_box, Bool.and_eq_false_iff,
    decide_eq_false_iff_not]
  omega

set_option maxRecDepth 16384 in
set_option maxHeartbeats 2000000 in
/-- End-to-end characterization of the processor's `map_data_to_excel`
over any start sheet whose merges are the requirements box plus coherent
ranges strictly below the item block (this covers both the fresh template
and the output of a previous run): the result carries exactly the
canonical merges, the extent ends at the footer, the dispatch caption
sits at `last_item_row + 2` in bold 20pt centred Calibri with a medium
border, the `n` item rows carry their sequential labels, and the first
row past the items is blanked. -/
theorem map_data_to_excel_proc_spec (d : OrderData) (xs : List PItem)
    (extra : List CRange) (s : Sheet)
    (hx : pyGetItems d.items = some xs) (hn : 1 ≤ xs.length)
    (hs : s.merges = reqs_box :: extra)
    (hextra : ∀ cr ∈ extra, 9 ≤ cr.minCol ∧ 11 + xs.length < cr.minRow ∧
      cr.minRow ≤ cr.maxRow ∧ cr.maxRow ≤ s.maxRow)
    (hsm : 13 ≤ s.maxRow) :
    (map_data_to_excel_proc d s).2 = none ∧
    ((map_data_to_excel_proc d s).1).merges = canonical_merges xs.length ∧
    ((map_data_to_excel_proc d s).1).maxRow = 11 + xs.length + 9 ∧
    ((map_data_to_excel_proc d s).1).val (11 + xs.length + 2) 9 =
      some expedicia_caption ∧
    (((map_data_to_excel_proc d s).1).style (11 + xs.length + 2) 9).font =
      { name := some ("Calibri"), size := some 20, bold := true } ∧
    (((map_data_to_excel_proc d s).1).style (11 + xs.length + 2) 9).alignment =
      { horizontal := some ("center"), vertical := some ("center") } ∧
    (((map_data_to_excel_proc d s).1).style (11 + xs.length + 2) 9).border =
      medium_border ∧
    (∀ i, i < xs.length →
      ((map_data_to_excel_proc d s).1).val (12 + i) 1 =
        some (row_label (12 + i))) ∧
    ((map_data_to_excel_proc d s).1).val (11 + xs.length + 1) 1 =
      some ("") := by
  have hlast : last_item_row_proc xs = 11 + xs.length := by
    cases xs with
    | nil => exact absurd hn (by simp)
    | cons a l => rfl
  -- phase 1: header fields
  rcases header_fields_spec d s (by
      intro cr hcr
      rw [hs] at hcr
      rcases List.mem_cons.mp hcr with h | h
      · subst h
        show 9 ≤ reqs_box.minCol
        decide
      · exact (hextra cr h).1) with ⟨e1, m1, st1, vc1, vr1, mx1⟩
  have hp1 : header_fields_steps d s = ((header_fields_steps d s).1, none) := by
    rw [← e1]
  set S1 := (header_fields_steps d s).1 with hS1
  -- phase 2: requirements box
  rcases reqs_steps_common_spec d S1 (by
      intro cr hcr hne
      rw [m1, hs] at hcr
      rcases List.mem_cons.mp hcr with h | h
      · exact absurd h hne
      · refine covers_false_row _ _ _ (Or.inl ?_)
        have := (hextra cr h).2.1
        omega) with ⟨e2, m2, v2, vf2, sty2, stf2, mx2⟩
  have hp2 : reqs_steps_common d S1 = ((reqs_steps_common d S1).1, none) := by
    rw [← e2]
  set S2 := (reqs_steps_common d S1).1 with hS2
  have hm2 : S2.merges = reqs_box :: extra := by
    rw [hS2, m2, m1, hs]
    rw [if_pos (List.mem_cons_self _ _)]
  have hmx2 : 13 ≤ S2.maxRow ∧ S2.maxRow = max (max s.maxRow 7) 9 := by
    constructor
    · rw [hS2, mx2, mx1]
      omega
    · rw [hS2, mx2, mx1]
  -- phase 3: row provisioning
  rcases prepare_product_rows_spec xs.length S2 with ⟨e3, m3, v3, st3, mx3⟩
  have hp3 : prepare_product_rows xs.length S2 =
      ((prepare_product_rows xs.length S2).1, none) := by
    rw [← e3]
  set S3 := (prepare_product_rows xs.length S2).1 with hS3
  have hm3 : S3.merges = reqs_box :: extra := by
    rw [hS3, m3, hm2]
    refine List.filter_eq_self.mpr ?_
    intro cr hcr
    rcases List.mem_cons.mp hcr with h | h
    · subst h
      rw [reqs_box_touchesRowRange_false 14 _ (by omega)]
      rfl
    · rcases hextra cr h with ⟨hc1, hc2, hc3, hc4⟩
      have : cr.touchesRowRange 14 (xs.length - 2) = false := by
        simp only [CRange.touchesRowRange, Bool.and_eq_false_iff,
          decide_eq_false_iff_not]
        omega
      rw [this]
      rfl
  have hmx3 : S2.maxRow ≤ S3.maxRow := by
    rw [hS3]
    exact mx3
  -- phase 4: item writing
  rcases write_products_from_spec xs 12 S3 with ⟨e4, m4, st4, h4, mx4, vf4, lab4⟩
  have hp4 : write_products_from 12 xs S3 =
      ((write_products_from 12 xs S3).1, none) := by
    rw [← e4]
  set S4 := (write_products_from 12 xs S3).1 with hS4
  have hm4 : S4.merges = reqs_box :: extra := by
    rw [hS4, m4, hm3]
    refine List.filter_eq_self.mpr ?_
    intro cr hcr
    rcases List.mem_cons.mp hcr with h | h
    · subst h
      rw [reqs_box_touchesRowRange_false 12 _ (by omega)]
      rfl
    · rcases hextra cr h with ⟨hc1, hc2, hc3, hc4⟩
      have : cr.touchesRowRange 12 xs.length = false := by
        simp only [CRange.touchesRowRange, Bool.and_eq_false_iff,
          decide_eq_false_iff_not]
        omega
      rw [this]
      rfl
  have hmx4 : S4.maxRow = max S3.maxRow (11 + xs.length) := by
    rw [hS4, mx4, if_neg (by omega)]
    have harith : 12 + xs.length - 1 = 11 + xs.length := by omega
    rw [harith]
  have hmx4ge : 11 + xs.length ≤ S4.maxRow ∧ s.maxRow ≤ S4.maxRow := by
    rw [hmx4]
    rcases hmx2 with ⟨hh1, hh2⟩
    constructor
    · omega
    · have := hmx3
      omega
  -- phase 5: stale-row cleanup
  rcases clean_stale_rows_spec (11 + xs.length) S4 (by
      intro cr hcr
      rw [hm4] at hcr
      rcases List.mem_cons.mp hcr with h | h
      · subst h
        constructor
        · show (4 : Nat) ≤ 9
          omega
        · show (9 : Nat) ≤ S4.maxRow
          rcases hmx4ge with ⟨hh1, _⟩
          omega
      · rcases hextra cr h with ⟨hc1, hc2, hc3, hc4⟩
        rcases hmx4ge with ⟨_, hh2⟩
        exact ⟨hc3, by omega⟩) with ⟨e5, m5, mx5, v5, st5, h5⟩
  have hp5 : clean_stale_rows (11 + xs.length) S4 =
      ((clean_stale_rows (11 + xs.length) S4).1, none) := by
    rw [← e5]
  set S5 := (clean_stale_rows (11 + xs.length) S4).1 with hS5
  have hm5 : S5.merges = [reqs_box] := by
    rw [hS5, m5, hm4, List.filter_cons]
    rw [show decide (reqs_box.maxRow ≤ 11 + xs.length) = true from
      decide_eq_true (by simp only [reqs_box]; omega)]
    simp only [if_true]
    congr 1
    refine List.filter_eq_nil.mpr ?_
    intro cr hcr
    rcases hextra cr hcr with ⟨hc1, hc2, hc3, hc4⟩
    simp only [decide_eq_true_eq]
    omega
  have hmx5 : S5.maxRow = 11 + xs.length := by
    rw [hS5, mx5]
    rcases hmx4ge with ⟨hh1, _⟩
    omega
  -- phase 6: the nine additional rows
  rcases add_additional_rows_spec (11 + xs.length) S5 hm5 hmx5 (by omega) with
    ⟨e6, m6, mx6, v6, b6⟩
  have hp6 : add_additional_rows (11 + xs.length) S5 =
      ((add_additional_rows (11 + xs.length) S5).1, none) := by
    rw [← e6]
  set S6 := (add_additional_rows (11 + xs.length) S5).1 with hS6
  -- phase 7: expedition row
  rcases format_expedition_row_spec (11 + xs.length) S6
      (by rw [hS6]; exact m6) (by rw [hS6, mx6]; omega) (by omega) with
    ⟨e7, m7, v7, vf7, f7, a7, b7, stf7, mx7⟩
  have hp7 : format_expedition_row (11 + xs.length) S6 =
      ((format_expedition_row (11 + xs.length) S6).1, none) := by
    rw [← e7]
  set S7 := (format_expedition_row (11 + xs.length) S6).1 with hS7
  have hm7 : S7.merges = [reqs_box, expedicia_range (11 + xs.length + 2)] := by
    rw [hS7, m7, hS6, m6]
    rfl
  have hmx7 : S7.maxRow = 11 + xs.length + 9 := by
    rw [hS7, mx7, hS6, mx6]
  -- phase 8: palette row
  rcases format_palette_info_row_spec (11 + xs.length) S7 hm7
      (by rw [hmx7]; omega) (by omega) with ⟨e8, m8, vf8, stf8, mx8⟩
  have hp8 : format_palette_info_row (11 + xs.length) S7 =
      ((format_palette_info_row (11 + xs.length) S7).1, none) := by
    rw [← e8]
  set S8 := (format_palette_info_row (11 + xs.length) S7).1 with hS8
  have hm8 : S8.merges = [reqs_box, expedicia_range (11 + xs.length + 2),
      ⟨11 + xs.length + 3, 10, 11 + xs.length + 3, 11⟩] := by
    rw [hS8, m8, hm7]
    rfl
  have hmx8 : S8.maxRow = 11 + xs.length + 9 := by
    rw [hS8, mx8, hmx7]
  -- phase 9: final rows
  rcases format_final_rows_spec (11 + xs.length) S8 hm8
      (by rw [hmx8]; omega) (by omega) with ⟨e9, m9, vf9, stf9, mx9⟩
  have hp9 : format_final_rows (11 + xs.length) S8 =
      ((format_final_rows (11 + xs.length) S8).1, none) := by
    rw [← e9]
  set S9 := (format_final_rows (11 + xs.length) S8).1 with hS9
  have hm9 : S9.merges = canonical_merges xs.length := by
    rw [hS9, m9, hm8]
    rfl
  have hmx9 : S9.maxRow = 11 + xs.length + 9 := by
    rw [hS9, mx9, hmx8]
  -- phase 10: footer rows
  rcases format_footer_rows_spec (11 + xs.length) S9 hmx9.ge with
    ⟨e10, m10, v10, stf10, mx10⟩
  -- assemble the chain
  have hstep : map_data_to_excel_proc d s =
      ((format_footer_rows (11 + xs.length) S9).1, none) := by
    unfold map_data_to_excel_proc
    rw [tryCatchS_eq]
    rw [seqStep_ok _ _ _ _ hp1]
    rw [seqStep_ok _ _ _ _ hp2]
    rw [hx]
    simp only []
    rw [hlast]
    rw [seqStep_ok _ _ _ _ hp3, seqStep_ok _ _ _ _ hp4,
      seqStep_ok _ _ _ _ hp5, seqStep_ok _ _ _ _ hp6,
      seqStep_ok _ _ _ _ hp7, seqStep_ok _ _ _ _ hp8,
      seqStep_ok _ _ _ _ hp9]
  rw [hstep]
  -- the label cells after every phase
  have hlab : ∀ i, i < xs.length →
      ((format_footer_rows (11 + xs.length) S9).1).val (12 + i) 1 =
        some (row_label (12 + i)) := by
    intro i hi
    rw [congrFun (congrFun v10 (12 + i)) 1,
      hS9, vf9 _ _ (by omega), hS8, vf8 _ _ (by omega),
      hS7, vf7 _ _ (by omega), hS6, v6 _ _ (by omega),
      hS5, v5 _ _ (by omega), hS4, lab4 i hi]
  have hblank : ((format_footer_rows (11 + xs.length) S9).1).val
      (11 + xs.length + 1) 1 = some ("") := by
    rw [congrFun (congrFun v10 (11 + xs.length + 1)) 1,
      hS9, vf9 _ _ (by omega), hS8, vf8 _ _ (by omega),
      hS7, vf7 _ _ (by omega), hS6, b6]
  have hcap : ((format_footer_rows (11 + xs.length) S9).1).val
      (11 + xs.length + 2) 9 = some expedicia_caption := by
    rw [congrFun (congrFun v10 (11 + xs.length + 2)) 9,
      hS9, vf9 _ _ (by omega), hS8, vf8 _ _ (by omega), hS7, v7]
  have hsty : ((format_footer_rows (11 + xs.length) S9).1).style
      (11 + xs.length + 2) 9 = S7.style (11 + xs.length + 2) 9 := by
    rw [stf10 _ _ (by omega) (by omega), hS9, stf9 _ _ (by omega),
      hS8, stf8 _ _ (by omega)]
  refine ⟨rfl, ?_, ?_, hcap, ?_, ?_, ?_, hlab, hblank⟩
  · show (_ : Sheet).merges = _
    rw [m10, hm9]
  · show (_ : Sheet).maxRow = _
    rw [mx10, hmx9]
  · rw [hsty, hS7, f7]
  · rw [hsty, hS7, a7]
  · rw [hsty, hS7, b7]

set_option maxRecDepth 16384 in
set_option maxHeartbeats 1000000 in
/-- End-to-end characterization of `main.py`'s `map_data_to_excel` from
the fresh template: the dispatch header is re-created at
`last_product_row + 2 = 11 + n + 2`, the item labels are written, the
merge list ends as the requirements box plus the relocated header, and
nothing escapes. -/
theorem map_data_to_excel_main_spec (d : OrderData) (xs : List PItem)
    (hx : pyGetItems d.items = some xs) :
    (map_data_to_excel_main d templateSheet).2 = none ∧
    ((map_data_to_excel_main d templateSheet).1).merges =
      [reqs_box, expedicia_range (11 + xs.length + 2)] ∧
    ((map_data_to_excel_main d templateSheet).1).val (11 + xs.length + 2) 9 =
      some expedicia_caption ∧
    ((map_data_to_excel_main d templateSheet).1).style (11 + xs.length + 2) 9 =
      expedicia_style_main ∧
    (∀ i, i < xs.length →
      ((map_data_to_excel_main d templateSheet).1).val (12 + i) 1 =
        some (row_label (12 + i))) ∧
    ((map_data_to_excel_main d templateSheet).1).maxRow =
      11 + xs.length + 2 := by
  -- phase 1: header fields
  rcases header_fields_spec d templateSheet (by
      intro cr hcr
      rw [show templateSheet.merges = [reqs_box] from rfl,
        List.mem_singleton] at hcr
      subst hcr
      decide) with ⟨e1, m1, st1, vc1, vr1, mx1⟩
  have hp1 : header_fields_steps d templateSheet =
      ((header_fields_steps d templateSheet).1, none) := by
    rw [← e1]
  set S1 := (header_fields_steps d templateSheet).1 with hS1
  have hm1 : S1.merges = [reqs_box] := by
    rw [m1]; rfl
  have hmx1 : S1.maxRow = 13 := by
    rw [mx1]; rfl
  -- phase 2: requirements box (main variant with unmerge)
  rcases reqs_steps_main_spec d S1 (by rw [hm1]; exact List.nodup_singleton _)
      (by
        intro cr hcr hne
        rw [hm1, List.mem_singleton] at hcr
        exact absurd hcr hne) with ⟨e2, m2, v2, vf2, sty2, stf2, mx2⟩
  have hp2 : reqs_steps_main d S1 = ((reqs_steps_main d S1).1, none) := by
    rw [← e2]
  set S2 := (reqs_steps_main d S1).1 with hS2
  have hm2 : S2.merges = [reqs_box] := by
    rw [hS2, m2, hm1]
    rfl
  have hmx2 : S2.maxRow = 13 := by
    rw [hS2, mx2, hmx1]
    omega
  -- phase 3: row provisioning from the template shape
  rcases prepare_product_rows_spec xs.length S2 with ⟨e3, _, _, _, _⟩
  rcases prepare_product_rows_template xs.length S2 hm2 hmx2 with
    ⟨m3, mx3, v3, lab3⟩
  have hp3 : prepare_product_rows xs.length S2 =
      ((prepare_product_rows xs.length S2).1, none) := by
    rw [← e3]
  set S3 := (prepare_product_rows xs.length S2).1 with hS3
  -- phase 4: item writing
  rcases write_products_from_spec xs 12 S3 with ⟨e4, m4, st4, h4, mx4, vf4, lab4⟩
  have hp4 : write_products_from 12 xs S3 =
      ((write_products_from 12 xs S3).1, none) := by
    rw [← e4]
  set S4 := (write_products_from 12 xs S3).1 with hS4
  have hm4 : S4.merges = [reqs_box] := by
    rw [hS4, m4, hS3, m3, List.filter_cons,
      reqs_box_touchesRowRange_false 12 _ (by omega)]
    rfl
  have hmx4 : S4.maxRow = max 13 (11 + xs.length) := by
    rw [hS4, mx4, hS3, mx3]
    by_cases hz : xs.length = 0
    · rw [if_pos hz, hz]
    · rw [if_neg hz]
      omega
  -- phase 5: the relocated dispatch header
  rcases recreate_expedicia_spec (11 + xs.length + 2) S4
      (by rw [hm4]; exact List.nodup_singleton _)
      (by
        intro cr hcr hne
        rw [hm4, List.mem_singleton] at hcr
        subst hcr
        exact reqs_box_not_touches _ (by omega)) with
    ⟨e5, m5, v5, vf5, sty5, stf5, mx5⟩
  have hp5 : recreate_expedicia_section (11 + xs.length + 2) S4 =
      ((recreate_expedicia_section (11 + xs.length + 2) S4).1, none) := by
    rw [← e5]
  have hstep : map_data_to_excel_main d templateSheet =
      ((recreate_expedicia_section (11 + xs.length + 2) S4).1, none) := by
    unfold map_data_to_excel_main
    rw [tryCatchS_eq]
    rw [seqStep_ok _ _ _ _ hp1]
    rw [seqStep_ok _ _ _ _ hp2]
    rw [hx]
    simp only []
    rw [show last_product_row xs.length = 11 + xs.length from rfl]
    rw [seqStep_ok _ _ _ _ hp3, seqStep_ok _ _ _ _ hp4, hp5]
  rw [hstep]
  refine ⟨rfl, ?_, ?_, ?_, ?_, ?_⟩
  · show (_ : Sheet).merges = _
    rw [m5, hm4]
    rw [List.erase_of_not_mem (by
      rw [List.mem_singleton]
      intro h
      have h4 := congrArg CRange.minRow h
      simp only [reqs_box, expedicia_range] at h4
      omega)]
    rfl
  · exact v5
  · exact sty5
  · intro i hi
    rw [vf5 _ _ (by omega), hS4, lab4 i hi]
  · show (_ : Sheet).maxRow = _
    rw [mx5, hmx4]
    omega

theorem splitNl_ne_nil : ∀ l : List Char, splitNl l ≠ [] := by
  intro l
  cases l with
  | nil => simp [splitNl]
  | cons c rest =>
    simp only [splitNl]
    by_cases h : c = '\n'
    · rw [if_pos h]
      simp
    · rw [if_neg h]
      rcases hs : splitNl rest with _ | ⟨g, gs⟩
      · simp
      · simp

/-- Splitting on newlines and rejoining with newlines is the identity on
character lists. -/
theorem joinNl_splitNl : ∀ l : List Char, joinNl (splitNl l) = l := by
  intro l
  induction l with
  | nil => rfl
  | cons c rest ih =>
    simp only [splitNl]
    by_cases h : c = '\n'
    · rw [if_pos h]
      rcases hs : splitNl rest with _ | ⟨g, gs⟩
      · exact absurd hs (splitNl_ne_nil rest)
      · show ('\n') :: joinNl (g :: gs) = c :: rest
        rw [hs] at ih
        rw [ih, h]
    · rw [if_neg h]
      rcases hs : splitNl rest with _ | ⟨g, gs⟩
      · exact absurd hs (splitNl_ne_nil rest)
      · simp only []
        rw [hs] at ih
        cases gs with
        | nil =>
          have ih2 : g = rest := ih
          show c :: g = c :: rest
          rw [ih2]
        | cons g2 gs2 =>
          have ih2 : g ++ ('\n') :: joinNl (g2 :: gs2) = rest := ih
          show (c :: g) ++ ('\n') :: joinNl (g2 :: gs2) = c :: rest
          rw [List.cons_append, ih2]

/-- The Python round-trip of joining what was split on newlines. -/
theorem py_join_split (s : String) : py_join_nl (py_split_nl s) = s := by
  unfold py_join_nl py_split_nl
  rw [List.map_map]
  have hmm : (String.data ∘ String.mk) = id := by
    funext x
    rfl
  rw [hmm, List.map_id, joinNl_splitNl]

/-- The requirements text the code stores: the source string itself when
truthy, the empty string otherwise. -/
theorem reqs_text_eq (d : OrderData) :
    (∀ str, pyGetStr d.specificReqs = some str → str ≠ "" →
      reqs_text d = str) ∧
    (pyTruthy (pyGetStr d.specificReqs) = false → reqs_text d = "") := by
  constructor
  · intro str hstr hne
    unfold reqs_text reqs_clauses
    rw [hstr]
    simp only []
    rw [show (!decide (str = "")) = true from by
      simp only [Bool.not_eq_true', decide_eq_false_iff_not]
      exact hne, if_bool_true]
    exact py_join_split str
  · intro hf
    unfold reqs_text reqs_clauses
    rcases hv : pyGetStr d.specificReqs with _ | str
    · rfl
    · rw [hv] at hf
      have hf2 : (!decide (str = "")) = false := hf
      simp only []
      rw [hf2, if_bool_false]
      rfl

/-- C4: the claim that both source variants compute
`last_item_row = first_item_row + item_count - 1` with a floor when
`item_count == 0` fails: `main.py` has no floor at all (`11 + len(items)`
even for the empty list), so the two variants disagree on the empty
order, and `main.py` anchors the trailing header at row 13, inside the
template's pre-styled item block.  Amended: for `item_count >= 1` both
variants agree on `first_item_row + item_count - 1 = 11 + item_count`;
for zero items only the processor floors, at 12 (the template's first
item row), while `main.py` yields 11. -/
theorem C4_last_item_row (xs : List PItem) :
    (1 ≤ xs.length →
      last_product_row xs.length = first_item_row + xs.length - 1 ∧
      last_item_row_proc xs = first_item_row + xs.length - 1) ∧
    last_item_row_proc ([] : List PItem) = first_item_row ∧
    last_product_row 0 = first_item_row - 1 := by
  refine ⟨?_, rfl, rfl⟩
  intro hn
  constructor
  · show 11 + xs.length = 12 + xs.length - 1
    omega
  · cases xs with
    | nil => simp at hn
    | cons a l =>
      show 11 + (a :: l).length = 12 + (a :: l).length - 1
      omega

/-- The claimed floor: on the empty order the two variants disagree
(11 vs 12), and `main.py` renders the relocated header at row 13. -/
theorem C4_counterexample :
    last_product_row (List.length ([] : List PItem)) = 11 ∧
    last_item_row_proc ([] : List PItem) = 12 ∧
    last_product_row (List.length ([] : List PItem)) ≠
      last_item_row_proc ([] : List PItem) ∧
    ((map_data_to_excel_main { items := some (ItemsVal.list []) }
      templateSheet).1).merges = [reqs_box, expedicia_range 13] := by
  refine ⟨rfl, rfl, by decide, ?_⟩
  have h := map_data_to_excel_main_spec
    ({ items := some (ItemsVal.list []) }) [] rfl
  exact h.2.1.trans (by decide)

/-- C5 (amended): `set_product_data` never raises, and each field cell
receives `writeOr (pyGetStr field) old`: an absent field (key missing,
`d.get` default `''`) is written as the empty string, but a field
present with JSON `null` arrives as Python `None` and
`ws.cell(value=None)` skips the assignment, so the cell keeps its prior
value rather than receiving the empty string. -/
theorem C5_absent_vs_null (row : Nat) (p : PItem) (s : Sheet) :
    (set_product_data row p s).2 = none ∧
    ((set_product_data row p s).1).val row 2 =
      writeOr (pyGetStr p.itemName) (s.val row 2) ∧
    (p.itemName = none →
      writeOr (pyGetStr p.itemName) (s.val row 2) = some ("")) ∧
    (p.itemName = some PVal.null →
      writeOr (pyGetStr p.itemName) (s.val row 2) = s.val row 2) := by
  rw [set_product_data_eq]
  refine ⟨rfl, ?_, ?_, ?_⟩
  · simp only []
    rw [if_pos trivial]
    simp [set_product_val]
  · intro h
    rw [h]
    rfl
  · intro h
    rw [h]
    rfl

/-- A null `Item Name` leaves the cell's old value in place instead of
the empty string the spec promises. -/
theorem C5_counterexample :
    ((set_product_data 12 ({ itemName := some PVal.null } : PItem)
      { val := fun r c => if r = 12 && c = 2 then some ("OLD") else none,
        style := fun _ _ => {}, height := fun _ => none,
        merges := [], maxRow := 13 }).1).val 12 2 = some ("OLD") ∧
    some ("OLD") ≠ (some ("") : Option String) := by
  constructor
  · rw [set_product_data_eq]
    decide
  · decide

/-- C6: the merge-dissolve utility never raises — also on a row with no
merges — and is idempotent: an immediate second call on the same row
returns the state unchanged and raises nothing. -/
theorem C6_unmerge_idempotent (row : Nat) (s : Sheet) :
    (safely_unmerge_row_cells row s).2 = none ∧
    safely_unmerge_row_cells row ((safely_unmerge_row_cells row s).1) =
      ((safely_unmerge_row_cells row s).1, none) := by
  constructor
  · rw [safely_unmerge_row_cells_eq]
  · rw [safely_unmerge_row_cells_eq]
    rw [safely_unmerge_row_cells_eq row s]
    simp only []
    have hff : ((s.merges.filter fun cr => !(cr.touchesRow row)).filter
        fun cr => !(cr.touchesRow row)) =
        s.merges.filter fun cr => !(cr.touchesRow row) := by
      refine List.filter_eq_self.mpr ?_
      intro cr hcr
      exact (List.mem_filter.mp hcr).2
    rw [hff]

/-- C9 (amended): neither variant ever propagates an exception — the
whole body sits in a single catch-all returning the sheet as mutated so
far — but that same single catch-all means an error in one step aborts
every remaining step of the run (there is no per-step isolation at the
assembler level): with `Items` null, `main.py` stops right after the
requirements box and the trailing block is never rendered. -/
theorem C9_catch_all (d : OrderData) (s : Sheet) :
    (map_data_to_excel_main d s).2 = none ∧
    (map_data_to_excel_proc d s).2 = none ∧
    (d.items = some ItemsVal.null →
      (map_data_to_excel_main d s).1 =
        (seqStep (header_fields_steps d) (reqs_steps_main d) s).1) := by
  refine ⟨rfl, rfl, ?_⟩
  intro hit
  have hnone : pyGetItems d.items = none := by
    rw [hit]
    rfl
  show ((seqStep (header_fields_steps d)
    (seqStep (reqs_steps_main d) _) s).1) = _
  rcases h1 : header_fields_steps d s with ⟨s1, e1⟩
  cases e1 with
  | some e =>
    rw [seqStep_raise _ _ _ _ _ h1,
      seqStep_raise (header_fields_steps d) (reqs_steps_main d) s s1 e h1]
  | none =>
    rw [seqStep_ok _ _ _ _ h1,
      seqStep_ok (header_fields_steps d) (reqs_steps_main d) s s1 h1]
    rcases h2 : reqs_steps_main d s1 with ⟨s2, e2⟩
    cases e2 with
    | some e =>
      rw [seqStep_raise _ _ _ _ _ h2]
    | none =>
      rw [seqStep_ok _ _ _ _ h2]
      simp only [hnone]
      rfl

/-- With `Items` JSON-null the one catch-all swallows the `TypeError`
(`len(None)`), returns the sheet, and every remaining step is skipped:
the relocated dispatch header is absent from the merges. -/
theorem C9_counterexample :
    pyGetItems ({ items := some ItemsVal.null } : OrderData).items = none ∧
    (map_data_to_excel_main ({ items := some ItemsVal.null }) templateSheet).2 =
      none ∧
    ((map_data_to_excel_main ({ items := some ItemsVal.null })
      templateSheet).1).merges = [reqs_box] := by
  refine ⟨rfl, rfl, ?_⟩
  decide

/-- C10 (implicit): the item writer touches only columns 1, 2, 3 and
5–10 of its target row; column 4, columns 11 and 12, every other row,
all styles and heights are unchanged, and only merges touching the row
dissolve. -/
theorem C10_item_writer_frame (row : Nat) (p : PItem) (s : Sheet) :
    (set_product_data row p s).2 = none ∧
    (∀ r c, r ≠ row → ((set_product_data row p s).1).val r c = s.val r c) ∧
    ((set_product_data row p s).1).val row 4 = s.val row 4 ∧
    ((set_product_data row p s).1).val row 11 = s.val row 11 ∧
    ((set_product_data row p s).1).val row 12 = s.val row 12 ∧
    ((set_product_data row p s).1).style = s.style ∧
    ((set_product_data row p s).1).height = s.height ∧
    ((set_product_data row p s).1).merges =
      s.merges.filter (fun cr => !(cr.touchesRow row)) := by
  rw [set_product_data_eq]
  refine ⟨rfl, ?_, ?_, ?_, ?_, rfl, rfl, rfl⟩
  · intro r c hr
    simp only []
    rw [if_neg hr]
  · simp only []
    rw [if_pos trivial]
    simp [set_product_val]
  · simp only []
    rw [if_pos trivial]
    simp [set_product_val]
  · simp only []
    rw [if_pos trivial]
    simp [set_product_val]

/-- C1: for every order with at least one item the processor renders the
merged dispatch header (`Expedícia objednávky`, columns I–L, centred,
bold, medium-bordered 20pt Calibri) at row `last_item_row + 2`, which
equals `11 + item_count + 2`: two plus the last item row, i.e. the
item-block start row plus the item count plus two under the spec's
block convention (spec §4.6 step 5 places the items at rows
`first_item_row + 1 .. last_item_row`, making row 11 the block's
anchor). -/
theorem C1_expedition_header (d : OrderData) (xs : List PItem)
    (hx : pyGetItems d.items = some xs) (hn : 1 ≤ xs.length) :
    expedicia_range (last_item_row_proc xs + 2) ∈
      ((map_data_to_excel_proc d templateSheet).1).merges ∧
    ((map_data_to_excel_proc d templateSheet).1).val
      (last_item_row_proc xs + 2) 9 = some expedicia_caption ∧
    (((map_data_to_excel_proc d templateSheet).1).style
      (last_item_row_proc xs + 2) 9).font.bold = true ∧
    (((map_data_to_excel_proc d templateSheet).1).style
      (last_item_row_proc xs + 2) 9).alignment =
      { horizontal := some ("center"), vertical := some ("center") } ∧
    (((map_data_to_excel_proc d templateSheet).1).style
      (last_item_row_proc xs + 2) 9).border = medium_border ∧
    last_item_row_proc xs + 2 = 11 + xs.length + 2 := by
  have hlast : last_item_row_proc xs = 11 + xs.length := by
    cases xs with
    | nil => exact absurd hn (by simp)
    | cons a l => rfl
  have h := map_data_to_excel_proc_spec d xs [] templateSheet hx hn rfl
    (by simp) (by decide)
  rw [hlast]
  refine ⟨?_, h.2.2.2.1, ?_, h.2.2.2.2.2.1, h.2.2.2.2.2.2.1, rfl⟩
  · rw [h.2.1]
    unfold canonical_merges
    exact List.mem_cons_of_mem _ (List.mem_cons_self _ _)
  · rw [h.2.2.2.2.1]

/-- The two independent fresh-template runs of the claim: one item puts
the header's top row at 14, five items at 18. -/
theorem C1_expedition_header_witness :
    (expedicia_range (last_item_row_proc [({} : PItem)] + 2) ∈
      ((map_data_to_excel_proc { items := some (ItemsVal.list [{}]) }
        templateSheet).1).merges) ∧
    last_item_row_proc [({} : PItem)] + 2 = 14 ∧
    (expedicia_range
        (last_item_row_proc [({} : PItem), {}, {}, {}, {}] + 2) ∈
      ((map_data_to_excel_proc
        { items := some (ItemsVal.list [{}, {}, {}, {}, {}]) }
        templateSheet).1).merges) ∧
    last_item_row_proc [({} : PItem), {}, {}, {}, {}] + 2 = 18 :=
  ⟨(C1_expedition_header { items := some (ItemsVal.list [{}]) } [{}] rfl
      (by decide)).1, by decide,
   (C1_expedition_header { items := some (ItemsVal.list [{}, {}, {}, {}, {}]) }
      [{}, {}, {}, {}, {}] rfl (by decide)).1,
   by decide⟩

/-- C2: the assembler dissolves and deletes every row past
`last_item_row` that existed before the run — template leftovers or a
previous larger run's trailing block — before re-rendering: the final
merge list is exactly the canonical one (any stale merge survives only
if it coincides with a canonical one), the extent ends at the new
footer, the item rows carry their labels, and the first row past the
items is blanked. -/
theorem C2_stale_cleanup (d : OrderData) (xs : List PItem)
    (extra : List CRange) (s : Sheet)
    (hx : pyGetItems d.items = some xs) (hn : 1 ≤ xs.length)
    (hs : s.merges = reqs_box :: extra)
    (hextra : ∀ cr ∈ extra, 9 ≤ cr.minCol ∧ 11 + xs.length < cr.minRow ∧
      cr.minRow ≤ cr.maxRow ∧ cr.maxRow ≤ s.maxRow)
    (hsm : 13 ≤ s.maxRow) :
    ((map_data_to_excel_proc d s).1).merges = canonical_merges xs.length ∧
    (∀ cr ∈ extra, cr ∉ ((map_data_to_excel_proc d s).1).merges ∨
      cr ∈ canonical_merges xs.length) ∧
    ((map_data_to_excel_proc d s).1).maxRow = 11 + xs.length + 9 ∧
    (∀ i, i < xs.length →
      ((map_data_to_excel_proc d s).1).val (12 + i) 1 =
        some (row_label (12 + i))) ∧
    ((map_data_to_excel_proc d s).1).val (11 + xs.length + 1) 1 =
      some ("") := by
  have h := map_data_to_excel_proc_spec d xs extra s hx hn hs hextra hsm
  refine ⟨h.2.1, ?_, h.2.2.1, h.2.2.2.2.2.2.2.1, h.2.2.2.2.2.2.2.2⟩
  intro cr hcr
  by_cases hc : cr ∈ canonical_merges xs.length
  · exact Or.inr hc
  · refine Or.inl ?_
    rw [h.2.1]
    exact hc

/-- The claim's concrete scenario: a 6-item run, then a 2-item run over
its output.  Exactly two labelled item rows remain, the first row past
them is blanked, the 6-item run's trailing merges (rows 19–24) are all
gone, and the merge list is the canonical 2-item one. -/
theorem C2_stale_cleanup_witness :
    ((map_data_to_excel_proc { items := some (ItemsVal.list [{}, {}]) }
      ((map_data_to_excel_proc
        { items := some (ItemsVal.list [{}, {}, {}, {}, {}, {}]) }
        templateSheet).1)).1).merges = canonical_merges 2 ∧
    expedicia_range 19 ∉
      ((map_data_to_excel_proc { items := some (ItemsVal.list [{}, {}]) }
      ((map_data_to_excel_proc
        { items := some (ItemsVal.list [{}, {}, {}, {}, {}, {}]) }
        templateSheet).1)).1).merges ∧
    (⟨20, 10, 20, 11⟩ : CRange) ∉
      ((map_data_to_excel_proc { items := some (ItemsVal.list [{}, {}]) }
      ((map_data_to_excel_proc
        { items := some (ItemsVal.list [{}, {}, {}, {}, {}, {}]) }
        templateSheet).1)).1).merges ∧
    (⟨21, 10, 24, 11⟩ : CRange) ∉
      ((map_data_to_excel_proc { items := some (ItemsVal.list [{}, {}]) }
      ((map_data_to_excel_proc
        { items := some (ItemsVal.list [{}, {}, {}, {}, {}, {}]) }
        templateSheet).1)).1).merges ∧
    ((map_data_to_excel_proc { items := some (ItemsVal.list [{}, {}]) }
      ((map_data_to_excel_proc
        { items := some (ItemsVal.list [{}, {}, {}, {}, {}, {}]) }
        templateSheet).1)).1).val (12 + 0) 1 = some ("1.") ∧
    ((map_data_to_excel_proc { items := some (ItemsVal.list [{}, {}]) }
      ((map_data_to_excel_proc
        { items := some (ItemsVal.list [{}, {}, {}, {}, {}, {}]) }
        templateSheet).1)).1).val (12 + 1) 1 = some ("2.") ∧
    ((map_data_to_excel_proc { items := some (ItemsVal.list [{}, {}]) }
      ((map_data_to_excel_proc
        { items := some (ItemsVal.list [{}, {}, {}, {}, {}, {}]) }
        templateSheet).1)).1).val
      (11 + List.length [({} : PItem), {}] + 1) 1 = some ("") ∧
    ((map_data_to_excel_proc { items := some (ItemsVal.list [{}, {}]) }
      ((map_data_to_excel_proc
        { items := some (ItemsVal.list [{}, {}, {}, {}, {}, {}]) }
        templateSheet).1)).1).maxRow = 22 := by
  have h1 := map_data_to_excel_proc_spec
    ({ items := some (ItemsVal.list [{}, {}, {}, {}, {}, {}]) })
    [{}, {}, {}, {}, {}, {}] [] templateSheet rfl (by decide) rfl (by simp)
    (by decide)
  have hmx1 : ((map_data_to_excel_proc
      { items := some (ItemsVal.list [{}, {}, {}, {}, {}, {}]) }
      templateSheet).1).maxRow = 26 := by
    rw [h1.2.2.1]
    decide
  have hmg1 : ((map_data_to_excel_proc
      { items := some (ItemsVal.list [{}, {}, {}, {}, {}, {}]) }
      templateSheet).1).merges = reqs_box ::
      [expedicia_range 19, ⟨20, 10, 20, 11⟩, ⟨21, 10, 24, 11⟩] := by
    rw [h1.2.1]
    rfl
  have h2 := C2_stale_cleanup ({ items := some (ItemsVal.list [{}, {}]) })
    [{}, {}] [expedicia_range 19, ⟨20, 10, 20, 11⟩, ⟨21, 10, 24, 11⟩]
    ((map_data_to_excel_proc
      { items := some (ItemsVal.list [{}, {}, {}, {}, {}, {}]) }
      templateSheet).1) rfl (by decide) hmg1
    (by
      intro cr hcr
      rw [hmx1]
      simp only [List.mem_cons, List.not_mem_nil, or_false] at hcr
      rcases hcr with rfl | rfl | rfl
      · exact ⟨by decide, by decide, by decide, by decide⟩
      · exact ⟨by decide, by decide, by decide, by decide⟩
      · exact ⟨by decide, by decide, by decide, by decide⟩)
    (by rw [hmx1]; omega)
  refine ⟨h2.1, ?_, ?_, ?_, ?_, ?_, h2.2.2.2.2,
    h2.2.2.1.trans (by decide)⟩
  · rw [h2.1]
    decide
  · rw [h2.1]
    decide
  · rw [h2.1]
    decide
  · exact (h2.2.2.2.1 0 (by decide)).trans (by decide)
  · exact (h2.2.2.2.1 1 (by decide)).trans (by decide)

/-- C3: running the full processor assembler a second time with the same
data over the first run's output reproduces the identical structural
layout: the same canonical merge list, the caption at the same trailing
position, and the same extent. -/
theorem C3_idempotent_layout (d : OrderData) (xs : List PItem)
    (hx : pyGetItems d.items = some xs) (hn : 1 ≤ xs.length) :
    ((map_data_to_excel_proc d templateSheet).1).merges =
      canonical_merges xs.length ∧
    ((map_data_to_excel_proc d
        ((map_data_to_excel_proc d templateSheet).1)).1).merges =
      canonical_merges xs.length ∧
    ((map_data_to_excel_proc d
        ((map_data_to_excel_proc d templateSheet).1)).1).val
      (11 + xs.length + 2) 9 = some expedicia_caption ∧
    ((map_data_to_excel_proc d
        ((map_data_to_excel_proc d templateSheet).1)).1).maxRow =
      ((map_data_to_excel_proc d templateSheet).1).maxRow := by
  have h1 := map_data_to_excel_proc_spec d xs [] templateSheet hx hn rfl
    (by simp) (by decide)
  have h2 := map_data_to_excel_proc_spec d xs
    [expedicia_range (11 + xs.length + 2),
     ⟨11 + xs.length + 3, 10, 11 + xs.length + 3, 11⟩,
     ⟨11 + xs.length + 4, 10, 11 + xs.length + 7, 11⟩]
    ((map_data_to_excel_proc d templateSheet).1) hx hn
    (by
      rw [h1.2.1]
      rfl)
    (by
      intro cr hcr
      rw [h1.2.2.1]
      simp only [List.mem_cons, List.not_mem_nil, or_false] at hcr
      rcases hcr with rfl | rfl | rfl
      · refine ⟨?_, ?_, ?_, ?_⟩
        · show (9 : Nat) ≤ 9
          omega
        · show 11 + xs.length < 11 + xs.length + 2
          omega
        · show 11 + xs.length + 2 ≤ 11 + xs.length + 2
          omega
        · show 11 + xs.length + 2 ≤ 11 + xs.length + 9
          omega
      · refine ⟨?_, ?_, ?_, ?_⟩
        · show (9 : Nat) ≤ 10
          omega
        · show 11 + xs.length < 11 + xs.length + 3
          omega
        · show 11 + xs.length + 3 ≤ 11 + xs.length + 3
          omega
        · show 11 + xs.length + 3 ≤ 11 + xs.length + 9
          omega
      · refine ⟨?_, ?_, ?_, ?_⟩
        · show (9 : Nat) ≤ 10
          omega
        · show 11 + xs.length < 11 + xs.length + 4
          omega
        · show 11 + xs.length + 4 ≤ 11 + xs.length + 7
          omega
        · show 11 + xs.length + 7 ≤ 11 + xs.length + 9
          omega)
    (by
      rw [h1.2.2.1]
      omega)
  refine ⟨h1.2.1, h2.2.1, h2.2.2.2.1, ?_⟩
  rw [h2.2.2.1, h1.2.2.1]

/-- The one-item instance of the idempotence claim: the second run's
merge list equals the first run's. -/
theorem C3_idempotent_layout_witness :
    ((map_data_to_excel_proc { items := some (ItemsVal.list [{}]) }
        ((map_data_to_excel_proc { items := some (ItemsVal.list [{}]) }
          templateSheet).1)).1).merges =
      ((map_data_to_excel_proc { items := some (ItemsVal.list [{}]) }
        templateSheet).1).merges := by
  have h := C3_idempotent_layout { items := some (ItemsVal.list [{}]) }
    [{}] rfl (by decide)
  rw [h.2.1, h.1]

/-- C7: the requirements box stores the source requirements string
verbatim — splitting on line breaks and rejoining is the identity — with
wrapped alignment, and stores the empty string when the source is empty
or absent; the box `I4:L9` is merged either way. -/
theorem C7_requirements_roundtrip (d : OrderData) (s : Sheet)
    (hcov : ∀ cr ∈ s.merges, cr ≠ reqs_box → cr.covers 4 9 = false) :
    ((reqs_steps_common d s).1).val 4 9 = some (reqs_text d) ∧
    (∀ str, pyGetStr d.specificReqs = some str → str ≠ "" →
      reqs_text d = str) ∧
    (pyTruthy (pyGetStr d.specificReqs) = false → reqs_text d = "") ∧
    reqs_box ∈ ((reqs_steps_common d s).1).merges ∧
    (((reqs_steps_common d s).1).style 4 9).alignment = wrap_alignment := by
  rcases reqs_steps_common_spec d s hcov with ⟨e, m, v49, vfr, st49, stfr, mx⟩
  rcases reqs_text_eq d with ⟨ht1, ht2⟩
  refine ⟨v49, ht1, ht2, ?_, ?_⟩
  · rw [m]
    by_cases hmem : reqs_box ∈ s.merges
    · rw [if_pos hmem]
      exact hmem
    · rw [if_neg hmem]
      exact List.mem_append.mpr (Or.inr (List.mem_singleton.mpr rfl))
  · rw [st49]

/-- The claim's round-trip input `"A\nB\nC"` on the fresh template: the
stored value is the string itself, and the box is merged. -/
theorem C7_requirements_roundtrip_witness :
    ((reqs_steps_common { specificReqs := some (PVal.str "A\nB\nC") }
      templateSheet).1).val 4 9 =
      some (reqs_text { specificReqs := some (PVal.str "A\nB\nC") }) ∧
    reqs_text ({ specificReqs := some (PVal.str "A\nB\nC") } : OrderData) =
      "A\nB\nC" ∧
    reqs_box ∈ ((reqs_steps_common
      { specificReqs := some (PVal.str "A\nB\nC") }
      templateSheet).1).merges := by
  have h := C7_requirements_roundtrip
    ({ specificReqs := some (PVal.str "A\nB\nC") }) templateSheet
    (by
      intro cr hcr hne
      have hcr2 : cr ∈ [reqs_box] := hcr
      rw [List.mem_singleton] at hcr2
      exact absurd hcr2 hne)
  exact ⟨h.1, h.2.1 ("A\nB\nC") rfl (by decide), h.2.2.2.1⟩

/-- C8: the row label is `row - first_item_row + 1` rendered `"{n}."`,
and after a fresh-template run with `n ≥ 1` items the `n` item rows
carry the sequential labels, the row past them is blank, and the sheet
ends at the footer (no leftover rows). -/
theorem C8_sequential_labels (d : OrderData) (xs : List PItem)
    (hx : pyGetItems d.items = some xs) (hn : 1 ≤ xs.length) :
    (∀ row : Nat, row_label row =
      toString ((row : Int) - (first_item_row : Int) + 1) ++ ".") ∧
    (∀ i, i < xs.length →
      ((map_data_to_excel_proc d templateSheet).1).val (12 + i) 1 =
        some (row_label (12 + i))) ∧
    ((map_data_to_excel_proc d templateSheet).1).val
      (11 + xs.length + 1) 1 = some ("") ∧
    ((map_data_to_excel_proc d templateSheet).1).maxRow =
      11 + xs.length + 9 := by
  have h := map_data_to_excel_proc_spec d xs [] templateSheet hx hn rfl
    (by simp) (by decide)
  refine ⟨?_, h.2.2.2.2.2.2.2.1, h.2.2.2.2.2.2.2.2, h.2.2.1⟩
  intro row
  unfold row_label
  congr 2
  simp only [first_item_row]
  push_cast
  ring

/-- The claim's four-item run: labels `1.` through `4.` on rows 12–15,
and row 16 blanked. -/
theorem C8_sequential_labels_witness :
    ((map_data_to_excel_proc { items := some (ItemsVal.list [{}, {}, {}, {}]) }
      templateSheet).1).val (12 + 0) 1 = some ("1.") ∧
    ((map_data_to_excel_proc { items := some (ItemsVal.list [{}, {}, {}, {}]) }
      templateSheet).1).val (12 + 1) 1 = some ("2.") ∧
    ((map_data_to_excel_proc { items := some (ItemsVal.list [{}, {}, {}, {}]) }
      templateSheet).1).val (12 + 2) 1 = some ("3.") ∧
    ((map_data_to_excel_proc { items := some (ItemsVal.list [{}, {}, {}, {}]) }
      templateSheet).1).val (12 + 3) 1 = some ("4.") ∧
    ((map_data_to_excel_proc { items := some (ItemsVal.list [{}, {}, {}, {}]) }
      templateSheet).1).val
      (11 + List.length [({} : PItem), {}, {}, {}] + 1) 1 = some ("") := by
  have h := C8_sequential_labels
    { items := some (ItemsVal.list [{}, {}, {}, {}]) }
    [{}, {}, {}, {}] rfl (by decide)
  exact ⟨(h.2.1 0 (by decide)).trans (by decide),
    (h.2.1 1 (by decide)).trans (by decide),
    (h.2.1 2 (by decide)).trans (by decide),
    (h.2.1 3 (by decide)).trans (by decide),
    h.2.2.1⟩
